import Mathlib

/-! # Gauche `prof.c`: the sampling / call-counting profiler

A shallow embedding of `src/prof.c` (the `GAUCHE_PROFILE` branch) and a
verification development over it.

Modelling conventions.

* An operation of `prof.c` is a function on an explicit `World`: the VM of
  the execution context (`Scm_VM()`), the temporary file behind
  `samplerFd`, the interval timer, the `SIGPROF` handler and the log of
  `Scm_Warn` diagnostics.  Each operation runs atomically; the blocking and
  unblocking of `SIGPROF` around the call-count flush is therefore not
  represented.
* What the operating system or an absent collaborator decides (the result of
  `Scm_Mkstemp`, whether `sigaction`, `write`, `lseek`, `read`, `ftruncate`
  succeed) is an explicit argument of the operation.
* Constants and predicates declared in headers that are not part of the
  source (`SCM_PROF_SAMPLES_IN_BUFFER`, `SCM_METHODP`, ...) are fields of a
  `Runtime` parameter.
* The C `int` counters (`totalSamples`, and the counts of the table, which
  the source computes in `int cnt`) are modelled by the natural number of
  increments since they were last 0; `cint n` is the value that the C `int`
  then holds (two's complement on 32 bits), which is `n` up to `INT_MAX`.
  Statements that equate such a counter with a number of events carry that
  bound.
* The spill file is a sequence of sample records with an offset counted in
  records: every `write` and `read` of `prof.c` transfers whole records, and
  a `write` stores all of them or fails.
* The arrays `samples` and `counts` are lists of the length of their
  capacity; the slots `[0 .. n)` are `take n`, and a store beyond the last
  slot (undefined behaviour in C) leaves the list as it is.
-/

set_option linter.unusedVariables false

namespace Prof

/-! ## Data model -/

/-- A Scheme object reference (`ScmObj`), compared by identity: either the
immediate `SCM_FALSE` or a machine pointer (`ptr 0` is the null pointer that
fills zero-initialised memory). -/
inductive ScmObj where
  | scmFalse
  | ptr (addr : Nat)
  deriving DecidableEq, Repr

/-- The immediate false value. -/
def SCM_FALSE : ScmObj := ScmObj.scmFalse

/-- Constants and object predicates that `prof.c` takes from headers outside
the source (`gauche/prof.h`, `gauche.h`, `gauche/vminsn.h`). -/
structure Runtime where
  /-- Capacity of the `samples` array. -/
  SCM_PROF_SAMPLES_IN_BUFFER : Nat
  /-- Capacity of the `counts` array. -/
  SCM_PROF_COUNTER_IN_BUFFER : Nat
  /-- The object is a method: `SCM_METHODP(obj)`. -/
  SCM_METHODP : ScmObj → Bool
  /-- The method has no native body: `SCM_METHOD(obj)->func == NULL`. -/
  methodFuncNull : ScmObj → Bool
  /-- The body code of a method: `SCM_OBJ(SCM_METHOD(obj)->data)`. -/
  methodData : ScmObj → ScmObj
  /-- The object is a subr: `SCM_SUBRP(obj)`. -/
  SCM_SUBRP : ScmObj → Bool
  /-- The instruction at a code address is a return:
  `SCM_VM_INSN_CODE(*pc) == SCM_VM_RET`. -/
  insnIsRet : Nat → Bool

/-- Lifecycle states of the profiler. -/
inductive ProfilerState where
  | SCM_PROFILER_INACTIVE
  | SCM_PROFILER_RUNNING
  | SCM_PROFILER_PAUSING
  deriving DecidableEq, Repr

open ProfilerState

/-- One sample (`ScmProfSample`): the function and the program counter
(`none` is `NULL`). -/
structure ScmProfSample where
  func : ScmObj
  pc : Option Nat
  deriving DecidableEq, Repr

/-- One call-count record (`ScmProfCount`). -/
structure ScmProfCount where
  func : ScmObj
  deriving DecidableEq, Repr

/-- The content of zero-initialised sample memory. -/
def zeroSample : ScmProfSample := ⟨ScmObj.ptr 0, none⟩

/-- The content of zero-initialised count memory. -/
def zeroCount : ScmProfCount := ⟨ScmObj.ptr 0⟩

/-- An entry of the statistics table: the key and the pair
`(call count . sample count)` that `prof.c` keeps in `e->value`
(`SCM_CAR` and `SCM_CDR`). -/
structure ScmHashEntry where
  key : ScmObj
  car : Nat
  cdr : Nat
  deriving DecidableEq, Repr

/-- The statistics table `statHash` (an `SCM_HASH_EQ` table), as the list of
its entries in insertion order. -/
abbrev StatTable := List ScmHashEntry

/-- Modelled from the spec: the hash table implementation (`hash.c`) is not
part of the source; the spec asks for a mapping with lookup by identity.
`Scm_HashTableGet` returns the entry of the key, if any. -/
def Scm_HashTableGet : StatTable → ScmObj → Option ScmHashEntry
  | [], _ => none
  | e :: t, key => if e.key = key then some e else Scm_HashTableGet t key

/-- Modelled from the spec: get-or-insert by identity (`hash.c` is not part of
the source).  `prof.c` inserts the value `SCM_FALSE` and replaces it at once
by the pair `(0 . 0)`; the two steps are one insertion of `(0 . 0)` here, so
that every value is a pair, as the `SCM_ASSERT(SCM_PAIRP(e->value))` of
`prof.c` demands. -/
def Scm_HashTableAdd (t : StatTable) (key : ScmObj) : StatTable :=
  match Scm_HashTableGet t key with
  | some _ => t
  | none => t ++ [⟨key, 0, 0⟩]

/-- Destructive update through the entry pointer returned by the table: the
entry of `key` (the one `Scm_HashTableGet` finds) is replaced by `f e`. -/
def modifyEntry (f : ScmHashEntry → ScmHashEntry) : StatTable → ScmObj → StatTable
  | [], _ => []
  | e :: t, key => if e.key = key then f e :: t else e :: modifyEntry f t key

/-- The profiler record `ScmVMProfiler`. -/
structure ScmVMProfiler where
  state : ProfilerState
  samplerFd : Int
  currentSample : Nat
  totalSamples : Nat
  errorOccurred : Nat
  currentCount : Nat
  statHash : StatTable
  samples : List ScmProfSample
  counts : List ScmProfCount
  deriving DecidableEq, Repr

/-- The part of the VM (`ScmVM`) that `prof.c` reads and writes.  `base` is
the code of the active frame (`none` is `NULL`), `pc` the address of the
current instruction, `val0` the pending result. -/
structure ScmVM where
  prof : Option ScmVMProfiler
  profilerRunning : Bool
  base : Option ScmObj
  pc : Option Nat
  val0 : ScmObj
  deriving DecidableEq, Repr

/-- The temporary file behind `samplerFd`: its records and the current file
offset (in records). -/
structure SpillFile where
  data : List ScmProfSample
  offset : Nat
  deriving DecidableEq, Repr

/-- Diagnostics emitted through `Scm_Warn`. -/
inductive Diag where
  /-- "profiler: uncounted object appeared in a sample". -/
  | uncounted (func : ScmObj)
  /-- "profiler: An error has been occurred during saving profiling samples.
  The result may not be accurate". -/
  | inaccurate
  deriving DecidableEq, Repr

/-- Errors raised through `Scm_Error` / `Scm_SysError`. -/
inductive ScmError where
  /-- "sigaction failed". -/
  | sigactionFailed
  /-- "profiler: seek failed in retrieving sample data". -/
  | seekFailed
  /-- "profiler: failed to truncate temporary file". -/
  | truncateFailed
  deriving DecidableEq, Repr

/-- Everything an operation of `prof.c` can observe or change. -/
structure World where
  /-- The VM of the execution context. -/
  vm : ScmVM
  /-- The open temporary file, `none` when no descriptor is open. -/
  spill : Option SpillFile
  /-- The `ITIMER_PROF` interval timer is armed. -/
  itimer : Bool
  /-- The handler `sampler_sample` is installed for `SIGPROF`. -/
  sigprofHandler : Bool
  /-- The diagnostics emitted so far, oldest first. -/
  warnings : List Diag
  deriving DecidableEq, Repr

/-- Store a profiler record into `vm->prof`. -/
def World.setProf (w : World) (p : ScmVMProfiler) : World :=
  { w with vm := { w.vm with prof := some p } }

/-! ## System calls on the temporary file -/

/-- The call `write(fd, buf, n)`: the records are stored at the current offset
(a gap below the offset reads as zeroes) and the offset advances.  `none` is
the result `-1`: the descriptor is not open, or the write fails (`ok` is
false). -/
def sys_write (fd : Int) (spill : Option SpillFile) (buf : List ScmProfSample)
    (ok : Bool) : Option SpillFile :=
  match spill with
  | none => none
  | some f =>
    if fd < 0 ∨ ok = false then none
    else
      let padded := f.data ++ List.replicate (f.offset - f.data.length) zeroSample
      some { data := padded.take f.offset ++ buf ++ padded.drop (f.offset + buf.length),
             offset := f.offset + buf.length }

/-- The call `lseek(fd, 0, SEEK_SET)`; `none` is the result `-1`. -/
def sys_lseek0 (fd : Int) (spill : Option SpillFile) (ok : Bool) : Option SpillFile :=
  match spill with
  | none => none
  | some f => if fd < 0 ∨ ok = false then none else some { f with offset := 0 }

/-- The call `ftruncate(fd, 0)`: the content is emptied, the offset is not
moved; `none` is a negative result. -/
def sys_ftruncate0 (fd : Int) (spill : Option SpillFile) (ok : Bool) : Option SpillFile :=
  match spill with
  | none => none
  | some f => if fd < 0 ∨ ok = false then none else some { f with data := [] }

/-- The file after `Scm_Mkstemp` returned `fd`: a new empty file when the
descriptor is valid. -/
def openTemp (fd : Int) (spill : Option SpillFile) : Option SpillFile :=
  if 0 ≤ fd then some ⟨[], 0⟩ else spill

/-! ## Statistic sampler -/

/-- The function `sampler_flush`: write the buffered samples to the temporary
file.  `writeOk` tells whether the `write` succeeds. -/
def sampler_flush (writeOk : Bool) (w : World) : World :=
  match w.vm.prof with
  | none => w
  | some p =>
    if p.samplerFd < 0 ∨ p.currentSample = 0 then w
    else
      let nsamples := p.currentSample
      match sys_write p.samplerFd w.spill (p.samples.take nsamples) writeOk with
      | none =>
        w.setProf { p with errorOccurred := p.errorOccurred + 1, currentSample := 0 }
      | some f =>
        { w with spill := some f }.setProf { p with currentSample := 0 }

/-- The sample that `sampler_sample` stores for the current VM registers. -/
def currentSampleOf (rt : Runtime) (vm : ScmVM) : ScmProfSample :=
  match vm.base with
  | some base =>
    if (match vm.pc with
        | some a => rt.insnIsRet a
        | none => false) && rt.SCM_SUBRP vm.val0 then
      ⟨vm.val0, none⟩
    else
      ⟨base, vm.pc⟩
  | none => ⟨SCM_FALSE, none⟩

/-- The signal handler `sampler_sample`: one timer tick. -/
def sampler_sample (rt : Runtime) (writeOk : Bool) (w : World) : World :=
  match w.vm.prof with
  | none => w
  | some p =>
    if p.state ≠ SCM_PROFILER_RUNNING then w
    else
      let w1 : World :=
        if rt.SCM_PROF_SAMPLES_IN_BUFFER ≤ p.currentSample then
          { sampler_flush writeOk { w with itimer := false } with itimer := true }
        else w
      match w1.vm.prof with
      | none => w1
      | some p1 =>
        let i := p1.currentSample
        w1.setProf { p1 with currentSample := i + 1,
                             samples := p1.samples.set i (currentSampleOf rt w1.vm),
                             totalSamples := p1.totalSamples + 1 }

/-- One iteration of the loop of `collect_samples`, on the table and the
diagnostics log. -/
def collectOne (acc : StatTable × List Diag) (s : ScmProfSample) : StatTable × List Diag :=
  match Scm_HashTableGet acc.1 s.func with
  | none => (acc.1, acc.2 ++ [Diag.uncounted s.func])
  | some _ => (modifyEntry (fun e => { e with cdr := e.cdr + 1 }) acc.1 s.func, acc.2)

/-- The function `collect_samples`: register the samples `samples[0 ..
currentSample)` into the table.  The diagnostics log is passed along. -/
def collect_samples (prof : ScmVMProfiler) (log : List Diag) : ScmVMProfiler × List Diag :=
  let r := (prof.samples.take prof.currentSample).foldl collectOne (prof.statHash, log)
  ({ prof with statHash := r.1 }, r.2)

/-! ## Call counter -/

/-- One iteration of the loop of `Scm_ProfilerCountBufferFlush` for the
record `c = counts[i]`.  The local `func` is computed as in the source; the
table is accessed with `counts[i].func`. -/
def countOne (rt : Runtime) (statHash : StatTable) (c : ScmProfCount) : StatTable :=
  let func := c.func
  let func := if rt.SCM_METHODP func && rt.methodFuncNull func then rt.methodData func else func
  let t := Scm_HashTableAdd statHash c.func
  modifyEntry (fun e => { e with car := e.car + 1 }) t c.func

/-- The function `Scm_ProfilerCountBufferFlush`. -/
def Scm_ProfilerCountBufferFlush (rt : Runtime) (w : World) : World :=
  match w.vm.prof with
  | none => w
  | some p =>
    if p.currentCount = 0 then w
    else
      let ncounts := p.currentCount
      w.setProf { p with statHash := (p.counts.take ncounts).foldl (countOne rt) p.statHash,
                         currentCount := 0 }

/-- Modelled from the spec: the call-site hook of `gauche/prof.h` is not part
of the source.  "RecordCall(functionIdentity): appends to the CountBuffer; if
full, synchronously flushes before appending."  Without a profiler there is
no buffer and nothing is recorded. -/
def RecordCall (rt : Runtime) (f : ScmObj) (w : World) : World :=
  match w.vm.prof with
  | none => w
  | some p =>
    let w1 : World :=
      if p.currentCount = rt.SCM_PROF_COUNTER_IN_BUFFER then
        Scm_ProfilerCountBufferFlush rt w
      else w
    match w1.vm.prof with
    | none => w1
    | some p1 =>
      w1.setProf { p1 with counts := p1.counts.set p1.currentCount ⟨f⟩,
                           currentCount := p1.currentCount + 1 }

/-! ## External API -/

/-- The record `SCM_NEW(ScmVMProfiler)` as initialised by `Scm_ProfilerStart`:
zero-filled buffers, the fields set by the assignments of the source. -/
def newProfiler (rt : Runtime) (fd : Int) : ScmVMProfiler :=
  { state := SCM_PROFILER_INACTIVE
    samplerFd := fd
    currentSample := 0
    totalSamples := 0
    errorOccurred := 0
    currentCount := 0
    statHash := []
    samples := List.replicate rt.SCM_PROF_SAMPLES_IN_BUFFER zeroSample
    counts := List.replicate rt.SCM_PROF_COUNTER_IN_BUFFER zeroCount }

/-- The function `Scm_ProfilerStart`.  `mkstemp` is the value returned by
`Scm_Mkstemp` if it is called, `sigactionOk` tells whether `sigaction`
succeeds.  The first component is the error raised, if any. -/
def Scm_ProfilerStart (rt : Runtime) (mkstemp : Int) (sigactionOk : Bool) (w : World) :
    Option ScmError × World :=
  let r : ScmVMProfiler × Option SpillFile :=
    match w.vm.prof with
    | none => (newProfiler rt mkstemp, openTemp mkstemp w.spill)
    | some p =>
      if p.samplerFd < 0 then ({ p with samplerFd := mkstemp }, openTemp mkstemp w.spill)
      else (p, w.spill)
  let w1 : World := { w with spill := r.2 }.setProf r.1
  if r.1.state = SCM_PROFILER_RUNNING then (none, w1)
  else
    let w2 : World :=
      { w1 with vm := { w1.vm with prof := some { r.1 with state := SCM_PROFILER_RUNNING },
                                   profilerRunning := true } }
    if sigactionOk then (none, { w2 with sigprofHandler := true, itimer := true })
    else (some ScmError.sigactionFailed, w2)

/-- The function `Scm_ProfilerStop`: the returned integer and the new world. -/
def Scm_ProfilerStop (w : World) : Nat × World :=
  match w.vm.prof with
  | none => (0, w)
  | some p =>
    if p.state ≠ SCM_PROFILER_RUNNING then (0, w)
    else
      (p.totalSamples,
       { w with itimer := false,
                vm := { w.vm with prof := some { p with state := SCM_PROFILER_PAUSING },
                                  profilerRunning := false } })

/-- The function `Scm_ProfilerReset`. -/
def Scm_ProfilerReset (w : World) : World :=
  match w.vm.prof with
  | none => w
  | some p =>
    if p.state = SCM_PROFILER_INACTIVE then w
    else
      let w1 : World := if p.state = SCM_PROFILER_RUNNING then (Scm_ProfilerStop w).2 else w
      match w1.vm.prof with
      | none => w1
      | some p1 =>
        let closed : Int × Option SpillFile :=
          if 0 ≤ p1.samplerFd then (-1, none) else (p1.samplerFd, w1.spill)
        { w1 with spill := closed.2 }.setProf
          { p1 with samplerFd := closed.1
                    totalSamples := 0
                    currentSample := 0
                    errorOccurred := 0
                    currentCount := 0
                    statHash := []
                    state := SCM_PROFILER_INACTIVE }

/-- What the operating system decides during one `Scm_ProfilerRawResult`. -/
structure ResultEnv where
  /-- The `lseek` succeeds. -/
  seekOk : Bool
  /-- The index (from 0) of the `read` call that returns `-1`, if any. -/
  readFailAt : Option Nat
  /-- The `ftruncate` succeeds. -/
  truncOk : Bool

/-- The outcome of `Scm_ProfilerRawResult`: `SCM_FALSE`, the table
`statHash`, or a raised error. -/
inductive ScmResult where
  | scmFalse
  | statHash (t : StatTable)
  | raised (e : ScmError)
  deriving DecidableEq, Repr

/-- Apply `collect_samples` to `vm->prof`. -/
def collectWorld (w : World) : World :=
  match w.vm.prof with
  | none => w
  | some p =>
    let r := collect_samples p w.warnings
    { w with warnings := r.2 }.setProf r.1

/-- The loop `for (;;) { r = read(...); if (r <= 0) break; ... }` of
`Scm_ProfilerRawResult`; `k` counts the `read` calls made so far.  Each
iteration that does not leave the loop consumes at least one record of the
file, so `fuel` greater than the number of unread records is never used up. -/
def readLoop (rt : Runtime) (readFailAt : Option Nat) : Nat → Nat → World → World
  | 0, _, w => w
  | fuel + 1, k, w =>
    match w.vm.prof, w.spill with
    | some p, some f =>
      if readFailAt = some k ∨ p.samplerFd < 0 then w
      else
        let chunk := (f.data.drop f.offset).take rt.SCM_PROF_SAMPLES_IN_BUFFER
        if chunk.length = 0 then w
        else
          let w1 : World :=
            { w with spill := some { f with offset := f.offset + chunk.length } }.setProf
              { p with samples := chunk ++ p.samples.drop chunk.length,
                       currentSample := chunk.length }
          readLoop rt readFailAt fuel (k + 1) (collectWorld w1)
    | _, _ => w

/-- The check `if (vm->prof->errorOccurred > 0) Scm_Warn(...)` of
`Scm_ProfilerRawResult`. -/
def warnInaccurate (w : World) : World :=
  match w.vm.prof with
  | none => w
  | some p =>
    if 0 < p.errorOccurred then { w with warnings := w.warnings ++ [Diag.inaccurate] }
    else w

/-- The second half of `Scm_ProfilerRawResult` ("collect samples in the saved
file"): seek to the start, read the file back chunk by chunk, reset
`currentSample`, truncate the file and return the table.  After a successful
seek the offset is 0, so the number of unread records is the length of the
file and the fuel given to the loop exceeds it.  The port `sampler_port` made
from the descriptor is never used by the source and is not represented. -/
def readBack (rt : Runtime) (env : ResultEnv) (w : World) : ScmResult × World :=
  match w.vm.prof with
  | none => (ScmResult.scmFalse, w)
  | some p =>
    match sys_lseek0 p.samplerFd w.spill env.seekOk with
    | none => (ScmResult.raised ScmError.seekFailed, Scm_ProfilerReset w)
    | some f =>
      let w6 := readLoop rt env.readFailAt (f.data.length + 1) 0 { w with spill := some f }
      match w6.vm.prof with
      | none => (ScmResult.scmFalse, w6)
      | some p6 =>
        let w7 := w6.setProf { p6 with currentSample := 0 }
        match sys_ftruncate0 p6.samplerFd w7.spill env.truncOk with
        | none => (ScmResult.raised ScmError.truncateFailed, w7)
        | some f7 => (ScmResult.statHash p6.statHash, { w7 with spill := some f7 })

/-- The function `Scm_ProfilerRawResult`. -/
def Scm_ProfilerRawResult (rt : Runtime) (env : ResultEnv) (w : World) : ScmResult × World :=
  match w.vm.prof with
  | none => (ScmResult.scmFalse, w)
  | some p =>
    if p.state = SCM_PROFILER_INACTIVE then (ScmResult.scmFalse, w)
    else
      let w1 : World := if p.state = SCM_PROFILER_RUNNING then (Scm_ProfilerStop w).2 else w
      let w2 := warnInaccurate w1
      let w3 := Scm_ProfilerCountBufferFlush rt w2
      let w4 := collectWorld w3
      readBack rt env w4

/-! ## Runs of the profiler -/

/-- What can happen to the profiler of one execution context: the four API
calls, a call-count flush, a recorded call, a timer tick, and the host
program changing the VM registers.  `start fd ok` is a start whose temporary
file creation succeeds with descriptor `fd`. -/
inductive Op where
  | start (fd : Nat) (sigactionOk : Bool)
  | stop
  | reset
  | result (env : ResultEnv)
  | countFlush
  | recordCall (f : ScmObj)
  | tick (writeOk : Bool)
  | setRegs (base : Option ScmObj) (pc : Option Nat) (val0 : ScmObj)

/-- The effect of one event on the world. -/
def step (rt : Runtime) (w : World) : Op → World
  | Op.start fd ok => (Scm_ProfilerStart rt (fd : Int) ok w).2
  | Op.stop => (Scm_ProfilerStop w).2
  | Op.reset => Scm_ProfilerReset w
  | Op.result env => (Scm_ProfilerRawResult rt env w).2
  | Op.countFlush => Scm_ProfilerCountBufferFlush rt w
  | Op.recordCall f => RecordCall rt f w
  | Op.tick ok => sampler_sample rt ok w
  | Op.setRegs base pc val0 => { w with vm := { w.vm with base := base, pc := pc, val0 := val0 } }

/-- The effect of a sequence of events. -/
def run (rt : Runtime) (w : World) (ops : List Op) : World :=
  ops.foldl (step rt) w

/-- The world in which the profiler does not exist yet. -/
def boot : World :=
  { vm := { prof := none, profilerRunning := false, base := none, pc := none, val0 := SCM_FALSE }
    spill := none
    itimer := false
    sigprofHandler := false
    warnings := [] }

/-- A world that a sequence of events produces from `boot`. -/
def Reachable (rt : Runtime) (w : World) : Prop :=
  ∃ ops, run rt boot ops = w

/-- The coupling between the lifecycle state, the VM flag and the descriptor
that every reachable world satisfies: `profilerRunning` is set exactly in
state RUNNING, and outside INACTIVE the descriptor is open. -/
def LifecycleInv (w : World) : Prop :=
  ∀ p, w.vm.prof = some p →
    (w.vm.profilerRunning = true ↔ p.state = SCM_PROFILER_RUNNING) ∧
    (p.state ≠ SCM_PROFILER_INACTIVE → 0 ≤ p.samplerFd)

/-- The profiler exists and is RUNNING. -/
def isRunning (w : World) : Bool :=
  match w.vm.prof with
  | none => false
  | some p => decide (p.state = SCM_PROFILER_RUNNING)

/-- The counter `totalSamples`, 0 when the profiler does not exist. -/
def totalOf (w : World) : Nat :=
  match w.vm.prof with
  | none => 0
  | some p => p.totalSamples

/-- The event executes `Scm_ProfilerReset`: a reset, or a result collection
whose seek fails. -/
def runsReset (rt : Runtime) (w : World) : Op → Bool
  | Op.reset => true
  | Op.result env => decide ((Scm_ProfilerRawResult rt env w).1 = ScmResult.raised ScmError.seekFailed)
  | _ => false

/-- The number of ticks recorded while RUNNING since the last execution of
`Scm_ProfilerReset`, along the run of `ops` from `w`; `n` is the number so
far. -/
def ticksSinceReset (rt : Runtime) : World → Nat → List Op → Nat
  | _, n, [] => n
  | w, n, op :: ops =>
    ticksSinceReset rt (step rt w op)
      (if runsReset rt w op then 0
       else match op with
         | Op.tick _ => if isRunning w then n + 1 else n
         | _ => n)
      ops

/-- No event of the run of `ops` from `w` executes `Scm_ProfilerReset`. -/
def noReset (rt : Runtime) : World → List Op → Bool
  | _, [] => true
  | w, op :: ops => !runsReset rt w op && noReset rt (step rt w op) ops

/-- A session on buffers of two entries: the function at address 8 is called
twice and sampled twice, the code at address 16 is sampled twice without ever
being called; the third tick spills the sample buffer. -/
def exSession : List Op :=
  [Op.setRegs (some (ScmObj.ptr 8)) (some 40) SCM_FALSE, Op.recordCall (ScmObj.ptr 8),
   Op.tick true, Op.tick true,
   Op.setRegs (some (ScmObj.ptr 16)) (some 80) SCM_FALSE,
   Op.tick true, Op.tick true, Op.recordCall (ScmObj.ptr 8)]

/-- A first run: the function at address 8 is called and sampled once. -/
def exRun1 : List Op :=
  [Op.setRegs (some (ScmObj.ptr 8)) (some 40) SCM_FALSE, Op.recordCall (ScmObj.ptr 8),
   Op.tick true]

/-- A second run: the function at address 8 is called once more and sampled
three times (the third tick spills the sample buffer), the function at
address 16 is called once. -/
def exRun2 : List Op :=
  [Op.recordCall (ScmObj.ptr 8), Op.tick true, Op.tick true, Op.recordCall (ScmObj.ptr 16),
   Op.tick true]

/-- An operating system on which seek, reads and truncate succeed. -/
def okEnv : ResultEnv := ⟨true, none, true⟩

/-- A paused profiler with some accumulated data, used to instantiate the
theorems at a concrete world. -/
def pausedProfiler : ScmVMProfiler :=
  { state := SCM_PROFILER_PAUSING
    samplerFd := 3
    currentSample := 1
    totalSamples := 5
    errorOccurred := 0
    currentCount := 1
    statHash := [⟨ScmObj.ptr 8, 2, 1⟩]
    samples := [⟨ScmObj.ptr 8, some 40⟩, zeroSample]
    counts := [⟨ScmObj.ptr 8⟩, zeroCount] }

/-- A world whose profiler is `pausedProfiler`. -/
def pausedWorld : World :=
  { vm := { prof := some pausedProfiler, profilerRunning := false,
            base := some (ScmObj.ptr 8), pc := some 40, val0 := SCM_FALSE }
    spill := some ⟨[⟨ScmObj.ptr 8, some 44⟩, ⟨ScmObj.ptr 16, none⟩], 2⟩
    itimer := false
    sigprofHandler := true
    warnings := [] }

/-- The world `pausedWorld` with the profiler RUNNING. -/
def runningWorld : World :=
  { pausedWorld with
    vm := { pausedWorld.vm with
            prof := some { pausedProfiler with state := SCM_PROFILER_RUNNING },
            profilerRunning := true }
    itimer := true }

/-- The world `pausedWorld` with the profiler INACTIVE. -/
def inactiveWorld : World :=
  { pausedWorld with
    vm := { pausedWorld.vm with
            prof := some { pausedProfiler with state := SCM_PROFILER_INACTIVE } } }

/-- The lifecycle state, the descriptor and `totalSamples` of the profiler,
and the VM flag: the part of the world that the lifecycle is about. -/
def ctl (w : World) : Option (ProfilerState × Int × Nat) × Bool :=
  (w.vm.prof.map (fun p => (p.state, p.samplerFd, p.totalSamples)), w.vm.profilerRunning)


/-- The invariant of reachable worlds, on the lifecycle part `c` of a world
and the number `n` of ticks recorded since the last reset: without a profiler
the flag is clear; with one, the flag is set exactly in state RUNNING, the
descriptor is open outside INACTIVE, `totalSamples` is 0 in state INACTIVE,
and `totalSamples` is `n`. -/
def CInv : Option (ProfilerState × Int × Nat) × Bool → Nat → Prop
  | (none, b), n => b = false ∧ n = 0
  | (some (s, fd, t), b), n =>
    (b = true ↔ s = SCM_PROFILER_RUNNING) ∧ (s ≠ SCM_PROFILER_INACTIVE → 0 ≤ fd) ∧
    (s = SCM_PROFILER_INACTIVE → t = 0) ∧ t = n


/-- A runtime with buffers of two entries and no methods or subrs, used to
instantiate the theorems. -/
def exRuntime : Runtime :=
  { SCM_PROF_SAMPLES_IN_BUFFER := 2
    SCM_PROF_COUNTER_IN_BUFFER := 2
    SCM_METHODP := fun _ => false
    methodFuncNull := fun _ => false
    methodData := fun o => o
    SCM_SUBRP := fun _ => false
    insnIsRet := fun _ => false }

/-- A run with two start/stop cycles: three ticks while RUNNING (the third
one spills the buffer), one tick while PAUSING, one more tick after the
resume. -/
def exCycle : List Op :=
  [Op.start 3 true, Op.setRegs (some (ScmObj.ptr 8)) (some 40) SCM_FALSE,
   Op.tick true, Op.tick true, Op.tick true, Op.stop, Op.tick true,
   Op.start 4 true, Op.tick true]


/-- The call count of `f` in a table, `none` when `f` has no entry. -/
def callCount (t : StatTable) (f : ScmObj) : Option Nat :=
  (Scm_HashTableGet t f).map (fun e => e.car)

/-- The sample count of `f` in a table, `none` when `f` has no entry. -/
def sampleCount (t : StatTable) (f : ScmObj) : Option Nat :=
  (Scm_HashTableGet t f).map (fun e => e.cdr)

/-- The sum of all sample counts of a table. -/
def sumSampleCount (t : StatTable) : Nat :=
  (t.map (fun e => e.cdr)).sum

/-- The world after the calls `fs` are recorded in order. -/
def recordCalls (rt : Runtime) (fs : List ScmObj) (w : World) : World :=
  fs.foldl (fun w f => RecordCall rt f w) w


/-- The relation between the call-count side of a profiler record and the
list `calls` of all calls recorded so far: the buffer has its full capacity,
the index is within it, and flushing the pending records yields the table
that counting every call one by one from the empty table yields. -/
def CountInv (rt : Runtime) (p : ScmVMProfiler) (calls : List ScmObj) : Prop :=
  p.counts.length = rt.SCM_PROF_COUNTER_IN_BUFFER ∧
  p.currentCount ≤ rt.SCM_PROF_COUNTER_IN_BUFFER ∧
  (p.counts.take p.currentCount).foldl (countOne rt) p.statHash =
    (calls.map ScmProfCount.mk).foldl (countOne rt) []


/-- A runtime in which the object at address 100 is a Scheme-defined method
(a method without native body) whose body code is the object at address
200. -/
def methodRuntime : Runtime :=
  { SCM_PROF_SAMPLES_IN_BUFFER := 2
    SCM_PROF_COUNTER_IN_BUFFER := 2
    SCM_METHODP := fun o => decide (o = ScmObj.ptr 100)
    methodFuncNull := fun o => decide (o = ScmObj.ptr 100)
    methodData := fun o => if o = ScmObj.ptr 100 then ScmObj.ptr 200 else o
    SCM_SUBRP := fun _ => false
    insnIsRet := fun _ => false }

/-- A session in which the method at address 100 is called once and one tick
samples its body, the code at address 200. -/
def methodSession : List Op :=
  [Op.start 3 true, Op.recordCall (ScmObj.ptr 100),
   Op.setRegs (some (ScmObj.ptr 200)) (some 40) SCM_FALSE, Op.tick true]


/-! ## Profiling sessions -/

/-- The events of a profiling session: starts whose file creation succeeds,
stops, recorded calls, call-count flushes, register changes, and ticks whose
spill write does not fail.  No reset and no result collection. -/
def sessionOp : Op → Bool
  | Op.start _ _ => true
  | Op.stop => true
  | Op.reset => false
  | Op.result _ => false
  | Op.countFlush => true
  | Op.recordCall _ => true
  | Op.tick ok => ok
  | Op.setRegs _ _ _ => true

/-- The events of one run of the profiled program between a start and a
stop: recorded calls, call-count flushes, register changes, and ticks whose
spill write does not fail. -/
def runOp : Op → Bool
  | Op.countFlush => true
  | Op.recordCall _ => true
  | Op.tick ok => ok
  | Op.setRegs _ _ _ => true
  | _ => false

/-- The calls recorded by one event. -/
def callAt : Op → List ScmObj
  | Op.recordCall f => [f]
  | _ => []

/-- The calls recorded by a sequence of events, in order. -/
def callsOf : List Op → List ScmObj
  | [] => []
  | op :: ops => callAt op ++ callsOf ops

/-- The VM registers that the sampler reads. -/
structure Regs where
  base : Option ScmObj
  pc : Option Nat
  val0 : ScmObj

/-- The registers of a VM. -/
def regsOf (vm : ScmVM) : Regs := ⟨vm.base, vm.pc, vm.val0⟩

/-- The registers after an event: only the host program changes them. -/
def regsAfter (g : Regs) : Op → Regs
  | Op.setRegs b a v => ⟨b, a, v⟩
  | _ => g

/-- Whether a session is RUNNING after an event: a start resumes it, a stop
pauses it. -/
def runningAfter (running : Bool) : Op → Bool
  | Op.start _ _ => true
  | Op.stop => false
  | _ => running

/-- The sample recorded by one event of a session: a tick records the sample
of the current registers when the profiler is RUNNING. -/
def sampleAt (rt : Runtime) (running : Bool) (g : Regs) : Op → List ScmProfSample
  | Op.tick _ =>
    if running then [currentSampleOf rt ⟨none, false, g.base, g.pc, g.val0⟩] else []
  | _ => []

/-- The samples recorded by the ticks of a session, in order.  `running` is
the initial lifecycle state, `g` holds the initial registers. -/
def samplesOf (rt : Runtime) : Bool → Regs → List Op → List ScmProfSample
  | _, _, [] => []
  | running, g, op :: ops =>
    sampleAt rt running g op ++ samplesOf rt (runningAfter running op) (regsAfter g op) ops

/-- The effect of one iteration of the loop of `collect_samples` on the table
alone: the sample count of the entry of the sampled function, if there is
one, is incremented. -/
def collectKey (t : StatTable) (s : ScmProfSample) : StatTable :=
  modifyEntry (fun e => { e with cdr := e.cdr + 1 }) t s.func

/-- The table that counting the calls one by one from the empty table gives. -/
def countAll (rt : Runtime) (calls : List ScmObj) : StatTable :=
  (calls.map ScmProfCount.mk).foldl (countOne rt) []

/-- The table that aggregating the calls and then the samples, each one by
one in the order recorded, gives. -/
def aggregate (rt : Runtime) (calls : List ScmObj) (samples : List ScmProfSample) : StatTable :=
  (samples.foldl collectOne (countAll rt calls, [])).1

/-- The diagnostic of a sample without table entry. -/
def uncountedDiag (s : ScmProfSample) : Diag := Diag.uncounted s.func

/-- The samples of a list whose function has no entry in the table. -/
def droppedSamples (t : StatTable) (samples : List ScmProfSample) : List ScmProfSample :=
  samples.filter (fun s => (Scm_HashTableGet t s.func).isNone)

/-- The relation between the sample side of a session and the list `samples`
of all samples recorded so far: the buffer has its full capacity, the index
is within it, the file offset is at the end of the file, and the file content
followed by the buffered samples is `samples`. -/
def SampInv (rt : Runtime) (p : ScmVMProfiler) (f : SpillFile)
    (samples : List ScmProfSample) : Prop :=
  p.samples.length = rt.SCM_PROF_SAMPLES_IN_BUFFER ∧
  p.currentSample ≤ rt.SCM_PROF_SAMPLES_IN_BUFFER ∧
  f.offset = f.data.length ∧
  f.data ++ p.samples.take p.currentSample = samples

/-- The invariant of a session: the profiler exists in state RUNNING or
PAUSING as `running` tells, its descriptor is open on the file, no write has
failed, `totalSamples` is the number of samples recorded, no sample has been
aggregated into the table yet, and both buffers are in relation
with the calls and samples recorded so far. -/
def SessInv (rt : Runtime) (w : World) (running : Bool) (calls : List ScmObj)
    (samples : List ScmProfSample) : Prop :=
  ∃ p f, w.vm.prof = some p ∧ w.spill = some f ∧
    p.state = (if running then SCM_PROFILER_RUNNING else SCM_PROFILER_PAUSING) ∧
    0 ≤ p.samplerFd ∧ p.errorOccurred = 0 ∧
    p.totalSamples = samples.length ∧ sumSampleCount p.statHash = 0 ∧
    CountInv rt p calls ∧ SampInv rt p f samples


/-- An operating system on which the seek of the result collection fails. -/
def seekFailEnv : ResultEnv := ⟨false, none, true⟩


/-- The index `i` of `samples[i]` at which `sampler_sample` stores the sample
of a tick (`i = vm->prof->currentSample++`, after the flush of a full
buffer); `none` when the tick records nothing. -/
def sampleIndex (rt : Runtime) (writeOk : Bool) (w : World) : Option Nat :=
  match w.vm.prof with
  | none => none
  | some p =>
    if p.state ≠ SCM_PROFILER_RUNNING then none
    else
      let w1 : World :=
        if rt.SCM_PROF_SAMPLES_IN_BUFFER ≤ p.currentSample then
          { sampler_flush writeOk { w with itimer := false } with itimer := true }
        else w
      w1.vm.prof.map (fun p1 => p1.currentSample)

/-- The sample buffer is well formed: the array has its capacity and the
index is within it. -/
def BufInv (rt : Runtime) (w : World) : Prop :=
  ∀ p, w.vm.prof = some p →
    p.samples.length = rt.SCM_PROF_SAMPLES_IN_BUFFER ∧
    p.currentSample ≤ rt.SCM_PROF_SAMPLES_IN_BUFFER


/-- A running profiler whose sample buffer (two entries) is full. -/
def fullProfiler : ScmVMProfiler :=
  { state := SCM_PROFILER_RUNNING
    samplerFd := 3
    currentSample := 2
    totalSamples := 2
    errorOccurred := 0
    currentCount := 0
    statHash := [⟨ScmObj.ptr 8, 1, 0⟩]
    samples := [⟨ScmObj.ptr 8, some 40⟩, ⟨ScmObj.ptr 8, some 44⟩]
    counts := [⟨ScmObj.ptr 8⟩, zeroCount] }

/-- A world whose profiler is `fullProfiler`, with an empty spill file. -/
def fullWorld : World :=
  { vm := { prof := some fullProfiler, profilerRunning := true,
            base := some (ScmObj.ptr 8), pc := some 48, val0 := SCM_FALSE }
    spill := some ⟨[], 0⟩
    itimer := true
    sigprofHandler := true
    warnings := [] }

/-- The world after a tick on `fullWorld` whose spill write fails. -/
def degradedWorld : World := sampler_sample exRuntime false fullWorld


/-- A runtime in which the instruction at address 40 is a return and the
object at address 300 is a subr. -/
def subrRuntime : Runtime :=
  { SCM_PROF_SAMPLES_IN_BUFFER := 2
    SCM_PROF_COUNTER_IN_BUFFER := 2
    SCM_METHODP := fun _ => false
    methodFuncNull := fun _ => false
    methodData := fun o => o
    SCM_SUBRP := fun o => decide (o = ScmObj.ptr 300)
    insnIsRet := fun a => decide (a = 40) }

/-- A tick taken while no frame is active (`vm->base` is `NULL`), the program
counter is at the return instruction at address 40 and the pending result is
the subr at address 300. -/
def subrNoFrame : List Op :=
  [Op.start 3 true, Op.setRegs none (some 40) (ScmObj.ptr 300), Op.tick true]

/-- The same tick with an active frame whose code is at address 8. -/
def subrInFrame : List Op :=
  [Op.start 3 true, Op.setRegs (some (ScmObj.ptr 8)) (some 40) (ScmObj.ptr 300), Op.tick true]


/-- A first collection cycle: the function at address 8 is called once and
sampled three times (the third tick spills the two buffered samples), then
the result is collected on an operating system on which everything
succeeds. -/
def exReuse1 : List Op :=
  [Op.start 3 true, Op.setRegs (some (ScmObj.ptr 8)) (some 40) SCM_FALSE,
   Op.recordCall (ScmObj.ptr 8), Op.tick true, Op.tick true, Op.tick true, Op.result okEnv]

/-- The first cycle followed by the run of a second one: the function at
address 16 is called once and sampled three times (the third tick spills the
two buffered samples). -/
def exReuse : List Op :=
  exReuse1 ++
  [Op.start 3 true, Op.setRegs (some (ScmObj.ptr 16)) (some 80) SCM_FALSE,
   Op.recordCall (ScmObj.ptr 16), Op.tick true, Op.tick true, Op.tick true]


/-! ## The C type `int` of the counters -/

/-- The largest value of the C type `int` (32 bits), the type in which
`prof.c` keeps `totalSamples` (returned by `int Scm_ProfilerStop(void)`) and
computes the counts of the table (`int cnt` in `collect_samples` and in
`Scm_ProfilerCountBufferFlush`). -/
def INT_MAX : Nat := 2147483647

/-- The value that a C `int` counter holds after `n` increments from 0, in
two's complement on 32 bits.  The model keeps the number `n` of increments
itself in `totalSamples` and in the counts of the table; the C program holds
`cint n`, which is `n` as long as `n ≤ INT_MAX` and wraps to `-2147483648` at
the increment after `INT_MAX`. -/
def cint (n : Nat) : Int := (((n + 2147483648) % 4294967296 : Nat) : Int) - 2147483648

/-- The calls of a run in which the function at address 8 is called
`INT_MAX + 1` times. -/
def manyCalls : List ScmObj := List.replicate 2147483648 (ScmObj.ptr 8)

/-- A session in which the function at address 8 is called once and then
sampled by `n` ticks. -/
def longSession (n : Nat) : List Op :=
  Op.setRegs (some (ScmObj.ptr 8)) (some 40) SCM_FALSE :: Op.recordCall (ScmObj.ptr 8) ::
    List.replicate n (Op.tick true)

/-- An operating system on which the first `read` of the result collection
fails (seek and truncate succeed). -/
def readFailEnv : ResultEnv := ⟨true, some 0, true⟩

/-- The run `exRun2` with a spill write that fails: run after `exRun1`, its
second tick finds the buffer full and loses the two buffered samples. -/
def exRun2Fail : List Op :=
  [Op.recordCall (ScmObj.ptr 8), Op.tick true, Op.tick false, Op.recordCall (ScmObj.ptr 16),
   Op.tick true]


/-! # Verification -/

/-! ## The C type `int` -/

/-- Up to `INT_MAX` the C `int` holds the number of increments. -/
theorem cint_of_le (n : Nat) (h : n ≤ INT_MAX) : cint n = (n : Int) := by
  simp only [cint, INT_MAX] at *
  omega

/-- On the C `int`, the order of two counts is the order of the numbers of
increments as long as the larger one is at most `INT_MAX`. -/
theorem cint_mono (m n : Nat) (hmn : m ≤ n) (h : n ≤ INT_MAX) : cint m ≤ cint n := by
  rw [cint_of_le m (le_trans hmn h), cint_of_le n h]
  exact_mod_cast hmn

/-- The increment after `INT_MAX` wraps. -/
theorem cint_wrap : cint (INT_MAX + 1) = -2147483648 := by
  decide

/-! ## Stop, Reset and Result outside a profiling session -/

/-- C7. Stop when not running: if the profiler does not exist, or exists in
state INACTIVE or PAUSING, `Scm_ProfilerStop` returns 0 and leaves the whole
world (state, flag, counters, buffers, table, spill file, timer, diagnostics)
unchanged. -/
theorem Scm_ProfilerStop_not_running (w : World)
    (h : w.vm.prof = none ∨
      ∃ p, w.vm.prof = some p ∧
        (p.state = SCM_PROFILER_INACTIVE ∨ p.state = SCM_PROFILER_PAUSING)) :
    Scm_ProfilerStop w = (0, w) := by
  rcases h with h | ⟨p, hp, hs⟩
  · simp [Scm_ProfilerStop, h]
  · rcases hs with hs | hs <;> simp [Scm_ProfilerStop, hp, hs]

/-- Instance of C7 at a paused profiler with accumulated data. -/
theorem Scm_ProfilerStop_not_running_witness :
    Scm_ProfilerStop pausedWorld = (0, pausedWorld) :=
  Scm_ProfilerStop_not_running pausedWorld
    (Or.inr ⟨pausedProfiler, rfl, Or.inr rfl⟩)

/-- C8. Result without data: if the profiler does not exist or is INACTIVE,
`Scm_ProfilerRawResult` returns `SCM_FALSE`, raises nothing, emits no
diagnostic and leaves the whole world unchanged, whatever the operating
system would have answered. -/
theorem Scm_ProfilerRawResult_no_data (rt : Runtime) (env : ResultEnv) (w : World)
    (h : w.vm.prof = none ∨ ∃ p, w.vm.prof = some p ∧ p.state = SCM_PROFILER_INACTIVE) :
    Scm_ProfilerRawResult rt env w = (ScmResult.scmFalse, w) := by
  rcases h with h | ⟨p, hp, hs⟩
  · simp [Scm_ProfilerRawResult, h]
  · simp [Scm_ProfilerRawResult, hp, hs]

/-- Instance of C8 at an INACTIVE profiler that still holds stale data. -/
theorem Scm_ProfilerRawResult_no_data_witness :
    Scm_ProfilerRawResult ⟨2, 2, fun _ => false, fun _ => false, id, fun _ => false, fun _ => false⟩
      ⟨true, none, true⟩ inactiveWorld = (ScmResult.scmFalse, inactiveWorld) :=
  Scm_ProfilerRawResult_no_data _ _ inactiveWorld
    (Or.inr ⟨{ pausedProfiler with state := SCM_PROFILER_INACTIVE }, rfl, rfl⟩)

/-- After `Scm_ProfilerStop` the profiler still exists if it did. -/
theorem Scm_ProfilerStop_prof (w : World) (p : ScmVMProfiler) (hp : w.vm.prof = some p) :
    (Scm_ProfilerStop w).2.vm.prof =
      some (if p.state = SCM_PROFILER_RUNNING then { p with state := SCM_PROFILER_PAUSING }
            else p) := by
  by_cases hs : p.state = SCM_PROFILER_RUNNING <;> simp [Scm_ProfilerStop, hp, hs]

/-- A reset of an active profiler leaves state INACTIVE. -/
theorem Scm_ProfilerReset_state (w : World) (p : ScmVMProfiler) (hp : w.vm.prof = some p) :
    ∃ q, (Scm_ProfilerReset w).vm.prof = some q ∧ q.state = SCM_PROFILER_INACTIVE := by
  by_cases hi : p.state = SCM_PROFILER_INACTIVE
  · exact ⟨p, by simp [Scm_ProfilerReset, hp, hi], hi⟩
  · by_cases hs : p.state = SCM_PROFILER_RUNNING
    · simp [Scm_ProfilerReset, hp, hs, Scm_ProfilerStop, World.setProf]
    · simp [Scm_ProfilerReset, hp, hs, hi, World.setProf]

/-- C10. Idempotent Reset: in every world, a second `Scm_ProfilerReset`
changes nothing; and when the profiler does not exist or is INACTIVE the
first one changes nothing either (the table is not replaced). -/
theorem Scm_ProfilerReset_idempotent (w : World) :
    Scm_ProfilerReset (Scm_ProfilerReset w) = Scm_ProfilerReset w ∧
    ((w.vm.prof = none ∨ ∃ p, w.vm.prof = some p ∧ p.state = SCM_PROFILER_INACTIVE) →
      Scm_ProfilerReset w = w) := by
  constructor
  · cases hp : w.vm.prof with
    | none => simp [Scm_ProfilerReset, hp]
    | some p =>
      obtain ⟨q, hq, hqs⟩ := Scm_ProfilerReset_state w p hp
      generalize Scm_ProfilerReset w = w' at hq
      simp [Scm_ProfilerReset, hq, hqs]
  · rintro (h | ⟨p, hp, hs⟩)
    · simp [Scm_ProfilerReset, h]
    · simp [Scm_ProfilerReset, hp, hs]

/-- Instance of C10: resetting a running profiler twice, and resetting an
INACTIVE one. -/
theorem Scm_ProfilerReset_idempotent_witness :
    Scm_ProfilerReset (Scm_ProfilerReset runningWorld) = Scm_ProfilerReset runningWorld ∧
    Scm_ProfilerReset inactiveWorld = inactiveWorld :=
  ⟨(Scm_ProfilerReset_idempotent runningWorld).1,
   (Scm_ProfilerReset_idempotent inactiveWorld).2
     (Or.inr ⟨{ pausedProfiler with state := SCM_PROFILER_INACTIVE }, rfl, rfl⟩)⟩


/-! ## Frame lemmas: what the helpers leave alone -/

theorem ctl_collectWorld (w : World) : ctl (collectWorld w) = ctl w := by
  cases hp : w.vm.prof with
  | none => simp [collectWorld, hp]
  | some p => simp [collectWorld, hp, ctl, World.setProf, collect_samples]

theorem ctl_countBufferFlush (rt : Runtime) (w : World) :
    ctl (Scm_ProfilerCountBufferFlush rt w) = ctl w := by
  cases hp : w.vm.prof with
  | none => simp [Scm_ProfilerCountBufferFlush, hp]
  | some p =>
    by_cases hc : p.currentCount = 0
    · simp [Scm_ProfilerCountBufferFlush, hp, hc]
    · simp [Scm_ProfilerCountBufferFlush, hp, hc, ctl, World.setProf]

theorem ctl_RecordCall (rt : Runtime) (f : ScmObj) (w : World) :
    ctl (RecordCall rt f w) = ctl w := by
  cases hp : w.vm.prof with
  | none => simp [RecordCall, hp]
  | some p =>
    have h1 := ctl_countBufferFlush rt w
    simp only [RecordCall, hp]
    split_ifs with hc
    · cases hq : (Scm_ProfilerCountBufferFlush rt w).vm.prof with
      | none => simpa [hq] using h1
      | some q =>
        simp only [ctl, hq, hp, Option.map_some'] at h1 ⊢
        simpa [World.setProf] using h1
    · simp [hp, ctl, World.setProf]

theorem ctl_sampler_flush (ok : Bool) (w : World) : ctl (sampler_flush ok w) = ctl w := by
  cases hp : w.vm.prof with
  | none => simp [sampler_flush, hp]
  | some p =>
    simp only [sampler_flush, hp]
    split_ifs with hc
    · simp [ctl, hp]
    · cases sys_write p.samplerFd w.spill (List.take p.currentSample p.samples) ok <;>
        simp [ctl, hp, World.setProf]

theorem ctl_readLoop (rt : Runtime) (rf : Option Nat) (fuel k : Nat) (w : World) :
    ctl (readLoop rt rf fuel k w) = ctl w := by
  induction fuel generalizing k w with
  | zero => simp [readLoop]
  | succ n ih =>
    cases hp : w.vm.prof with
    | none => simp [readLoop, hp]
    | some p =>
      cases hf : w.spill with
      | none => simp [readLoop, hp, hf]
      | some f =>
        simp only [readLoop, hp, hf]
        split_ifs with h1 h2
        · simp [ctl, hp]
        · simp [ctl, hp]
        · rw [ih, ctl_collectWorld]
          simp [ctl, hp, World.setProf]


theorem ctl_warnInaccurate (w : World) : ctl (warnInaccurate w) = ctl w := by
  cases hp : w.vm.prof with
  | none => simp [warnInaccurate, hp]
  | some p => simp only [warnInaccurate, hp]; split_ifs <;> simp [ctl, hp]

theorem ctl_Stop_running (w : World) (p : ScmVMProfiler) (hp : w.vm.prof = some p)
    (hs : p.state = SCM_PROFILER_RUNNING) :
    ctl (Scm_ProfilerStop w).2 = (some (SCM_PROFILER_PAUSING, p.samplerFd, p.totalSamples), false) := by
  simp [Scm_ProfilerStop, hp, hs, ctl]

theorem ctl_Reset_active (w : World) (p : ScmVMProfiler) (hp : w.vm.prof = some p)
    (hs : p.state ≠ SCM_PROFILER_INACTIVE) :
    ctl (Scm_ProfilerReset w) =
      (some (SCM_PROFILER_INACTIVE, (if 0 ≤ p.samplerFd then -1 else p.samplerFd), 0),
       if p.state = SCM_PROFILER_RUNNING then false else w.vm.profilerRunning) := by
  by_cases hr : p.state = SCM_PROFILER_RUNNING
  · by_cases hfd : 0 ≤ p.samplerFd <;>
      simp [Scm_ProfilerReset, hp, hr, Scm_ProfilerStop, ctl, World.setProf, hfd]
  · by_cases hfd : 0 ≤ p.samplerFd <;>
      simp [Scm_ProfilerReset, hp, hr, hs, ctl, World.setProf, hfd]

theorem ctl_sampler_sample (rt : Runtime) (ok : Bool) (w : World) :
    ctl (sampler_sample rt ok w) =
      if isRunning w then
        (w.vm.prof.map (fun p => (p.state, p.samplerFd, p.totalSamples + 1)), w.vm.profilerRunning)
      else ctl w := by
  cases hp : w.vm.prof with
  | none => simp [sampler_sample, hp, isRunning]
  | some p =>
    by_cases hs : p.state = SCM_PROFILER_RUNNING
    · simp only [sampler_sample, hp, isRunning, hs, ne_eq, not_true_eq_false, if_false,
        decide_True, if_true, Option.map_some']
      split_ifs with hc
      · have h1 := ctl_sampler_flush ok { w with itimer := false }
        cases hq : (sampler_flush ok { w with itimer := false }).vm.prof with
        | none => simp [ctl, hq, hp] at h1
        | some q =>
          simp only [ctl, hq, hp, Option.map_some', Prod.mk.injEq, Option.some.injEq] at h1
          simp [ctl, hq, World.setProf, h1.1.1, h1.1.2.1, h1.1.2.2, h1.2, hs]
      · simp [hp, ctl, World.setProf, hs]
    · simp [sampler_sample, hp, isRunning, hs]

/-- The lifecycle part of the world after the read-back phase: either the
seek failed and `Scm_ProfilerReset` ran, or nothing of it changed. -/
theorem ctl_readBack (rt : Runtime) (env : ResultEnv) (w : World) (p : ScmVMProfiler)
    (hp : w.vm.prof = some p) (hs : p.state ≠ SCM_PROFILER_INACTIVE) :
    ((readBack rt env w).1 = ScmResult.raised ScmError.seekFailed ∧
      (readBack rt env w).2 = Scm_ProfilerReset w) ∨
    ((readBack rt env w).1 ≠ ScmResult.raised ScmError.seekFailed ∧
      ctl (readBack rt env w).2 = ctl w) := by
  simp only [readBack, hp]
  cases hseek : sys_lseek0 p.samplerFd w.spill env.seekOk with
  | none => left; exact ⟨rfl, rfl⟩
  | some f =>
    right
    dsimp only
    have hc6 := ctl_readLoop rt env.readFailAt (f.data.length + 1) 0 { w with spill := some f }
    generalize readLoop rt env.readFailAt (f.data.length + 1) 0 { w with spill := some f } = w6
      at hc6
    cases hp6 : w6.vm.prof with
    | none => simp [ctl, hp6, hp] at hc6
    | some p6 =>
      simp only [ctl, hp6, hp, Option.map_some', Prod.mk.injEq, Option.some.injEq] at hc6
      dsimp only
      cases sys_ftruncate0 p6.samplerFd (w6.setProf { p6 with currentSample := 0 }).spill
          env.truncOk with
      | none =>
        refine ⟨by simp, ?_⟩
        simp [ctl, World.setProf, hc6.1.1, hc6.1.2.1, hc6.1.2.2, hc6.2, hp]
      | some f7 =>
        refine ⟨by simp, ?_⟩
        simp [ctl, World.setProf, hc6.1.1, hc6.1.2.1, hc6.1.2.2, hc6.2, hp]

/-- The lifecycle part of the world after a result collection on an active
profiler: either the seek failed and `Scm_ProfilerReset` ran, or the profiler
is PAUSING with its descriptor and `totalSamples` unchanged. -/
theorem ctl_RawResult_active (rt : Runtime) (env : ResultEnv) (w : World) (p : ScmVMProfiler)
    (hp : w.vm.prof = some p) (hs : p.state ≠ SCM_PROFILER_INACTIVE) :
    ((Scm_ProfilerRawResult rt env w).1 = ScmResult.raised ScmError.seekFailed ∧
      ctl (Scm_ProfilerRawResult rt env w).2 =
        (some (SCM_PROFILER_INACTIVE, (if 0 ≤ p.samplerFd then -1 else p.samplerFd), 0),
         if p.state = SCM_PROFILER_RUNNING then false else w.vm.profilerRunning)) ∨
    ((Scm_ProfilerRawResult rt env w).1 ≠ ScmResult.raised ScmError.seekFailed ∧
      ctl (Scm_ProfilerRawResult rt env w).2 =
        (some (SCM_PROFILER_PAUSING, p.samplerFd, p.totalSamples),
         if p.state = SCM_PROFILER_RUNNING then false else w.vm.profilerRunning)) := by
  have hc1 : ctl (if p.state = SCM_PROFILER_RUNNING then (Scm_ProfilerStop w).2 else w) =
      (some (SCM_PROFILER_PAUSING, p.samplerFd, p.totalSamples),
         if p.state = SCM_PROFILER_RUNNING then false else w.vm.profilerRunning) := by
    by_cases hr : p.state = SCM_PROFILER_RUNNING
    · simp only [hr, if_true]; exact ctl_Stop_running w p hp hr
    · have hpz : p.state = SCM_PROFILER_PAUSING := by
        cases hst : p.state <;> simp_all
      simp [hr, ctl, hp, hpz]
  have hc4 : ctl (collectWorld (Scm_ProfilerCountBufferFlush rt (warnInaccurate
      (if p.state = SCM_PROFILER_RUNNING then (Scm_ProfilerStop w).2 else w)))) =
      (some (SCM_PROFILER_PAUSING, p.samplerFd, p.totalSamples),
         if p.state = SCM_PROFILER_RUNNING then false else w.vm.profilerRunning) := by
    rw [ctl_collectWorld, ctl_countBufferFlush, ctl_warnInaccurate, hc1]
  simp only [Scm_ProfilerRawResult, hp, hs, if_false]
  generalize collectWorld (Scm_ProfilerCountBufferFlush rt (warnInaccurate
      (if p.state = SCM_PROFILER_RUNNING then (Scm_ProfilerStop w).2 else w))) = w4 at hc4
  cases hp4 : w4.vm.prof with
  | none => simp [ctl, hp4] at hc4
  | some p4 =>
    have hc4' := hc4
    simp only [ctl, hp4, Option.map_some', Prod.mk.injEq, Option.some.injEq] at hc4'
    obtain ⟨⟨h4s, h4f, h4t⟩, h4r⟩ := hc4'
    rcases ctl_readBack rt env w4 p4 hp4 (by simp [h4s]) with ⟨h1, h2⟩ | ⟨h1, h2⟩
    · left
      refine ⟨h1, ?_⟩
      rw [h2, ctl_Reset_active w4 p4 hp4 (by simp [h4s])]
      simp [h4s, h4f, h4r]
    · right
      exact ⟨h1, by rw [h2, hc4]⟩


/-! ## The lifecycle invariant of reachable worlds -/

theorem ctl_Start (rt : Runtime) (mk : Int) (ok : Bool) (w : World) :
    ctl (Scm_ProfilerStart rt mk ok w).2 =
      match w.vm.prof with
      | none => (some (SCM_PROFILER_RUNNING, mk, 0), true)
      | some p =>
        (some (SCM_PROFILER_RUNNING, (if p.samplerFd < 0 then mk else p.samplerFd), p.totalSamples),
         if p.state = SCM_PROFILER_RUNNING then w.vm.profilerRunning else true) := by
  cases hp : w.vm.prof with
  | none =>
    cases ok <;> simp [Scm_ProfilerStart, hp, newProfiler, ctl, World.setProf]
  | some p =>
    by_cases hfd : p.samplerFd < 0 <;> by_cases hs : p.state = SCM_PROFILER_RUNNING <;>
      cases ok <;> simp [Scm_ProfilerStart, hp, ctl, World.setProf, hfd, hs]

theorem ctl_Stop (w : World) :
    ctl (Scm_ProfilerStop w).2 =
      match w.vm.prof with
      | none => ctl w
      | some p =>
        if p.state = SCM_PROFILER_RUNNING then
          (some (SCM_PROFILER_PAUSING, p.samplerFd, p.totalSamples), false)
        else ctl w := by
  cases hp : w.vm.prof with
  | none => simp [Scm_ProfilerStop, hp]
  | some p =>
    by_cases hs : p.state = SCM_PROFILER_RUNNING
    · simp only [hs, if_true]; exact ctl_Stop_running w p hp hs
    · simp [Scm_ProfilerStop, hp, hs]

theorem ctl_eq_some (w : World) (p : ScmVMProfiler) (hp : w.vm.prof = some p) :
    ctl w = (some (p.state, p.samplerFd, p.totalSamples), w.vm.profilerRunning) := by
  simp [ctl, hp]

theorem ctl_eq_none (w : World) (hp : w.vm.prof = none) :
    ctl w = (none, w.vm.profilerRunning) := by
  simp [ctl, hp]

/-- One event preserves the invariant, the tick counter being advanced as
`ticksSinceReset` does. -/
theorem CInv_step (rt : Runtime) (w : World) (n : Nat) (op : Op) (h : CInv (ctl w) n) :
    CInv (ctl (step rt w op))
      (if runsReset rt w op then 0
       else match op with
         | Op.tick _ => if isRunning w then n + 1 else n
         | _ => n) := by
  cases hp : w.vm.prof with
  | none =>
    rw [ctl_eq_none w hp] at h
    obtain ⟨hb, hn⟩ := h
    cases op with
    | start fd ok => simp [step, runsReset, ctl_Start, hp, CInv, hn]
    | stop => simp [step, runsReset, ctl_Stop, hp, ctl_eq_none, CInv, hn, hb]
    | reset => simp [step, runsReset, Scm_ProfilerReset, hp, ctl_eq_none, CInv, hb]
    | result env =>
      simp [step, runsReset, Scm_ProfilerRawResult, hp, ctl_eq_none, CInv, hb, hn]
    | countFlush => simp [step, runsReset, ctl_countBufferFlush, hp, ctl_eq_none, CInv, hb, hn]
    | recordCall f => simp [step, runsReset, ctl_RecordCall, hp, ctl_eq_none, CInv, hb, hn]
    | tick ok =>
      simp [step, runsReset, ctl_sampler_sample, isRunning, hp, ctl_eq_none, CInv, hb, hn]
    | setRegs b pc v => simp [step, runsReset, ctl, hp, CInv, hb, hn]
  | some p =>
    rw [ctl_eq_some w p hp] at h
    obtain ⟨hb, hfd, hz, hn⟩ := h
    cases op with
    | start fd ok =>
      simp only [step, runsReset, ctl_Start, hp, Bool.false_eq_true, if_false]
      refine ⟨?_, ?_, by simp, hn⟩
      · by_cases hs : p.state = SCM_PROFILER_RUNNING
        · simp [hs, hb]
        · simp [hs]
      · intro _
        by_cases hlt : p.samplerFd < 0
        · simp [hlt]
        · simp only [hlt, if_false]; omega
    | stop =>
      simp only [step, runsReset, ctl_Stop, hp, Bool.false_eq_true, if_false]
      by_cases hs : p.state = SCM_PROFILER_RUNNING
      · simp only [hs, if_true]
        exact ⟨by simp, fun _ => hfd (by simp [hs]), by simp, hn⟩
      · simp only [hs, if_false, ctl_eq_some w p hp]
        exact ⟨hb, hfd, hz, hn⟩
    | reset =>
      simp only [step, runsReset, if_true]
      by_cases hi : p.state = SCM_PROFILER_INACTIVE
      · have : Scm_ProfilerReset w = w := by simp [Scm_ProfilerReset, hp, hi]
        rw [this, ctl_eq_some w p hp]
        exact ⟨hb, hfd, hz, hz hi⟩
      · rw [ctl_Reset_active w p hp hi]
        refine ⟨?_, by simp, by simp, rfl⟩
        by_cases hs : p.state = SCM_PROFILER_RUNNING
        · simp [hs]
        · simp only [hs, if_false]
          constructor
          · intro hb'; exact absurd (hb.1 hb') hs
          · intro h'; cases h'
    | result env =>
      simp only [step, runsReset]
      by_cases hi : p.state = SCM_PROFILER_INACTIVE
      · have : Scm_ProfilerRawResult rt env w = (ScmResult.scmFalse, w) := by
          simp [Scm_ProfilerRawResult, hp, hi]
        rw [this]
        simp only [decide_False, Bool.false_eq_true, if_false, ctl_eq_some w p hp]
        exact ⟨hb, hfd, hz, hn⟩
      · have hflag : (if p.state = SCM_PROFILER_RUNNING then false else w.vm.profilerRunning)
            = false := by
          by_cases hs : p.state = SCM_PROFILER_RUNNING
          · simp [hs]
          · simp only [hs, if_false]
            cases hbb : w.vm.profilerRunning
            · rfl
            · exact absurd (hb.1 hbb) hs
        rcases ctl_RawResult_active rt env w p hp hi with ⟨h1, h2⟩ | ⟨h1, h2⟩
        · rw [h2, hflag]
          simp only [h1, decide_True, if_true]
          exact ⟨by simp, by simp, by simp, rfl⟩
        · rw [h2, hflag]
          simp only [h1, decide_False, Bool.false_eq_true, if_false]
          exact ⟨by simp, fun _ => hfd hi, by simp, hn⟩
    | countFlush =>
      simp only [step, runsReset, ctl_countBufferFlush, Bool.false_eq_true, if_false,
        ctl_eq_some w p hp]
      exact ⟨hb, hfd, hz, hn⟩
    | recordCall f =>
      simp only [step, runsReset, ctl_RecordCall, Bool.false_eq_true, if_false,
        ctl_eq_some w p hp]
      exact ⟨hb, hfd, hz, hn⟩
    | tick ok =>
      simp only [step, runsReset, ctl_sampler_sample, Bool.false_eq_true, if_false]
      by_cases hs : p.state = SCM_PROFILER_RUNNING
      · have hr : isRunning w = true := by simp [isRunning, hp, hs]
        simp only [hr, if_true, hp, Option.map_some']
        exact ⟨hb, hfd, (fun h' => by rw [hs] at h'; cases h'), by rw [hn]⟩
      · have hr : isRunning w = false := by simp [isRunning, hp, hs]
        simp only [hr, Bool.false_eq_true, if_false, ctl_eq_some w p hp]
        exact ⟨hb, hfd, hz, hn⟩
    | setRegs b pc v =>
      simp only [step, runsReset, Bool.false_eq_true, if_false, ctl, hp, Option.map_some']
      exact ⟨hb, hfd, hz, hn⟩

/-- The invariant holds along every run that starts in a world satisfying it. -/
theorem CInv_run (rt : Runtime) (ops : List Op) (w : World) (n : Nat) (h : CInv (ctl w) n) :
    CInv (ctl (run rt w ops)) (ticksSinceReset rt w n ops) := by
  induction ops generalizing w n with
  | nil => simpa [run, ticksSinceReset] using h
  | cons op ops ih =>
    simp only [run, List.foldl_cons, ticksSinceReset]
    exact ih _ _ (CInv_step rt w n op h)

/-- Every reachable world satisfies the lifecycle invariant. -/
theorem reachable_lifecycleInv (rt : Runtime) (w : World) (h : Reachable rt w) :
    LifecycleInv w := by
  obtain ⟨ops, rfl⟩ := h
  have hi := CInv_run rt ops boot 0 (by simp [ctl, boot, CInv])
  intro p hp
  rw [ctl_eq_some _ p hp] at hi
  exact ⟨hi.1, hi.2.1⟩


/-! ## Reset and Stop -/

/-- C9. Reset postcondition: for every world that satisfies the lifecycle
invariant (as every reachable world does, `reachable_lifecycleInv`) and whose
profiler is RUNNING or PAUSING, whatever its buffers, counters and table
contain, after `Scm_ProfilerReset` the state is INACTIVE, `profilerRunning`
is false, `totalSamples`, `errorOccurred`, `currentSample` and `currentCount`
are 0, the table is empty, and the descriptor is released (`samplerFd = -1`,
no file open). -/
theorem Scm_ProfilerReset_post (w : World) (p : ScmVMProfiler) (hinv : LifecycleInv w)
    (hp : w.vm.prof = some p)
    (hs : p.state = SCM_PROFILER_RUNNING ∨ p.state = SCM_PROFILER_PAUSING) :
    ∃ q, (Scm_ProfilerReset w).vm.prof = some q ∧
      q.state = SCM_PROFILER_INACTIVE ∧
      (Scm_ProfilerReset w).vm.profilerRunning = false ∧
      q.totalSamples = 0 ∧ q.errorOccurred = 0 ∧
      q.currentSample = 0 ∧ q.currentCount = 0 ∧
      q.statHash = [] ∧
      q.samplerFd = -1 ∧ (Scm_ProfilerReset w).spill = none ∧
      q.samples = p.samples ∧ q.counts = p.counts := by
  obtain ⟨hflag, hfd⟩ := hinv p hp
  rcases hs with hs | hs
  · have hfd' : 0 ≤ p.samplerFd := hfd (by simp [hs])
    simp [Scm_ProfilerReset, hp, hs, Scm_ProfilerStop, World.setProf, hfd']
  · have hfd' : 0 ≤ p.samplerFd := hfd (by simp [hs])
    have hfl : w.vm.profilerRunning = false := by
      cases hb : w.vm.profilerRunning
      · rfl
      · have := hflag.1 hb
        rw [hs] at this; cases this
    simp [Scm_ProfilerReset, hp, hs, World.setProf, hfd', hfl]

theorem pausedWorld_lifecycleInv : LifecycleInv pausedWorld := by
  intro p hp
  have : p = pausedProfiler := by
    simpa [pausedWorld] using hp.symm
  subst this
  simp [pausedWorld, pausedProfiler]

theorem runningWorld_lifecycleInv : LifecycleInv runningWorld := by
  intro p hp
  have : p = { pausedProfiler with state := SCM_PROFILER_RUNNING } := by
    simpa [runningWorld] using hp.symm
  subst this
  simp [runningWorld, pausedWorld, pausedProfiler]

/-- Instance of C9 at a running profiler holding one pending call record, one
buffered sample, two spilled samples and a table entry. -/
theorem Scm_ProfilerReset_post_witness :
    ∃ q, (Scm_ProfilerReset runningWorld).vm.prof = some q ∧
      q.state = SCM_PROFILER_INACTIVE ∧
      (Scm_ProfilerReset runningWorld).vm.profilerRunning = false ∧
      q.totalSamples = 0 ∧ q.errorOccurred = 0 ∧
      q.currentSample = 0 ∧ q.currentCount = 0 ∧
      q.statHash = [] ∧
      q.samplerFd = -1 ∧ (Scm_ProfilerReset runningWorld).spill = none ∧
      q.samples = [⟨ScmObj.ptr 8, some 40⟩, zeroSample] ∧
      q.counts = [⟨ScmObj.ptr 8⟩, zeroCount] :=
  Scm_ProfilerReset_post runningWorld { pausedProfiler with state := SCM_PROFILER_RUNNING }
    runningWorld_lifecycleInv rfl (Or.inl rfl)

theorem totalOf_eq_ctl (w : World) :
    totalOf w = match (ctl w).1 with
      | none => 0
      | some x => x.2.2 := by
  cases hp : w.vm.prof <;> simp [totalOf, ctl, hp]

/-- An event that does not execute `Scm_ProfilerReset` does not decrease
`totalSamples`. -/
theorem totalOf_step_mono (rt : Runtime) (w : World) (op : Op)
    (h : runsReset rt w op = false) : totalOf w ≤ totalOf (step rt w op) := by
  cases op with
  | start fd ok =>
    rw [totalOf_eq_ctl (step _ _ _)]
    simp only [step, ctl_Start]
    cases hp : w.vm.prof <;> simp [totalOf, hp]
  | stop =>
    rw [totalOf_eq_ctl (step _ _ _)]
    simp only [step, ctl_Stop]
    cases hp : w.vm.prof with
    | none => simp [totalOf, hp]
    | some p => simp only [totalOf, hp]; split_ifs <;> simp [ctl, hp]
  | reset => simp [runsReset] at h
  | result env =>
    cases hp : w.vm.prof with
    | none => simp [step, Scm_ProfilerRawResult, hp]
    | some p =>
      by_cases hi : p.state = SCM_PROFILER_INACTIVE
      · simp [step, Scm_ProfilerRawResult, hp, hi]
      · rcases ctl_RawResult_active rt env w p hp hi with ⟨h1, _⟩ | ⟨_, h2⟩
        · simp [runsReset, h1] at h
        · rw [totalOf_eq_ctl (step _ _ _)]
          simp only [step, h2, totalOf, hp]
          exact le_refl _
  | countFlush =>
    rw [totalOf_eq_ctl (step _ _ _), totalOf_eq_ctl w]
    simp only [step, ctl_countBufferFlush]; exact le_refl _
  | recordCall f =>
    rw [totalOf_eq_ctl (step _ _ _), totalOf_eq_ctl w]
    simp only [step, ctl_RecordCall]; exact le_refl _
  | tick ok =>
    rw [totalOf_eq_ctl (step _ _ _)]
    simp only [step, ctl_sampler_sample]
    cases hp : w.vm.prof with
    | none => simp [totalOf, hp]
    | some p => simp only [totalOf, hp]; split_ifs <;> simp [ctl, hp]
  | setRegs b pc v => simp [step, totalOf]

theorem totalOf_run_mono (rt : Runtime) (ops : List Op) (w : World)
    (h : noReset rt w ops = true) : totalOf w ≤ totalOf (run rt w ops) := by
  induction ops generalizing w with
  | nil => simp [run]
  | cons op ops ih =>
    simp only [noReset, Bool.and_eq_true, Bool.not_eq_true'] at h
    simp only [run, List.foldl_cons]
    exact le_trans (totalOf_step_mono rt w op h.1) (ih _ h.2)

theorem Stop_running_ret (w : World) (h : isRunning w = true) :
    (Scm_ProfilerStop w).1 = totalOf w ∧ totalOf (Scm_ProfilerStop w).2 = totalOf w := by
  cases hp : w.vm.prof with
  | none => simp [isRunning, hp] at h
  | some p =>
    have hs : p.state = SCM_PROFILER_RUNNING := by simpa [isRunning, hp] using h
    simp [Scm_ProfilerStop, hp, hs, totalOf]

/-- C6, amended. Stop from RUNNING.  (1) For every world whose profiler is
RUNNING with `totalSamples` at most `INT_MAX`, `Scm_ProfilerStop` returns
`totalSamples` (the `int` returned holds that number) and changes nothing but
the state (to PAUSING), the flag `profilerRunning` (to false) and the timer
(disarmed): the counters, the buffers, the table, the spill file and the
diagnostics are as before.  (2) In every reachable world in which the number
of ticks recorded while RUNNING since the profiler was created or
`Scm_ProfilerReset` was last executed is at most `INT_MAX`, `totalSamples` is
that number.  (3) Successive values returned by Stop from RUNNING are
non-decreasing as long as `Scm_ProfilerReset` is not executed in between and
`totalSamples` stays at most `INT_MAX`.  (4) A result collection that does
not end in the reset of the seek-failure path leaves `totalSamples` as it
is. -/
theorem Scm_ProfilerStop_running (rt : Runtime) :
    (∀ (w : World) (p : ScmVMProfiler), w.vm.prof = some p →
      p.state = SCM_PROFILER_RUNNING → p.totalSamples ≤ INT_MAX →
      Scm_ProfilerStop w =
        (p.totalSamples,
         { w with itimer := false,
                  vm := { w.vm with prof := some { p with state := SCM_PROFILER_PAUSING },
                                    profilerRunning := false } }) ∧
      cint (Scm_ProfilerStop w).1 = (p.totalSamples : Int)) ∧
    (∀ (ops : List Op) (p : ScmVMProfiler), (run rt boot ops).vm.prof = some p →
      ticksSinceReset rt boot 0 ops ≤ INT_MAX →
      p.totalSamples = ticksSinceReset rt boot 0 ops ∧
      cint p.totalSamples = (ticksSinceReset rt boot 0 ops : Int)) ∧
    (∀ (w : World) (ops : List Op), isRunning w = true →
      noReset rt (Scm_ProfilerStop w).2 ops = true →
      isRunning (run rt (Scm_ProfilerStop w).2 ops) = true →
      totalOf (run rt (Scm_ProfilerStop w).2 ops) ≤ INT_MAX →
      (Scm_ProfilerStop w).1 ≤ (Scm_ProfilerStop (run rt (Scm_ProfilerStop w).2 ops)).1 ∧
      cint (Scm_ProfilerStop w).1 ≤
        cint (Scm_ProfilerStop (run rt (Scm_ProfilerStop w).2 ops)).1) ∧
    (∀ (env : ResultEnv) (w : World) (p : ScmVMProfiler), w.vm.prof = some p →
      (Scm_ProfilerRawResult rt env w).1 ≠ ScmResult.raised ScmError.seekFailed →
      totalOf (Scm_ProfilerRawResult rt env w).2 = p.totalSamples) := by
  refine ⟨?_, ?_, ?_, ?_⟩
  · intro w p hp hs hb
    have h : Scm_ProfilerStop w =
        (p.totalSamples,
         { w with itimer := false,
                  vm := { w.vm with prof := some { p with state := SCM_PROFILER_PAUSING },
                                    profilerRunning := false } }) := by
      simp [Scm_ProfilerStop, hp, hs]
    exact ⟨h, by rw [h]; exact cint_of_le _ hb⟩
  · intro ops p hp hb
    have hi := CInv_run rt ops boot 0 (by simp [ctl, boot, CInv])
    rw [ctl_eq_some _ p hp] at hi
    have h : p.totalSamples = ticksSinceReset rt boot 0 ops := hi.2.2.2
    exact ⟨h, by rw [h]; exact cint_of_le _ hb⟩
  · intro w ops hr hnr hr2 hb
    have h : (Scm_ProfilerStop w).1 ≤
        (Scm_ProfilerStop (run rt (Scm_ProfilerStop w).2 ops)).1 := by
      rw [(Stop_running_ret w hr).1, (Stop_running_ret _ hr2).1, ← (Stop_running_ret w hr).2]
      exact totalOf_run_mono rt ops _ hnr
    refine ⟨h, cint_mono _ _ h ?_⟩
    rw [(Stop_running_ret _ hr2).1]
    exact hb
  · intro env w p hp hne
    by_cases hi : p.state = SCM_PROFILER_INACTIVE
    · simp [Scm_ProfilerRawResult, hp, hi, totalOf]
    · rcases ctl_RawResult_active rt env w p hp hi with ⟨h1, _⟩ | ⟨_, h2⟩
      · exact absurd h1 hne
      · rw [totalOf_eq_ctl, h2]


/-- Instance of C6: a stop of a running profiler with 5 samples; the run
`exCycle`, whose profiler has recorded 4 ticks; and the stop after one more
cycle of `exCycle` run from the stopped world. -/
theorem Scm_ProfilerStop_running_witness :
    (Scm_ProfilerStop runningWorld =
      (5, { runningWorld with
              itimer := false,
              vm := { runningWorld.vm with
                        prof := some pausedProfiler, profilerRunning := false } }) ∧
      cint (Scm_ProfilerStop runningWorld).1 = 5) ∧
    ((4 : Nat) = ticksSinceReset exRuntime boot 0 exCycle ∧
      cint 4 = (ticksSinceReset exRuntime boot 0 exCycle : Int)) ∧
    ((Scm_ProfilerStop runningWorld).1 ≤
        (Scm_ProfilerStop (run exRuntime (Scm_ProfilerStop runningWorld).2 exCycle)).1 ∧
      cint (Scm_ProfilerStop runningWorld).1 ≤
        cint (Scm_ProfilerStop (run exRuntime (Scm_ProfilerStop runningWorld).2 exCycle)).1) ∧
    totalOf (Scm_ProfilerRawResult exRuntime ⟨true, none, true⟩ runningWorld).2 = 5 :=
  ⟨(Scm_ProfilerStop_running exRuntime).1 runningWorld
      { pausedProfiler with state := SCM_PROFILER_RUNNING } rfl rfl (by decide),
   (Scm_ProfilerStop_running exRuntime).2.1 exCycle
      { state := SCM_PROFILER_RUNNING, samplerFd := 3, currentSample := 2, totalSamples := 4,
        errorOccurred := 0, currentCount := 0, statHash := [],
        samples := [⟨ScmObj.ptr 8, some 40⟩, ⟨ScmObj.ptr 8, some 40⟩],
        counts := [zeroCount, zeroCount] } (by decide) (by decide),
   (Scm_ProfilerStop_running exRuntime).2.2.1 runningWorld exCycle (by decide) (by decide)
      (by decide) (by decide),
   (Scm_ProfilerStop_running exRuntime).2.2.2 ⟨true, none, true⟩ runningWorld
      { pausedProfiler with state := SCM_PROFILER_RUNNING } rfl (by decide)⟩


/-- C6 as stated fails on the seek-failure path.  After the run `exCycle` a
stop returns 4.  A result collection whose seek fails then executes
`Scm_ProfilerReset`: `totalSamples` drops from 4 to 0, although the host
never calls Reset; after a new start and one tick the next stop returns 1,
less than the 4 returned before. -/
theorem Scm_ProfilerRawResult_seek_failure_reduces_total :
    (Scm_ProfilerStop (run exRuntime boot exCycle)).1 = 4 ∧
    (Scm_ProfilerRawResult exRuntime seekFailEnv
        (Scm_ProfilerStop (run exRuntime boot exCycle)).2).1 =
      ScmResult.raised ScmError.seekFailed ∧
    totalOf (Scm_ProfilerRawResult exRuntime seekFailEnv
        (Scm_ProfilerStop (run exRuntime boot exCycle)).2).2 = 0 ∧
    (Scm_ProfilerStop
        (run exRuntime (Scm_ProfilerStop (run exRuntime boot exCycle)).2
          [Op.result seekFailEnv, Op.start 5 true, Op.tick true])).1 = 1 := by
  decide

/-! ## The statistics table -/

theorem Get_key (t : StatTable) (k : ScmObj) (e : ScmHashEntry)
    (h : Scm_HashTableGet t k = some e) : e.key = k := by
  induction t with
  | nil => simp [Scm_HashTableGet] at h
  | cons a t ih =>
    simp only [Scm_HashTableGet] at h
    split_ifs at h with hk
    · cases h; exact hk
    · exact ih h

theorem Get_append_single (t : StatTable) (e : ScmHashEntry) (k : ScmObj) :
    Scm_HashTableGet (t ++ [e]) k =
      match Scm_HashTableGet t k with
      | some x => some x
      | none => if e.key = k then some e else none := by
  induction t with
  | nil => simp [Scm_HashTableGet]
  | cons a t ih =>
    by_cases hk : a.key = k
    · simp [Scm_HashTableGet, hk]
    · simpa [Scm_HashTableGet, hk] using ih

theorem Get_modifyEntry (f : ScmHashEntry → ScmHashEntry) (hf : ∀ e, (f e).key = e.key)
    (t : StatTable) (k k' : ScmObj) :
    Scm_HashTableGet (modifyEntry f t k) k' =
      if k' = k then (Scm_HashTableGet t k).map f else Scm_HashTableGet t k' := by
  induction t with
  | nil => simp [modifyEntry, Scm_HashTableGet]
  | cons a t ih =>
    simp only [modifyEntry]
    by_cases hak : a.key = k
    · simp only [hak, if_true, Scm_HashTableGet, hf]
      by_cases hk : k' = k
      · simp [hk]
      · have : ¬ k = k' := fun h => hk h.symm
        simp [hk, this]
    · simp only [hak, if_false, Scm_HashTableGet, ih]
      by_cases hk : k' = k
      · subst hk; simp [hak]
      · simp only [hk, if_false]

theorem modifyEntry_absent (f : ScmHashEntry → ScmHashEntry) (t : StatTable) (k : ScmObj)
    (h : Scm_HashTableGet t k = none) : modifyEntry f t k = t := by
  induction t with
  | nil => rfl
  | cons a t ih =>
    simp only [Scm_HashTableGet] at h
    split_ifs at h with hk
    simp [modifyEntry, hk, ih h]

/-- The table lookup after one iteration of the flush loop. -/
theorem Get_countOne (rt : Runtime) (t : StatTable) (c : ScmProfCount) (k : ScmObj) :
    Scm_HashTableGet (countOne rt t c) k =
      if k = c.func then
        some (match Scm_HashTableGet t c.func with
          | some e => { e with car := e.car + 1 }
          | none => ⟨c.func, 1, 0⟩)
      else Scm_HashTableGet t k := by
  simp only [countOne]
  rw [Get_modifyEntry (fun e => { e with car := e.car + 1 }) (fun e => rfl)]
  by_cases hk : k = c.func
  · simp only [hk, if_true, Scm_HashTableAdd]
    cases hg : Scm_HashTableGet t c.func with
    | some e => simp [hg]
    | none => simp [Get_append_single, hg]
  · simp only [hk, if_false, Scm_HashTableAdd]
    cases hg : Scm_HashTableGet t c.func with
    | some e => rfl
    | none =>
      simp only [Get_append_single]
      cases Scm_HashTableGet t k with
      | some x => rfl
      | none =>
        have : ¬ c.func = k := fun h => hk h.symm
        simp [this]

/-- The call counts after the flush loop has processed the records `cs`. -/
theorem callCount_foldl_countOne (rt : Runtime) (cs : List ScmProfCount) (t : StatTable)
    (k : ScmObj) :
    callCount (cs.foldl (countOne rt) t) k =
      if k ∈ cs.map (fun c => c.func) then
        some ((callCount t k).getD 0 + (cs.map (fun c => c.func)).count k)
      else callCount t k := by
  induction cs generalizing t with
  | nil => simp
  | cons c cs ih =>
    simp only [List.foldl_cons, ih, List.map_cons, List.mem_cons, List.count_cons]
    have h1 : callCount (countOne rt t c) k =
        if k = c.func then some ((callCount t k).getD 0 + 1) else callCount t k := by
      simp only [callCount, Get_countOne]
      by_cases hk : k = c.func
      · subst hk
        cases Scm_HashTableGet t c.func <;> simp
      · simp [hk]
    rw [h1]
    by_cases hk : k = c.func
    · subst hk
      by_cases hm : c.func ∈ cs.map (fun c => c.func)
      · simp [hm]; omega
      · simp [hm, List.count_eq_zero_of_not_mem hm]
    · have hk' : ¬ c.func = k := fun h => hk h.symm
      simp [hk, hk']


/-! ## Call counting -/

theorem take_set_succ {α : Type} (l : List α) (n : Nat) (a : α) (h : n < l.length) :
    (l.set n a).take (n + 1) = l.take n ++ [a] := by
  induction l generalizing n with
  | nil => simp at h
  | cons x l ih =>
    cases n with
    | zero => simp
    | succ n =>
      simp only [List.length_cons, Nat.add_lt_add_iff_right] at h
      simp [ih n h]

theorem setProf_self (w : World) (p : ScmVMProfiler) (hp : w.vm.prof = some p) :
    w.setProf p = w := by
  cases w with
  | mk vm spill itimer h wa =>
    cases vm with
    | mk prof r b pc v =>
      simp only at hp
      simp [World.setProf, hp]

/-- The call-count flush as an update of the profiler record. -/
theorem countBufferFlush_eq (rt : Runtime) (w : World) (p : ScmVMProfiler)
    (hp : w.vm.prof = some p) :
    Scm_ProfilerCountBufferFlush rt w =
      w.setProf { p with statHash := (p.counts.take p.currentCount).foldl (countOne rt) p.statHash,
                         currentCount := 0 } := by
  by_cases hc : p.currentCount = 0
  · simp only [Scm_ProfilerCountBufferFlush, hp, hc, if_true, List.take_zero, List.foldl_nil]
    have : ({ p with statHash := p.statHash, currentCount := 0 } : ScmVMProfiler) = p := by
      cases p; simp_all
    rw [this, setProf_self w p hp]
  · simp [Scm_ProfilerCountBufferFlush, hp, hc]

/-- A recorded call as an update of the call-count side of the profiler
record, which keeps the relation to the list of recorded calls. -/
theorem RecordCall_eq (rt : Runtime) (hC : 1 ≤ rt.SCM_PROF_COUNTER_IN_BUFFER) (f : ScmObj)
    (w : World) (p : ScmVMProfiler) (hp : w.vm.prof = some p) :
    ∃ t c n, RecordCall rt f w = w.setProf { p with statHash := t, counts := c, currentCount := n } ∧
      ∀ calls, CountInv rt p calls →
        CountInv rt { p with statHash := t, counts := c, currentCount := n } (calls ++ [f]) := by
  by_cases hfull : p.currentCount = rt.SCM_PROF_COUNTER_IN_BUFFER
  · refine ⟨(p.counts.take p.currentCount).foldl (countOne rt) p.statHash,
      p.counts.set 0 ⟨f⟩, 1, ?_, ?_⟩
    · simp only [RecordCall, hp, hfull, if_true]
      rw [countBufferFlush_eq rt w p hp]
      simp [World.setProf, hfull]
    · rintro calls ⟨hlen, hle, hfold⟩
      refine ⟨by simpa using hlen, hC, ?_⟩
      have hpos : 0 < p.counts.length := by omega
      have h1 := take_set_succ p.counts 0 ⟨f⟩ hpos
      simp only [Nat.zero_add, List.take_zero, List.nil_append] at h1
      simp only [h1, List.foldl_cons, List.foldl_nil, hfold, List.map_append, List.map_cons,
        List.map_nil, List.foldl_append]
  · refine ⟨p.statHash, p.counts.set p.currentCount ⟨f⟩, p.currentCount + 1, ?_, ?_⟩
    · simp [RecordCall, hp, hfull, World.setProf]
    · rintro calls ⟨hlen, hle, hfold⟩
      have hlt : p.currentCount < p.counts.length := by omega
      refine ⟨by simpa using hlen, (by show p.currentCount + 1 ≤ _; omega), ?_⟩
      simp only [take_set_succ p.counts p.currentCount ⟨f⟩ hlt, List.foldl_append, hfold,
        List.map_append, List.map_cons, List.map_nil]

theorem newProfiler_CountInv (rt : Runtime) (fd : Int) : CountInv rt (newProfiler rt fd) [] := by
  simp [CountInv, newProfiler]

/-- Recording the calls `fs` keeps the relation `CountInv`. -/
theorem recordCalls_CountInv (rt : Runtime) (hC : 1 ≤ rt.SCM_PROF_COUNTER_IN_BUFFER)
    (fs : List ScmObj) (w : World) (p : ScmVMProfiler) (calls : List ScmObj)
    (hp : w.vm.prof = some p) (hinv : CountInv rt p calls) :
    ∃ q, (recordCalls rt fs w).vm.prof = some q ∧ CountInv rt q (calls ++ fs) := by
  induction fs generalizing w p calls with
  | nil => exact ⟨p, by simpa [recordCalls] using hp, by simpa using hinv⟩
  | cons f fs ih =>
    obtain ⟨t, c, n, heq, hstep⟩ := RecordCall_eq rt hC f w p hp
    have := ih (RecordCall rt f w) _ (calls ++ [f]) (by rw [heq]; rfl) (hstep calls hinv)
    simpa [recordCalls] using this

/-- The table after the calls `fs` are recorded and flushed, on the numbers
of increments that the model keeps: the count of `f` has been incremented
once for every occurrence of `f` in `fs`. -/
theorem recordCalls_flush (rt : Runtime) (hC : 1 ≤ rt.SCM_PROF_COUNTER_IN_BUFFER)
    (mkstemp : Int) (sigactionOk : Bool) (w0 : World) (h0 : w0.vm.prof = none)
    (fs : List ScmObj) :
    ∃ q, (Scm_ProfilerCountBufferFlush rt
            (recordCalls rt fs (Scm_ProfilerStart rt mkstemp sigactionOk w0).2)).vm.prof = some q ∧
      q.currentCount = 0 ∧
      ∀ f, callCount q.statHash f = if f ∈ fs then some (fs.count f) else none := by
  have hstart : ∃ p, (Scm_ProfilerStart rt mkstemp sigactionOk w0).2.vm.prof = some p ∧
      CountInv rt p [] := by
    refine ⟨{ newProfiler rt mkstemp with state := SCM_PROFILER_RUNNING }, ?_, ?_⟩
    · cases sigactionOk <;> simp [Scm_ProfilerStart, h0, newProfiler, World.setProf]
    · exact newProfiler_CountInv rt mkstemp
  obtain ⟨p, hp, hinv⟩ := hstart
  obtain ⟨q, hq, hqinv⟩ := recordCalls_CountInv rt hC fs _ p [] hp hinv
  rw [countBufferFlush_eq rt _ q hq]
  refine ⟨_, rfl, rfl, ?_⟩
  intro f
  simp only [hqinv.2.2, List.nil_append, callCount_foldl_countOne]
  simp [callCount, Scm_HashTableGet, List.map_map, Function.comp_def]

/-- C1, amended. Conservation of call counts: for every capacity of the count
buffer of at least 1 and every sequence `fs` of function identities in which
no identity occurs more than `INT_MAX` times, starting from a freshly started
profiler (the start of a world without profiler), recording each element of
`fs` in order and flushing once at the end, the table has for every `f` a
call count equal to the number of occurrences of `f` in `fs` (and the `int`
in which the source computes it holds that number), no entry for an `f` that
does not occur, and the count buffer is empty. -/
theorem call_count_conservation (rt : Runtime) (hC : 1 ≤ rt.SCM_PROF_COUNTER_IN_BUFFER)
    (mkstemp : Int) (sigactionOk : Bool) (w0 : World) (h0 : w0.vm.prof = none)
    (fs : List ScmObj) (hfs : ∀ f, fs.count f ≤ INT_MAX) :
    ∃ q, (Scm_ProfilerCountBufferFlush rt
            (recordCalls rt fs (Scm_ProfilerStart rt mkstemp sigactionOk w0).2)).vm.prof = some q ∧
      q.currentCount = 0 ∧
      ∀ f, callCount q.statHash f = (if f ∈ fs then some (fs.count f) else none) ∧
        (callCount q.statHash f).map cint =
          (if f ∈ fs then some (fs.count f : Int) else none) := by
  obtain ⟨q, hq, hc, hcount⟩ := recordCalls_flush rt hC mkstemp sigactionOk w0 h0 fs
  refine ⟨q, hq, hc, fun f => ⟨hcount f, ?_⟩⟩
  rw [hcount f]
  by_cases hm : f ∈ fs
  · simp only [hm, if_true, Option.map_some']
    rw [cint_of_le _ (hfs f)]
  · simp only [hm, if_false, Option.map_none']

/-- Instance of C1, the scenario of the spec: capacity 2 and the calls A, A,
B give the table A -> 2, B -> 1 (and no other entry). -/
theorem call_count_conservation_witness :
    (Scm_ProfilerCountBufferFlush exRuntime
        (recordCalls exRuntime [ScmObj.ptr 8, ScmObj.ptr 8, ScmObj.ptr 16]
          (Scm_ProfilerStart exRuntime 3 true boot).2)).vm.prof.map (fun q => q.statHash)
      = some [⟨ScmObj.ptr 8, 2, 0⟩, ⟨ScmObj.ptr 16, 1, 0⟩] ∧
    ∃ q, (Scm_ProfilerCountBufferFlush exRuntime
            (recordCalls exRuntime [ScmObj.ptr 8, ScmObj.ptr 8, ScmObj.ptr 16]
              (Scm_ProfilerStart exRuntime 3 true boot).2)).vm.prof = some q ∧
      q.currentCount = 0 ∧
      ∀ f, callCount q.statHash f =
          (if f ∈ [ScmObj.ptr 8, ScmObj.ptr 8, ScmObj.ptr 16] then
            some ([ScmObj.ptr 8, ScmObj.ptr 8, ScmObj.ptr 16].count f)
          else none) ∧
        (callCount q.statHash f).map cint =
          (if f ∈ [ScmObj.ptr 8, ScmObj.ptr 8, ScmObj.ptr 16] then
            some (([ScmObj.ptr 8, ScmObj.ptr 8, ScmObj.ptr 16].count f : Nat) : Int)
          else none) :=
  ⟨by decide,
   call_count_conservation exRuntime (by decide) 3 true boot rfl
    [ScmObj.ptr 8, ScmObj.ptr 8, ScmObj.ptr 16]
    (fun f => le_trans (List.count_le_length f _) (by decide))⟩

/-- C1 as stated fails for a sequence in which an identity occurs more than
`INT_MAX` times.  After the `INT_MAX + 1 = 2147483648` calls `manyCalls` of
the function at address 8 and the final flush, the claim requires the call
count 2147483648, which no `int` holds: the count of the table has been
incremented 2147483648 times through `int cnt`, which then holds
-2147483648. -/
theorem call_count_int_overflow :
    manyCalls.count (ScmObj.ptr 8) = 2147483648 ∧
    ¬ manyCalls.count (ScmObj.ptr 8) ≤ INT_MAX ∧
    (Scm_ProfilerCountBufferFlush exRuntime
        (recordCalls exRuntime manyCalls
          (Scm_ProfilerStart exRuntime 3 true boot).2)).vm.prof.bind
      (fun q => callCount q.statHash (ScmObj.ptr 8)) = some 2147483648 ∧
    (Scm_ProfilerCountBufferFlush exRuntime
        (recordCalls exRuntime manyCalls
          (Scm_ProfilerStart exRuntime 3 true boot).2)).vm.prof.bind
      (fun q => (callCount q.statHash (ScmObj.ptr 8)).map cint) = some (-2147483648) := by
  have hcnt : manyCalls.count (ScmObj.ptr 8) = 2147483648 :=
    List.count_replicate_self (ScmObj.ptr 8) 2147483648
  have hmem : ScmObj.ptr 8 ∈ manyCalls :=
    List.mem_replicate.mpr ⟨by decide, rfl⟩
  obtain ⟨q, hq, _, hcount⟩ := recordCalls_flush exRuntime (by decide) 3 true boot rfl manyCalls
  have h8 : callCount q.statHash (ScmObj.ptr 8) = some 2147483648 := by
    rw [hcount (ScmObj.ptr 8), if_pos hmem, hcnt]
  refine ⟨hcnt, ?_, ?_, ?_⟩
  · rw [hcnt]; decide
  · rw [hq, Option.some_bind, h8]
  · rw [hq, Option.some_bind, h8, Option.map_some']
    exact congrArg some cint_wrap



/-- C2 (the code departs from the claim). In `methodRuntime` the object at
address 100 is a Scheme-defined method whose body is the code at address 200.
After the method is called once and its body sampled once, the flush of
`Scm_ProfilerRawResult` has counted the call under the method object itself
(key 100), there is no entry for the body (key 200), and the sample of the
body finds no entry: it is reported as an uncounted object and its sample
count is lost. -/
theorem countBufferFlush_keeps_method_key :
    (Scm_ProfilerRawResult methodRuntime ⟨true, none, true⟩
        (run methodRuntime boot methodSession)).1 =
      ScmResult.statHash [⟨ScmObj.ptr 100, 1, 0⟩] ∧
    (Scm_ProfilerRawResult methodRuntime ⟨true, none, true⟩
        (run methodRuntime boot methodSession)).2.warnings =
      [Diag.uncounted (ScmObj.ptr 200)] ∧
    methodRuntime.SCM_METHODP (ScmObj.ptr 100) = true ∧
    methodRuntime.methodFuncNull (ScmObj.ptr 100) = true ∧
    methodRuntime.methodData (ScmObj.ptr 100) = ScmObj.ptr 200 := by
  decide


/-! ## Aggregation of samples -/

theorem collectOne_fst (acc : StatTable × List Diag) (s : ScmProfSample) :
    (collectOne acc s).1 = collectKey acc.1 s := by
  simp only [collectOne, collectKey]
  cases hg : Scm_HashTableGet acc.1 s.func with
  | none => simp [modifyEntry_absent _ _ _ hg]
  | some e => rfl

theorem Get_collectKey (t : StatTable) (s : ScmProfSample) (k : ScmObj) :
    Scm_HashTableGet (collectKey t s) k =
      if k = s.func then (Scm_HashTableGet t k).map (fun e => { e with cdr := e.cdr + 1 })
      else Scm_HashTableGet t k := by
  simp only [collectKey]
  rw [Get_modifyEntry (fun e => { e with cdr := e.cdr + 1 }) (fun e => rfl)]
  by_cases hk : k = s.func <;> simp [hk]

theorem Get_isNone_collectKey (t : StatTable) (s : ScmProfSample) (k : ScmObj) :
    (Scm_HashTableGet (collectKey t s) k).isNone = (Scm_HashTableGet t k).isNone := by
  rw [Get_collectKey]
  by_cases hk : k = s.func
  · simp only [hk, if_true]; cases Scm_HashTableGet t s.func <;> rfl
  · simp [hk]

theorem droppedSamples_collectKey (t : StatTable) (s : ScmProfSample)
    (l : List ScmProfSample) : droppedSamples (collectKey t s) l = droppedSamples t l := by
  simp only [droppedSamples, Get_isNone_collectKey]

theorem foldl_collectOne_fst (l : List ScmProfSample) (t : StatTable) (log : List Diag) :
    (l.foldl collectOne (t, log)).1 = l.foldl collectKey t := by
  induction l generalizing t log with
  | nil => rfl
  | cons s l ih =>
    simp only [List.foldl_cons]
    have h1 : collectOne (t, log) s = (collectKey t s, (collectOne (t, log) s).2) :=
      Prod.ext (collectOne_fst _ _) rfl
    rw [h1, ih]

/-- The diagnostics of a collection: one per sample whose function has no
entry, in the order of the samples. -/
theorem foldl_collectOne_snd (l : List ScmProfSample) (t : StatTable) (log : List Diag) :
    (l.foldl collectOne (t, log)).2 = log ++ (droppedSamples t l).map uncountedDiag := by
  induction l generalizing t log with
  | nil => simp [droppedSamples]
  | cons s l ih =>
    simp only [List.foldl_cons]
    have h1 : collectOne (t, log) s = (collectKey t s, (collectOne (t, log) s).2) :=
      Prod.ext (collectOne_fst _ _) rfl
    rw [h1, ih, droppedSamples_collectKey]
    cases hg : Scm_HashTableGet t s.func with
    | none => simp [collectOne, hg, droppedSamples, uncountedDiag]
    | some e => simp [collectOne, hg, droppedSamples]

theorem modifyEntry_comm (f : ScmHashEntry → ScmHashEntry) (hf : ∀ e, (f e).key = e.key)
    (t : StatTable) (a b : ScmObj) :
    modifyEntry f (modifyEntry f t a) b = modifyEntry f (modifyEntry f t b) a := by
  induction t with
  | nil => rfl
  | cons e t ih =>
    by_cases ha : e.key = a
    · subst ha
      by_cases hb : e.key = b
      · subst hb; simp [modifyEntry, hf]
      · simp [modifyEntry, hb, hf]
    · by_cases hb : e.key = b
      · subst hb; simp [modifyEntry, ha, hf]
      · simp [modifyEntry, ha, hb, ih]

theorem collectKey_comm (t : StatTable) (a b : ScmProfSample) :
    collectKey (collectKey t a) b = collectKey (collectKey t b) a :=
  modifyEntry_comm (fun e => { e with cdr := e.cdr + 1 }) (fun e => rfl) t a.func b.func

/-- The table after a collection does not depend on the order of the
samples. -/
theorem foldl_collectKey_perm (l₁ l₂ : List ScmProfSample) (h : l₁.Perm l₂) (t : StatTable) :
    l₁.foldl collectKey t = l₂.foldl collectKey t :=
  List.Perm.foldl_eq' h (fun x _ y _ z => collectKey_comm z x y) t

theorem sumSampleCount_collectKey (t : StatTable) (s : ScmProfSample) :
    sumSampleCount (collectKey t s) =
      sumSampleCount t + (if (Scm_HashTableGet t s.func).isNone then 0 else 1) := by
  induction t with
  | nil => simp [collectKey, modifyEntry, sumSampleCount, Scm_HashTableGet]
  | cons e t ih =>
    simp only [collectKey, sumSampleCount] at ih
    by_cases hk : e.key = s.func
    · simp [collectKey, modifyEntry, hk, sumSampleCount, Scm_HashTableGet]; omega
    · simp only [collectKey, modifyEntry, hk, if_false, sumSampleCount, List.map_cons,
        List.sum_cons, Scm_HashTableGet, ih]
      omega

/-- Sample accounting of a collection: the sum of the sample counts grows by
the number of samples, less the dropped ones. -/
theorem sumSampleCount_foldl_collectKey (l : List ScmProfSample) (t : StatTable) :
    sumSampleCount (l.foldl collectKey t) + (droppedSamples t l).length =
      sumSampleCount t + l.length := by
  induction l generalizing t with
  | nil => simp [droppedSamples]
  | cons s l ih =>
    simp only [List.foldl_cons]
    have h := ih (collectKey t s)
    rw [droppedSamples_collectKey, sumSampleCount_collectKey] at h
    cases hg : (Scm_HashTableGet t s.func).isNone
    · simp only [hg, Bool.false_eq_true, if_false] at h
      simp only [droppedSamples, List.filter_cons, hg, Bool.false_eq_true, if_false,
        List.length_cons] at h ⊢
      omega
    · simp only [hg, if_true] at h
      simp only [droppedSamples, List.filter_cons, hg, if_true, List.length_cons] at h ⊢
      omega

theorem callCount_foldl_collectKey (l : List ScmProfSample) (t : StatTable) (k : ScmObj) :
    callCount (l.foldl collectKey t) k = callCount t k := by
  induction l generalizing t with
  | nil => rfl
  | cons s l ih =>
    rw [List.foldl_cons, ih]
    simp only [callCount, Get_collectKey]
    by_cases hk : k = s.func
    · simp only [hk, if_true]; cases Scm_HashTableGet t s.func <;> rfl
    · simp [hk]

theorem sampleCount_foldl_collectKey (l : List ScmProfSample) (t : StatTable) (k : ScmObj) :
    sampleCount (l.foldl collectKey t) k =
      (sampleCount t k).map (fun n => n + (l.map (fun s => s.func)).count k) := by
  induction l generalizing t with
  | nil => simp
  | cons s l ih =>
    rw [List.foldl_cons, ih]
    simp only [sampleCount, Get_collectKey, List.map_cons, List.count_cons]
    by_cases hk : k = s.func
    · subst hk
      cases Scm_HashTableGet t s.func with
      | none => simp
      | some e => simp; omega
    · have hk' : ¬ s.func = k := fun h => hk h.symm
      simp [hk, hk']

theorem sampleCount_foldl_countOne (rt : Runtime) (cs : List ScmProfCount) (t : StatTable)
    (k : ScmObj) :
    sampleCount (cs.foldl (countOne rt) t) k =
      if k ∈ cs.map (fun c => c.func) then some ((sampleCount t k).getD 0)
      else sampleCount t k := by
  induction cs generalizing t with
  | nil => simp
  | cons c cs ih =>
    simp only [List.foldl_cons, ih, List.map_cons, List.mem_cons]
    have h1 : sampleCount (countOne rt t c) k =
        if k = c.func then some ((sampleCount t k).getD 0) else sampleCount t k := by
      simp only [sampleCount, Get_countOne]
      by_cases hk : k = c.func
      · subst hk
        cases Scm_HashTableGet t c.func <;> simp
      · simp [hk]
    rw [h1]
    by_cases hk : k = c.func
    · subst hk
      by_cases hm : c.func ∈ cs.map (fun c => c.func) <;> simp [hm]
    · simp [hk]

theorem sumSampleCount_countOne (rt : Runtime) (t : StatTable) (c : ScmProfCount) :
    sumSampleCount (countOne rt t c) = sumSampleCount t := by
  have hmod : ∀ (t : StatTable) (k : ScmObj),
      sumSampleCount (modifyEntry (fun e => { e with car := e.car + 1 }) t k) =
        sumSampleCount t := by
    intro t k
    induction t with
    | nil => rfl
    | cons e t ih =>
      simp only [sumSampleCount] at ih
      by_cases hk : e.key = k <;> simp [modifyEntry, hk, sumSampleCount, ih]
  simp only [countOne, hmod, Scm_HashTableAdd]
  cases Scm_HashTableGet t c.func <;> simp [sumSampleCount]

theorem sumSampleCount_foldl_countOne (rt : Runtime) (cs : List ScmProfCount) (t : StatTable) :
    sumSampleCount (cs.foldl (countOne rt) t) = sumSampleCount t := by
  induction cs generalizing t with
  | nil => rfl
  | cons c cs ih => simp [ih, sumSampleCount_countOne]

theorem sumSampleCount_countAll (rt : Runtime) (calls : List ScmObj) :
    sumSampleCount (countAll rt calls) = 0 := by
  rw [countAll, sumSampleCount_foldl_countOne]; rfl

/-- A recorded call leaves the sum of the sample counts as it is. -/
theorem RecordCall_statHash (rt : Runtime) (f : ScmObj) (w : World) (p : ScmVMProfiler)
    (hp : w.vm.prof = some p) :
    ∃ q, (RecordCall rt f w).vm.prof = some q ∧
      sumSampleCount q.statHash = sumSampleCount p.statHash := by
  by_cases hfull : p.currentCount = rt.SCM_PROF_COUNTER_IN_BUFFER
  · simp only [RecordCall, hp, hfull, if_true]
    rw [countBufferFlush_eq rt w p hp]
    exact ⟨_, rfl, sumSampleCount_foldl_countOne rt _ _⟩
  · simp only [RecordCall, hp, hfull, if_false]
    exact ⟨_, rfl, rfl⟩


/-! ## The session invariant -/

theorem sys_write_at_end (fd : Int) (f : SpillFile) (buf : List ScmProfSample)
    (hfd : 0 ≤ fd) (hoff : f.offset = f.data.length) :
    sys_write fd (some f) buf true = some ⟨f.data ++ buf, f.offset + buf.length⟩ := by
  have h1 : ¬ fd < 0 := by omega
  simp [sys_write, h1, hoff]

/-- A tick of a RUNNING session records the sample of the current registers
behind the samples recorded so far, spilling the full buffer first. -/
theorem sampler_sample_session (rt : Runtime) (hS : 1 ≤ rt.SCM_PROF_SAMPLES_IN_BUFFER)
    (w : World) (p : ScmVMProfiler) (f : SpillFile) (samples : List ScmProfSample)
    (hp : w.vm.prof = some p) (hf : w.spill = some f)
    (hs : p.state = SCM_PROFILER_RUNNING) (hfd : 0 ≤ p.samplerFd)
    (hinv : SampInv rt p f samples) :
    ∃ sm n f' it,
      sampler_sample rt true w =
        ({ w with spill := some f', itimer := it } : World).setProf
          { p with samples := sm, currentSample := n, totalSamples := p.totalSamples + 1 } ∧
      SampInv rt { p with samples := sm, currentSample := n, totalSamples := p.totalSamples + 1 }
        f' (samples ++ [currentSampleOf rt w.vm]) := by
  obtain ⟨hlen, hle, hoff, hdata⟩ := hinv
  have hfd' : ¬ p.samplerFd < 0 := by omega
  by_cases hfull : rt.SCM_PROF_SAMPLES_IN_BUFFER ≤ p.currentSample
  · have hcur : p.currentSample = rt.SCM_PROF_SAMPLES_IN_BUFFER := le_antisymm hle hfull
    have hne : ¬ p.currentSample = 0 := by omega
    have hpos : 0 < p.samples.length := by omega
    have htake : p.samples.take p.currentSample = p.samples := by
      rw [hcur, ← hlen]; exact List.take_length p.samples
    refine ⟨p.samples.set 0 (currentSampleOf rt w.vm), 1,
      ⟨f.data ++ p.samples, f.offset + p.samples.length⟩, true, ?_, ?_⟩
    · simp only [sampler_sample, hp, hs, ne_eq, not_true_eq_false, if_false, hfull, if_true,
        sampler_flush, hfd', hne, false_or, hf, htake,
        sys_write_at_end p.samplerFd f p.samples hfd hoff]
      simp [World.setProf, currentSampleOf]
    · refine ⟨by simpa using hlen, hS, by simp [hoff], ?_⟩
      have h1 := take_set_succ p.samples 0 (currentSampleOf rt w.vm) hpos
      simp only [Nat.zero_add, List.take_zero, List.nil_append] at h1
      simp only [h1, ← hdata, htake]
  · have hlt : p.currentSample < p.samples.length := by omega
    refine ⟨p.samples.set p.currentSample (currentSampleOf rt w.vm), p.currentSample + 1,
      f, w.itimer, ?_, ?_⟩
    · simp only [sampler_sample, hp, hs, ne_eq, not_true_eq_false, if_false, hfull]
      simp only [hp, World.setProf]
      cases w; simp_all
    · refine ⟨by simpa using hlen, (by show p.currentSample + 1 ≤ _; omega), hoff, ?_⟩
      simp only [take_set_succ p.samples p.currentSample _ hlt, ← hdata, List.append_assoc]

theorem countOne_pending_flush (rt : Runtime) (p : ScmVMProfiler) (calls : List ScmObj)
    (h : CountInv rt p calls) :
    CountInv rt { p with statHash := (p.counts.take p.currentCount).foldl (countOne rt) p.statHash,
                         currentCount := 0 } calls := by
  obtain ⟨hlen, hle, hfold⟩ := h
  exact ⟨hlen, Nat.zero_le _, by simpa using hfold⟩

theorem sampleOfRegs_regsOf (rt : Runtime) (vm : ScmVM) :
    currentSampleOf rt ⟨none, false, (regsOf vm).base, (regsOf vm).pc, (regsOf vm).val0⟩ =
      currentSampleOf rt vm := rfl

/-- A start of an existing profiler whose descriptor is open changes nothing
but the state and the flag (and the timer and handler). -/
theorem Scm_ProfilerStart_existing (rt : Runtime) (mk : Int) (ok : Bool) (w : World)
    (p : ScmVMProfiler) (hp : w.vm.prof = some p) (hfd : 0 ≤ p.samplerFd) :
    (Scm_ProfilerStart rt mk ok w).2.vm =
        { w.vm with prof := some { p with state := SCM_PROFILER_RUNNING },
                    profilerRunning :=
                      if p.state = SCM_PROFILER_RUNNING then w.vm.profilerRunning else true } ∧
    (Scm_ProfilerStart rt mk ok w).2.spill = w.spill ∧
    (Scm_ProfilerStart rt mk ok w).2.warnings = w.warnings := by
  have hfd' : ¬ p.samplerFd < 0 := by omega
  by_cases hs : p.state = SCM_PROFILER_RUNNING
  · have hpe : ({ p with state := SCM_PROFILER_RUNNING } : ScmVMProfiler) = p := by
      cases p; simp_all
    simp only [Scm_ProfilerStart, hp, hfd', if_false, hs, if_true, hpe, World.setProf]
    cases w with
    | mk vm sp it hd wa =>
      cases vm; simp_all
  · cases ok <;> simp [Scm_ProfilerStart, hp, hfd', hs, World.setProf]

/-- One event of a session keeps the session invariant; the recorded calls
and samples grow by what the event records. -/
theorem SessInv_step (rt : Runtime) (hC : 1 ≤ rt.SCM_PROF_COUNTER_IN_BUFFER)
    (hS : 1 ≤ rt.SCM_PROF_SAMPLES_IN_BUFFER) (w : World) (r : Bool) (calls : List ScmObj)
    (samples : List ScmProfSample) (op : Op)
    (h : SessInv rt w r calls samples) (hop : sessionOp op = true) :
    SessInv rt (step rt w op) (runningAfter r op) (calls ++ callAt op)
        (samples ++ sampleAt rt r (regsOf w.vm) op) ∧
      regsOf (step rt w op).vm = regsAfter (regsOf w.vm) op := by
  obtain ⟨p, f, hp, hf, hst, hfd, herr, htot, hsum, hcnt, hsmp⟩ := h
  cases op with
  | reset => simp [sessionOp] at hop
  | result env => simp [sessionOp] at hop
  | start fd ok =>
    obtain ⟨h1, h2, _⟩ := Scm_ProfilerStart_existing rt fd ok w p hp hfd
    refine ⟨⟨{ p with state := SCM_PROFILER_RUNNING }, f, ?_, ?_, rfl, hfd, herr,
      by simpa [sampleAt] using htot, hsum,
      by simpa [callAt] using hcnt, by simpa [sampleAt] using hsmp⟩, ?_⟩
    · simp only [step, h1]
    · simp only [step, h2, hf]
    · simp only [step, regsOf, h1, regsAfter]
  | stop =>
    refine ⟨⟨{ p with state := SCM_PROFILER_PAUSING }, f, ?_, ?_, rfl, hfd, herr,
      by simpa [sampleAt] using htot, hsum,
      by simpa [callAt] using hcnt, by simpa [sampleAt] using hsmp⟩, ?_⟩
    · cases r
      · have hpe : ({ p with state := SCM_PROFILER_PAUSING } : ScmVMProfiler) = p := by
          cases p; simp_all
        simp_all [step, Scm_ProfilerStop]
      · simp_all [step, Scm_ProfilerStop]
    · cases r <;> simp_all [step, Scm_ProfilerStop]
    · cases r <;> simp_all [step, Scm_ProfilerStop, regsOf, regsAfter]
  | countFlush =>
    refine ⟨⟨{ p with statHash := (p.counts.take p.currentCount).foldl (countOne rt) p.statHash,
                      currentCount := 0 }, f, ?_, ?_, hst, hfd, herr,
      by simpa [sampleAt] using htot,
      by simpa [sumSampleCount_foldl_countOne] using hsum,
      by simpa [callAt] using countOne_pending_flush rt p calls hcnt,
      by simpa [sampleAt, SampInv] using hsmp⟩, ?_⟩
    · simp only [step, countBufferFlush_eq rt w p hp]; rfl
    · simp only [step, countBufferFlush_eq rt w p hp]; exact hf
    · simp only [step, countBufferFlush_eq rt w p hp]; rfl
  | recordCall g =>
    obtain ⟨t, c, n, heq, hstep⟩ := RecordCall_eq rt hC g w p hp
    have hsum' : sumSampleCount t = 0 := by
      obtain ⟨q, hq, hqs⟩ := RecordCall_statHash rt g w p hp
      rw [heq] at hq
      have : q.statHash = t := by
        have h1 := Option.some.inj hq
        rw [← h1]
      rw [← this, hqs, hsum]
    refine ⟨⟨{ p with statHash := t, counts := c, currentCount := n }, f, ?_, ?_, hst, hfd, herr,
      by simpa [sampleAt] using htot, hsum',
      by simpa [callAt] using hstep calls hcnt,
      by simpa [sampleAt, SampInv] using hsmp⟩, ?_⟩
    · simp only [step, heq]; rfl
    · simp only [step, heq]; exact hf
    · simp only [step, heq]; rfl
  | tick ok =>
    have hok : ok = true := by simpa [sessionOp] using hop
    subst hok
    cases r with
    | false =>
      have hs : p.state ≠ SCM_PROFILER_RUNNING := by simp [hst]
      have hw : sampler_sample rt true w = w := by simp [sampler_sample, hp, hs]
      refine ⟨⟨p, f, ?_, ?_, hst, hfd, herr, by simpa [sampleAt] using htot, hsum,
        by simpa [callAt] using hcnt, by simpa [sampleAt] using hsmp⟩, ?_⟩
      · simp only [step, hw]; exact hp
      · simp only [step, hw]; exact hf
      · simp only [step, hw]; rfl
    | true =>
      have hs : p.state = SCM_PROFILER_RUNNING := by simpa using hst
      obtain ⟨sm, n, f', it, heq, hinv'⟩ :=
        sampler_sample_session rt hS w p f samples hp hf hs hfd hsmp
      refine ⟨⟨{ p with samples := sm, currentSample := n, totalSamples := p.totalSamples + 1 },
        f', ?_, ?_, hst, hfd, herr, by simp [sampleAt, htot], hsum,
        by simpa [callAt, CountInv] using hcnt,
        by simpa [sampleAt, sampleOfRegs_regsOf] using hinv'⟩, ?_⟩
      · simp only [step, heq]; rfl
      · simp only [step, heq]; rfl
      · simp only [step, heq]; rfl
  | setRegs b a v =>
    refine ⟨⟨p, f, ?_, ?_, hst, hfd, herr, by simpa [sampleAt] using htot, hsum,
      by simpa [callAt] using hcnt, by simpa [sampleAt] using hsmp⟩, ?_⟩
    · simpa [step] using hp
    · simpa [step] using hf
    · simp [step, regsOf, regsAfter]

/-- A session keeps the session invariant; the recorded calls and samples
grow by what the session records. -/
theorem SessInv_run (rt : Runtime) (hC : 1 ≤ rt.SCM_PROF_COUNTER_IN_BUFFER)
    (hS : 1 ≤ rt.SCM_PROF_SAMPLES_IN_BUFFER) (ops : List Op) (w : World) (r : Bool)
    (calls : List ScmObj) (samples : List ScmProfSample)
    (h : SessInv rt w r calls samples) (hops : ops.all sessionOp = true) :
    SessInv rt (run rt w ops) (ops.foldl runningAfter r) (calls ++ callsOf ops)
      (samples ++ samplesOf rt r (regsOf w.vm) ops) ∧
    regsOf (run rt w ops).vm = ops.foldl regsAfter (regsOf w.vm) := by
  induction ops generalizing w r calls samples with
  | nil => exact ⟨by simpa [run, callsOf, samplesOf] using h, rfl⟩
  | cons op ops ih =>
    simp only [List.all_cons, Bool.and_eq_true] at hops
    obtain ⟨h1, h2⟩ := SessInv_step rt hC hS w r calls samples op h hops.1
    obtain ⟨h3, h4⟩ := ih (step rt w op) _ _ _ h1 hops.2
    exact ⟨by simpa [run, callsOf, samplesOf, h2, List.append_assoc] using h3,
      by simpa [run, h2] using h4⟩

/-- The start of a world without profiler opens a session. -/
theorem SessInv_Start (rt : Runtime) (fd : Nat) (ok : Bool) (w0 : World)
    (h0 : w0.vm.prof = none) :
    SessInv rt (step rt w0 (Op.start fd ok)) true [] [] ∧
      regsOf (step rt w0 (Op.start fd ok)).vm = regsOf w0.vm := by
  refine ⟨⟨{ newProfiler rt fd with state := SCM_PROFILER_RUNNING }, ⟨[], 0⟩, ?_, ?_, rfl, ?_, rfl,
    rfl, rfl, newProfiler_CountInv rt fd, ?_⟩, ?_⟩
  · cases ok <;> simp [step, Scm_ProfilerStart, h0, newProfiler, World.setProf]
  · cases ok <;> simp [step, Scm_ProfilerStart, h0, World.setProf, openTemp, newProfiler]
  · simp [newProfiler]
  · simp [SampInv, newProfiler]
  · cases ok <;> simp [step, Scm_ProfilerStart, h0, World.setProf, regsOf, newProfiler]


/-! ## Result collection at the end of a session -/

theorem collectWorld_eq (w : World) (p : ScmVMProfiler) (hp : w.vm.prof = some p) :
    collectWorld w =
      ({ w with warnings :=
          ((p.samples.take p.currentSample).foldl collectOne (p.statHash, w.warnings)).2
        } : World).setProf
        { p with statHash :=
          ((p.samples.take p.currentSample).foldl collectOne (p.statHash, w.warnings)).1 } := by
  simp [collectWorld, hp, collect_samples]

/-- The read-back loop, when no read fails: every record between the offset
and the end of the file is collected, in file order, and the loop ends by
reaching the end of the file. -/
theorem readLoop_all (rt : Runtime) (hS : 1 ≤ rt.SCM_PROF_SAMPLES_IN_BUFFER) (fuel k : Nat)
    (w : World) (p : ScmVMProfiler) (f : SpillFile)
    (hp : w.vm.prof = some p) (hf : w.spill = some f) (hfd : 0 ≤ p.samplerFd)
    (hoff : f.offset ≤ f.data.length) (hfuel : f.data.length - f.offset < fuel) :
    ∃ sm n, readLoop rt none fuel k w =
      ({ w with spill := some { f with offset := f.data.length },
                warnings := ((f.data.drop f.offset).foldl collectOne (p.statHash, w.warnings)).2
        } : World).setProf
        { p with statHash := ((f.data.drop f.offset).foldl collectOne (p.statHash, w.warnings)).1,
                 samples := sm, currentSample := n } := by
  induction fuel generalizing k w p f with
  | zero => omega
  | succ fuel ih =>
    have hfd' : ¬ p.samplerFd < 0 := by omega
    by_cases hend : ((f.data.drop f.offset).take rt.SCM_PROF_SAMPLES_IN_BUFFER).length = 0
    · have hnil : f.data.drop f.offset = [] := by
        have h1 := List.length_eq_zero.mp hend
        cases hd : f.data.drop f.offset with
        | nil => rfl
        | cons a l =>
          rw [hd] at h1
          obtain ⟨m, hm⟩ : ∃ m, rt.SCM_PROF_SAMPLES_IN_BUFFER = m + 1 := ⟨_, (Nat.sub_add_cancel hS).symm⟩
          rw [hm] at h1
          simp at h1
      have hlen : f.offset = f.data.length := by
        have := congrArg List.length hnil
        simp at this; omega
      refine ⟨p.samples, p.currentSample, ?_⟩
      simp only [readLoop, hp, hf, hfd', or_false, hend, if_true, hnil, List.foldl_nil,
        reduceCtorEq, if_false]
      cases w with
      | mk vm sp it hd wa =>
        cases vm with
        | mk prof r b pc v =>
          cases f
          simp_all [World.setProf]
    · set chunk := (f.data.drop f.offset).take rt.SCM_PROF_SAMPLES_IN_BUFFER with hchunk
      have hclen : chunk.length ≤ f.data.length - f.offset := by
        rw [hchunk, List.length_take, List.length_drop]; exact Nat.min_le_right _ _
      have hsplit : f.data.drop f.offset = chunk ++ f.data.drop (f.offset + chunk.length) := by
        have h1 := (List.take_append_drop rt.SCM_PROF_SAMPLES_IN_BUFFER (f.data.drop f.offset)).symm
        rw [List.drop_drop] at h1
        have h2 : chunk.length = min rt.SCM_PROF_SAMPLES_IN_BUFFER (f.data.length - f.offset) := by
          rw [hchunk, List.length_take, List.length_drop]
        by_cases hcase : rt.SCM_PROF_SAMPLES_IN_BUFFER ≤ f.data.length - f.offset
        · rw [Nat.min_eq_left hcase] at h2
          rw [h2]; exact h1
        · have hall : chunk = f.data.drop f.offset := by
            rw [hchunk]; apply List.take_of_length_le; rw [List.length_drop]; omega
          have h3 : f.data.drop (f.offset + chunk.length) = [] := by
            apply List.drop_of_length_le
            rw [hall, List.length_drop]; omega
          rw [h3, List.append_nil, hall]
      have htake : (chunk ++ p.samples.drop chunk.length).take chunk.length = chunk := by
        simp
      obtain ⟨sm, n, hih⟩ := ih (k + 1)
        (collectWorld (({ w with spill := some { f with offset := f.offset + chunk.length } } : World).setProf
          { p with samples := chunk ++ p.samples.drop chunk.length, currentSample := chunk.length }))
        { p with samples := chunk ++ p.samples.drop chunk.length, currentSample := chunk.length,
                 statHash := (chunk.foldl collectOne (p.statHash, w.warnings)).1 }
        { f with offset := f.offset + chunk.length }
        (by rw [collectWorld_eq _ _ rfl]; simp [World.setProf, htake])
        (by rw [collectWorld_eq _ _ rfl]; rfl)
        hfd (by show f.offset + chunk.length ≤ f.data.length; omega)
        (by show f.data.length - (f.offset + chunk.length) < fuel; omega)
      refine ⟨sm, n, ?_⟩
      simp only [readLoop, hp, hf, hfd', or_false, reduceCtorEq, if_false, ← hchunk, hend]
      rw [hih, collectWorld_eq _ _ rfl]
      simp only [World.setProf, htake]
      rw [hsplit, List.foldl_append]


/-- The second half of a result collection when seek, reads and truncate
succeed: every record of the file is collected in file order, the file is
emptied (its offset stays where the reads left it), `currentSample` is reset
and the table is returned. -/
theorem readBack_ok (rt : Runtime) (hS : 1 ≤ rt.SCM_PROF_SAMPLES_IN_BUFFER) (env : ResultEnv)
    (hseek : env.seekOk = true) (hread : env.readFailAt = none) (htrunc : env.truncOk = true)
    (w : World) (p : ScmVMProfiler) (f : SpillFile)
    (hp : w.vm.prof = some p) (hf : w.spill = some f) (hfd : 0 ≤ p.samplerFd) :
    ∃ sm, readBack rt env w =
      (ScmResult.statHash (f.data.foldl collectOne (p.statHash, w.warnings)).1,
       ({ w with spill := some ⟨[], f.data.length⟩,
                 warnings := (f.data.foldl collectOne (p.statHash, w.warnings)).2 } : World).setProf
         { p with statHash := (f.data.foldl collectOne (p.statHash, w.warnings)).1,
                  samples := sm, currentSample := 0 }) := by
  have hfd' : ¬ p.samplerFd < 0 := by omega
  obtain ⟨sm, n, hloop⟩ := readLoop_all rt hS (f.data.length + 1) 0
    ({ w with spill := some { f with offset := 0 } } : World) p { f with offset := 0 }
    hp rfl hfd (Nat.zero_le _) (by show f.data.length - 0 < f.data.length + 1; omega)
  refine ⟨sm, ?_⟩
  simp only [readBack, hp, hf, sys_lseek0, hfd', hseek, Bool.true_eq_false, or_false, if_false,
    hread]
  rw [hloop]
  simp [World.setProf, sys_ftruncate0, hfd', htrunc]

theorem warnInaccurate_eq (w : World) (p : ScmVMProfiler) (hp : w.vm.prof = some p)
    (herr : p.errorOccurred = 0) : warnInaccurate w = w := by
  simp [warnInaccurate, hp, herr]

theorem droppedSamples_foldl_collectKey (l l' : List ScmProfSample) (t : StatTable) :
    droppedSamples (l.foldl collectKey t) l' = droppedSamples t l' := by
  induction l generalizing t with
  | nil => rfl
  | cons s l ih => rw [List.foldl_cons, ih, droppedSamples_collectKey]

/-- The result of a successful collection at the end of a session: the
returned table is the aggregate of all recorded calls and samples, and one
diagnostic is emitted for each sample whose function has no entry. -/
theorem RawResult_session (rt : Runtime) (hS : 1 ≤ rt.SCM_PROF_SAMPLES_IN_BUFFER)
    (env : ResultEnv) (hseek : env.seekOk = true) (hread : env.readFailAt = none)
    (htrunc : env.truncOk = true) (w : World) (r : Bool) (calls : List ScmObj)
    (samples : List ScmProfSample) (h : SessInv rt w r calls samples) :
    (Scm_ProfilerRawResult rt env w).1 = ScmResult.statHash (aggregate rt calls samples) ∧
    ∃ ds, (Scm_ProfilerRawResult rt env w).2.warnings = w.warnings ++ ds ∧
      ds.Perm ((droppedSamples (aggregate rt calls samples) samples).map uncountedDiag) := by
  obtain ⟨p, f, hp, hf, hst, hfd, herr, htot, hsum, hcnt, hsmp⟩ := h
  have hact : p.state ≠ SCM_PROFILER_INACTIVE := by cases r <;> simp [hst]
  -- the world after the implicit stop
  obtain ⟨w1, hw1, hp1, hf1, hwa1⟩ : ∃ w1 : World,
      w1 = (if p.state = SCM_PROFILER_RUNNING then (Scm_ProfilerStop w).2 else w) ∧
      w1.vm.prof = some { p with state := SCM_PROFILER_PAUSING } ∧ w1.spill = some f ∧
      w1.warnings = w.warnings := by
    refine ⟨_, rfl, ?_, ?_, ?_⟩
    · cases r
      · have hpe : ({ p with state := SCM_PROFILER_PAUSING } : ScmVMProfiler) = p := by
          cases p; simp_all
        simp_all
      · simp_all [Scm_ProfilerStop]
    · cases r <;> simp_all [Scm_ProfilerStop]
    · cases r <;> simp_all [Scm_ProfilerStop]
  have hres : Scm_ProfilerRawResult rt env w =
      readBack rt env (collectWorld (Scm_ProfilerCountBufferFlush rt (warnInaccurate w1))) := by
    simp only [Scm_ProfilerRawResult, hp, hact, if_false, hw1]
  obtain ⟨hclen, hcle, hcfold⟩ := hcnt
  obtain ⟨hslen, hsle, hsoff, hsdata⟩ := hsmp
  obtain ⟨w4, hw4, p4, hp4, hf4, hfd4, hst4, hwa4⟩ : ∃ w4 : World,
      w4 = collectWorld (Scm_ProfilerCountBufferFlush rt (warnInaccurate w1)) ∧
      ∃ p4, w4.vm.prof = some p4 ∧ w4.spill = some f ∧ 0 ≤ p4.samplerFd ∧
        p4.statHash = ((p.samples.take p.currentSample).foldl collectOne
          ((p.counts.take p.currentCount).foldl (countOne rt) p.statHash, w.warnings)).1 ∧
        w4.warnings = ((p.samples.take p.currentSample).foldl collectOne
          ((p.counts.take p.currentCount).foldl (countOne rt) p.statHash, w.warnings)).2 := by
    refine ⟨_, rfl, ?_⟩
    rw [warnInaccurate_eq w1 _ hp1 herr, countBufferFlush_eq rt w1 _ hp1,
      collectWorld_eq _ _ rfl]
    refine ⟨_, rfl, ?_, hfd, ?_, ?_⟩
    · simpa [World.setProf] using hf1
    · simp [World.setProf, hwa1]
    · simp [World.setProf, hwa1]
  rw [hres, ← hw4]
  obtain ⟨sm, hrb⟩ := readBack_ok rt hS env hseek hread htrunc w4 p4 f hp4 hf4 hfd4
  rw [hrb, hst4, hwa4]
  have hperm : (p.samples.take p.currentSample ++ f.data).Perm samples := by
    rw [← hsdata]; exact List.perm_append_comm
  have hpair : f.data.foldl collectOne
      (((p.samples.take p.currentSample).foldl collectOne
          ((p.counts.take p.currentCount).foldl (countOne rt) p.statHash, w.warnings)).1,
       ((p.samples.take p.currentSample).foldl collectOne
          ((p.counts.take p.currentCount).foldl (countOne rt) p.statHash, w.warnings)).2) =
      (p.samples.take p.currentSample ++ f.data).foldl collectOne
        (countAll rt calls, w.warnings) := by
    rw [List.foldl_append, hcfold]; rfl
  rw [hpair]
  have hd : droppedSamples (aggregate rt calls samples) samples =
      droppedSamples (countAll rt calls) samples := by
    rw [aggregate, foldl_collectOne_fst, droppedSamples_foldl_collectKey]
  refine ⟨?_, (droppedSamples (countAll rt calls)
      (p.samples.take p.currentSample ++ f.data)).map uncountedDiag, ?_, ?_⟩
  · show ScmResult.statHash _ = _
    rw [foldl_collectOne_fst, aggregate, foldl_collectOne_fst]
    exact congrArg ScmResult.statHash (foldl_collectKey_perm _ _ hperm _)
  · show (List.foldl collectOne _ _).2 = _
    rw [foldl_collectOne_snd]
  · rw [hd]
    exact List.Perm.map _ (List.Perm.filter _ hperm)


/-! ## Sample accounting and spill transparency -/

/-- The session invariant at the end of a session that starts from a world
without profiler. -/
theorem SessInv_session (rt : Runtime) (hC : 1 ≤ rt.SCM_PROF_COUNTER_IN_BUFFER)
    (hS : 1 ≤ rt.SCM_PROF_SAMPLES_IN_BUFFER) (fd : Nat) (ok : Bool) (w0 : World)
    (h0 : w0.vm.prof = none) (ops : List Op) (hops : ops.all sessionOp = true) :
    SessInv rt (run rt w0 (Op.start fd ok :: ops)) (ops.foldl runningAfter true) (callsOf ops)
      (samplesOf rt true (regsOf w0.vm) ops) := by
  obtain ⟨h1, h2⟩ := SessInv_Start rt fd ok w0 h0
  have h3 := (SessInv_run rt hC hS ops _ true [] [] h1 hops).1
  simpa [run, h2] using h3

/-- The accounting of a session on the numbers of increments that the model
keeps: `totalSamples` is the number M of ticks recorded, and after a
successful collection the sum of the sample counts plus the number of
diagnostics is M. -/
theorem session_accounting (rt : Runtime) (hC : 1 ≤ rt.SCM_PROF_COUNTER_IN_BUFFER)
    (hS : 1 ≤ rt.SCM_PROF_SAMPLES_IN_BUFFER) (fd : Nat) (ok : Bool) (w0 : World)
    (h0 : w0.vm.prof = none) (ops : List Op) (hops : ops.all sessionOp = true)
    (env : ResultEnv) (hseek : env.seekOk = true) (hread : env.readFailAt = none)
    (htrunc : env.truncOk = true) :
    ∃ p t ds,
      (run rt w0 (Op.start fd ok :: ops)).vm.prof = some p ∧
      p.totalSamples = (samplesOf rt true (regsOf w0.vm) ops).length ∧
      sumSampleCount p.statHash = 0 ∧
      (Scm_ProfilerRawResult rt env (run rt w0 (Op.start fd ok :: ops))).1 =
        ScmResult.statHash t ∧
      (Scm_ProfilerRawResult rt env (run rt w0 (Op.start fd ok :: ops))).2.warnings =
        (run rt w0 (Op.start fd ok :: ops)).warnings ++ ds ∧
      ds.Perm ((droppedSamples t (samplesOf rt true (regsOf w0.vm) ops)).map uncountedDiag) ∧
      sumSampleCount t + ds.length = (samplesOf rt true (regsOf w0.vm) ops).length := by
  have hinv := SessInv_session rt hC hS fd ok w0 h0 ops hops
  obtain ⟨hres, ds, hwarn, hperm⟩ := RawResult_session rt hS env hseek hread htrunc _ _ _ _ hinv
  obtain ⟨p, f, hp, hf, hst, hfd, herr, htot, hsum, hcnt, hsmp⟩ := hinv
  refine ⟨p, _, ds, hp, htot, hsum, hres, hwarn, hperm, ?_⟩
  rw [hperm.length_eq, List.length_map]
  have h1 := sumSampleCount_foldl_collectKey (samplesOf rt true (regsOf w0.vm) ops)
    (countAll rt (callsOf ops))
  rw [sumSampleCount_countAll, Nat.zero_add] at h1
  rw [aggregate, foldl_collectOne_fst, droppedSamples_foldl_collectKey]
  exact h1

/-- As long as the sum of the sample counts is at most `INT_MAX`, the sum of
the C `int`s that hold them is that sum. -/
theorem sum_cint_cdr (t : StatTable) (h : sumSampleCount t ≤ INT_MAX) :
    (t.map (fun e => cint e.cdr)).sum = (sumSampleCount t : Int) := by
  induction t with
  | nil => simp [sumSampleCount]
  | cons e t ih =>
    have hs : sumSampleCount (e :: t) = e.cdr + sumSampleCount t := by
      simp [sumSampleCount]
    rw [hs] at h ⊢
    rw [List.map_cons, List.sum_cons, ih (by omega), cint_of_le e.cdr (by omega)]
    push_cast
    rfl

/-- C3, amended. Sample accounting: for every session that starts from a
world without profiler (the start creates the profiler with an empty sample
buffer and an empty spill file) and in which no spill write fails, with
buffer capacities of at least 1: if M ticks are recorded while RUNNING and M
is at most `INT_MAX`, then `totalSamples` is M, the sum of the sample counts
of the table is 0 before the collection, and a successful
`Scm_ProfilerRawResult` (its seek, its reads and its truncate succeed)
returns a table whose sum of sample counts, plus the number of diagnostics
emitted, is M (also on the `int`s in which the source computes the counts);
the diagnostics are one "uncounted object" per recorded sample whose function
has no entry in the table. -/
theorem sample_accounting (rt : Runtime) (hC : 1 ≤ rt.SCM_PROF_COUNTER_IN_BUFFER)
    (hS : 1 ≤ rt.SCM_PROF_SAMPLES_IN_BUFFER) (fd : Nat) (ok : Bool) (w0 : World)
    (h0 : w0.vm.prof = none) (ops : List Op) (hops : ops.all sessionOp = true)
    (env : ResultEnv) (hseek : env.seekOk = true) (hread : env.readFailAt = none)
    (htrunc : env.truncOk = true)
    (hM : (samplesOf rt true (regsOf w0.vm) ops).length ≤ INT_MAX) :
    ∃ p t ds,
      (run rt w0 (Op.start fd ok :: ops)).vm.prof = some p ∧
      p.totalSamples = (samplesOf rt true (regsOf w0.vm) ops).length ∧
      sumSampleCount p.statHash = 0 ∧
      (Scm_ProfilerRawResult rt env (run rt w0 (Op.start fd ok :: ops))).1 =
        ScmResult.statHash t ∧
      (Scm_ProfilerRawResult rt env (run rt w0 (Op.start fd ok :: ops))).2.warnings =
        (run rt w0 (Op.start fd ok :: ops)).warnings ++ ds ∧
      ds.Perm ((droppedSamples t (samplesOf rt true (regsOf w0.vm) ops)).map uncountedDiag) ∧
      sumSampleCount t + ds.length = (samplesOf rt true (regsOf w0.vm) ops).length ∧
      cint p.totalSamples = ((samplesOf rt true (regsOf w0.vm) ops).length : Int) ∧
      (t.map (fun e => cint e.cdr)).sum + (ds.length : Int) =
        ((samplesOf rt true (regsOf w0.vm) ops).length : Int) := by
  obtain ⟨p, t, ds, hp, htot, hsum, hres, hwarn, hperm, hacc⟩ :=
    session_accounting rt hC hS fd ok w0 h0 ops hops env hseek hread htrunc
  refine ⟨p, t, ds, hp, htot, hsum, hres, hwarn, hperm, hacc, ?_, ?_⟩
  · rw [htot]; exact cint_of_le _ hM
  · rw [sum_cint_cdr t (by omega), ← hacc]
    push_cast
    rfl

/-- Instance of C3: in `exSession` four ticks are recorded; the collection
returns the table with the single entry of address 8 (2 calls, 2 samples) and
reports the two samples of address 16 as uncounted. -/
theorem sample_accounting_witness :
    (Scm_ProfilerRawResult exRuntime okEnv
        (run exRuntime boot (Op.start 3 true :: exSession))).1 =
      ScmResult.statHash [⟨ScmObj.ptr 8, 2, 2⟩] ∧
    (Scm_ProfilerRawResult exRuntime okEnv
        (run exRuntime boot (Op.start 3 true :: exSession))).2.warnings =
      [Diag.uncounted (ScmObj.ptr 16), Diag.uncounted (ScmObj.ptr 16)] ∧
    ∃ p t ds,
      (run exRuntime boot (Op.start 3 true :: exSession)).vm.prof = some p ∧
      p.totalSamples = (samplesOf exRuntime true (regsOf boot.vm) exSession).length ∧
      sumSampleCount p.statHash = 0 ∧
      (Scm_ProfilerRawResult exRuntime okEnv
          (run exRuntime boot (Op.start 3 true :: exSession))).1 = ScmResult.statHash t ∧
      (Scm_ProfilerRawResult exRuntime okEnv
          (run exRuntime boot (Op.start 3 true :: exSession))).2.warnings =
        (run exRuntime boot (Op.start 3 true :: exSession)).warnings ++ ds ∧
      ds.Perm ((droppedSamples t (samplesOf exRuntime true (regsOf boot.vm) exSession)).map
        uncountedDiag) ∧
      sumSampleCount t + ds.length =
        (samplesOf exRuntime true (regsOf boot.vm) exSession).length ∧
      cint p.totalSamples =
        ((samplesOf exRuntime true (regsOf boot.vm) exSession).length : Int) ∧
      (t.map (fun e => cint e.cdr)).sum + (ds.length : Int) =
        ((samplesOf exRuntime true (regsOf boot.vm) exSession).length : Int) :=
  ⟨by decide, by decide,
   sample_accounting exRuntime (by decide) (by decide) 3 true boot rfl exSession (by decide)
     okEnv rfl rfl rfl (by decide)⟩

theorem samplesOf_ticks (rt : Runtime) (g : Regs) (n : Nat) :
    samplesOf rt true g (List.replicate n (Op.tick true)) =
      List.replicate n (currentSampleOf rt ⟨none, false, g.base, g.pc, g.val0⟩) := by
  induction n with
  | zero => rfl
  | succ n ih =>
    rw [List.replicate_succ, List.replicate_succ]
    simp only [samplesOf, sampleAt, runningAfter, regsAfter, if_true, ih, List.singleton_append]

theorem callsOf_ticks (n : Nat) : callsOf (List.replicate n (Op.tick true)) = [] := by
  induction n with
  | zero => rfl
  | succ n ih => rw [List.replicate_succ]; simp only [callsOf, callAt, ih, List.append_nil]

theorem sessionOp_ticks (n : Nat) : (List.replicate n (Op.tick true)).all sessionOp = true := by
  rw [List.all_eq_true]
  intro x hx
  rw [List.eq_of_mem_replicate hx]
  rfl

theorem foldl_collectKey_replicate (k : ScmObj) (a b n : Nat) (s : ScmProfSample)
    (hs : s.func = k) :
    (List.replicate n s).foldl collectKey [⟨k, a, b⟩] = [⟨k, a, b + n⟩] := by
  induction n generalizing b with
  | zero => rfl
  | succ n ih =>
    rw [List.replicate_succ, List.foldl_cons]
    have h1 : collectKey [⟨k, a, b⟩] s = [⟨k, a, b + 1⟩] := by
      simp [collectKey, modifyEntry, hs]
    rw [h1, ih (b + 1)]
    simp [Nat.add_assoc, Nat.add_comm 1 n]

/-- The collection at the end of the session `longSession n` (one call of
the function at address 8, then `n` ticks in it): the table counts `n`
increments of the sample count, and no sample is dropped. -/
theorem longSession_result (n : Nat) :
    (samplesOf exRuntime true (regsOf boot.vm) (longSession n)).length = n ∧
    (Scm_ProfilerRawResult exRuntime okEnv
        (run exRuntime boot (Op.start 3 true :: longSession n))).1 =
      ScmResult.statHash [⟨ScmObj.ptr 8, 1, n⟩] ∧
    (Scm_ProfilerRawResult exRuntime okEnv
        (run exRuntime boot (Op.start 3 true :: longSession n))).2.warnings =
      (run exRuntime boot (Op.start 3 true :: longSession n)).warnings := by
  have hsam : samplesOf exRuntime true (regsOf boot.vm) (longSession n) =
      List.replicate n ⟨ScmObj.ptr 8, some 40⟩ := by
    simp only [longSession, samplesOf, sampleAt, runningAfter, regsAfter, List.nil_append,
      samplesOf_ticks]
    rfl
  have hcal : callsOf (longSession n) = [ScmObj.ptr 8] := by
    simp only [longSession, callsOf, callAt, callsOf_ticks, List.nil_append, List.append_nil]
  have hops : (longSession n).all sessionOp = true := by
    simp only [longSession, List.all_cons, sessionOp, sessionOp_ticks, Bool.and_self]
  have hinv := SessInv_session exRuntime (by decide) (by decide) 3 true boot rfl (longSession n)
    hops
  obtain ⟨hres, ds, hwarn, hperm⟩ :=
    RawResult_session exRuntime (by decide) okEnv rfl rfl rfl _ _ _ _ hinv
  have hagg : aggregate exRuntime (callsOf (longSession n))
      (samplesOf exRuntime true (regsOf boot.vm) (longSession n)) =
      [⟨ScmObj.ptr 8, 1, n⟩] := by
    rw [hcal, hsam, aggregate, foldl_collectOne_fst]
    have h0 : countAll exRuntime [ScmObj.ptr 8] = [⟨ScmObj.ptr 8, 1, 0⟩] := by decide
    rw [h0, foldl_collectKey_replicate (ScmObj.ptr 8) 1 0 n _ rfl, Nat.zero_add]
  rw [hagg] at hres hperm
  have hdrop : droppedSamples [⟨ScmObj.ptr 8, 1, n⟩]
      (samplesOf exRuntime true (regsOf boot.vm) (longSession n)) = [] := by
    rw [hsam, droppedSamples, List.filter_eq_nil_iff]
    intro x hx
    rw [List.eq_of_mem_replicate hx]
    simp [Scm_HashTableGet]
  rw [hdrop] at hperm
  have hds : ds = [] := List.Perm.eq_nil hperm
  refine ⟨by rw [hsam, List.length_replicate], hres, ?_⟩
  rw [hwarn, hds, List.append_nil]

/-- C3 as stated fails for a session of more than `INT_MAX` ticks.  In the
session `longSession 2147483648` the function at address 8 is called once and
then sampled by M = `INT_MAX + 1` = 2147483648 ticks; the collection drops no
sample, so the claim requires the sample count 2147483648, which no `int`
holds: the count of the table has been incremented 2147483648 times through
`int cnt`, which then holds -2147483648, and the sum of the sample counts
plus the number of dropped samples is not M. -/
theorem sample_count_int_overflow :
    (samplesOf exRuntime true (regsOf boot.vm) (longSession 2147483648)).length =
      2147483648 ∧
    ¬ 2147483648 ≤ INT_MAX ∧
    (Scm_ProfilerRawResult exRuntime okEnv
        (run exRuntime boot (Op.start 3 true :: longSession 2147483648))).1 =
      ScmResult.statHash [⟨ScmObj.ptr 8, 1, 2147483648⟩] ∧
    (Scm_ProfilerRawResult exRuntime okEnv
        (run exRuntime boot (Op.start 3 true :: longSession 2147483648))).2.warnings =
      (run exRuntime boot (Op.start 3 true :: longSession 2147483648)).warnings ∧
    (([⟨ScmObj.ptr 8, 1, 2147483648⟩] : StatTable).map (fun e => cint e.cdr)).sum =
      -2147483648 :=
  ⟨(longSession_result 2147483648).1, by decide, (longSession_result 2147483648).2.1,
   (longSession_result 2147483648).2.2, by decide⟩

theorem samplesOf_capacity (rt : Runtime) (c : Nat) (ops : List Op) (r : Bool) (g : Regs) :
    samplesOf { rt with SCM_PROF_SAMPLES_IN_BUFFER := c } r g ops = samplesOf rt r g ops := by
  induction ops generalizing r g with
  | nil => rfl
  | cons op ops ih =>
    simp only [samplesOf, ih]
    cases op <;> rfl

theorem aggregate_capacity (rt : Runtime) (c : Nat) (calls : List ScmObj)
    (samples : List ScmProfSample) :
    aggregate { rt with SCM_PROF_SAMPLES_IN_BUFFER := c } calls samples =
      aggregate rt calls samples := rfl

/-- C4, amended. Spill transparency: for every session that starts from a world
without profiler and in which no spill write fails, and for every two
capacities `c₁`, `c₂` of at least 1 of the sample buffer, a successful
`Scm_ProfilerRawResult` (its seek, its reads and its truncate succeed, so
that the spilled samples are read back) returns the same table under both
capacities: the
aggregate of the recorded calls and samples, which does not depend on the
order of the samples (`foldl_collectKey_perm`), hence not on which of them
went through the spill file. -/
theorem spill_transparency (rt : Runtime) (hC : 1 ≤ rt.SCM_PROF_COUNTER_IN_BUFFER)
    (c₁ c₂ : Nat) (h₁ : 1 ≤ c₁) (h₂ : 1 ≤ c₂) (fd : Nat) (ok : Bool) (w0 : World)
    (h0 : w0.vm.prof = none) (ops : List Op) (hops : ops.all sessionOp = true)
    (env : ResultEnv) (hseek : env.seekOk = true) (hread : env.readFailAt = none)
    (htrunc : env.truncOk = true) :
    (Scm_ProfilerRawResult { rt with SCM_PROF_SAMPLES_IN_BUFFER := c₁ } env
        (run { rt with SCM_PROF_SAMPLES_IN_BUFFER := c₁ } w0 (Op.start fd ok :: ops))).1 =
      ScmResult.statHash (aggregate rt (callsOf ops) (samplesOf rt true (regsOf w0.vm) ops)) ∧
    (Scm_ProfilerRawResult { rt with SCM_PROF_SAMPLES_IN_BUFFER := c₂ } env
        (run { rt with SCM_PROF_SAMPLES_IN_BUFFER := c₂ } w0 (Op.start fd ok :: ops))).1 =
      (Scm_ProfilerRawResult { rt with SCM_PROF_SAMPLES_IN_BUFFER := c₁ } env
        (run { rt with SCM_PROF_SAMPLES_IN_BUFFER := c₁ } w0 (Op.start fd ok :: ops))).1 := by
  have key : ∀ c, 1 ≤ c →
      (Scm_ProfilerRawResult { rt with SCM_PROF_SAMPLES_IN_BUFFER := c } env
        (run { rt with SCM_PROF_SAMPLES_IN_BUFFER := c } w0 (Op.start fd ok :: ops))).1 =
      ScmResult.statHash (aggregate rt (callsOf ops) (samplesOf rt true (regsOf w0.vm) ops)) := by
    intro c hc
    have hinv := SessInv_session { rt with SCM_PROF_SAMPLES_IN_BUFFER := c } hC hc fd ok w0 h0
      ops hops
    have hres := (RawResult_session { rt with SCM_PROF_SAMPLES_IN_BUFFER := c } hc env hseek
      hread htrunc _ _ _ _ hinv).1
    rw [hres, samplesOf_capacity, aggregate_capacity]
  exact ⟨key c₁ h₁, by rw [key c₂ h₂, key c₁ h₁]⟩

/-- Instance of C4: the session `exSession` with a sample buffer of one entry
(every sample but the last is spilled) and with one of 4096 entries (nothing
is spilled). -/
theorem spill_transparency_witness :
    (Scm_ProfilerRawResult { exRuntime with SCM_PROF_SAMPLES_IN_BUFFER := 1 } okEnv
        (run { exRuntime with SCM_PROF_SAMPLES_IN_BUFFER := 1 } boot
          (Op.start 3 true :: exSession))).1 =
      ScmResult.statHash
        (aggregate exRuntime (callsOf exSession)
          (samplesOf exRuntime true (regsOf boot.vm) exSession)) ∧
    (Scm_ProfilerRawResult { exRuntime with SCM_PROF_SAMPLES_IN_BUFFER := 4096 } okEnv
        (run { exRuntime with SCM_PROF_SAMPLES_IN_BUFFER := 4096 } boot
          (Op.start 3 true :: exSession))).1 =
      (Scm_ProfilerRawResult { exRuntime with SCM_PROF_SAMPLES_IN_BUFFER := 1 } okEnv
        (run { exRuntime with SCM_PROF_SAMPLES_IN_BUFFER := 1 } boot
          (Op.start 3 true :: exSession))).1 :=
  spill_transparency exRuntime (by decide) 1 4096 (by decide) (by decide) 3 true boot rfl
    exSession (by decide) okEnv rfl rfl rfl

/-- C4 as stated fails when a `read` of the collection fails: the loop of
`Scm_ProfilerRawResult` leaves on `r <= 0` and the samples still in the spill
file are not counted, without error or diagnostic.  For the session
`exSession`, in which no spill write fails, and a collection whose first read
fails: with a sample buffer of one entry the two samples of the function at
address 8 are in the file and the table returned has sample count 0; with a
sample buffer of eight entries nothing is spilled and the table returned has
sample count 2. -/
theorem spill_transparency_read_failure :
    (Scm_ProfilerRawResult { exRuntime with SCM_PROF_SAMPLES_IN_BUFFER := 1 } readFailEnv
        (run { exRuntime with SCM_PROF_SAMPLES_IN_BUFFER := 1 } boot
          (Op.start 3 true :: exSession))).1 =
      ScmResult.statHash [⟨ScmObj.ptr 8, 2, 0⟩] ∧
    (Scm_ProfilerRawResult { exRuntime with SCM_PROF_SAMPLES_IN_BUFFER := 8 } readFailEnv
        (run { exRuntime with SCM_PROF_SAMPLES_IN_BUFFER := 8 } boot
          (Op.start 3 true :: exSession))).1 =
      ScmResult.statHash [⟨ScmObj.ptr 8, 2, 2⟩] ∧
    (Scm_ProfilerRawResult { exRuntime with SCM_PROF_SAMPLES_IN_BUFFER := 1 } readFailEnv
        (run { exRuntime with SCM_PROF_SAMPLES_IN_BUFFER := 1 } boot
          (Op.start 3 true :: exSession))).1 ≠
      (Scm_ProfilerRawResult { exRuntime with SCM_PROF_SAMPLES_IN_BUFFER := 8 } readFailEnv
        (run { exRuntime with SCM_PROF_SAMPLES_IN_BUFFER := 8 } boot
          (Op.start 3 true :: exSession))).1 ∧
    (run { exRuntime with SCM_PROF_SAMPLES_IN_BUFFER := 1 } boot
        (Op.start 3 true :: exSession)).vm.prof.map (fun p => p.errorOccurred) = some 0 := by
  decide


/-! ## Resume -/

theorem callsOf_append (a b : List Op) : callsOf (a ++ b) = callsOf a ++ callsOf b := by
  induction a with
  | nil => rfl
  | cons op a ih => simp [callsOf, ih]

theorem samplesOf_append (rt : Runtime) (a b : List Op) (r : Bool) (g : Regs) :
    samplesOf rt r g (a ++ b) =
      samplesOf rt r g a ++ samplesOf rt (a.foldl runningAfter r) (a.foldl regsAfter g) b := by
  induction a generalizing r g with
  | nil => rfl
  | cons op a ih => simp [samplesOf, ih]

theorem runOp_sessionOp (ops : List Op) (h : ops.all runOp = true) :
    ops.all sessionOp = true := by
  induction ops with
  | nil => rfl
  | cons op ops ih =>
    simp only [List.all_cons, Bool.and_eq_true] at h ⊢
    refine ⟨?_, ih h.2⟩
    cases op <;> simp_all [runOp, sessionOp]

theorem runOp_runningAfter (ops : List Op) (h : ops.all runOp = true) (r : Bool) :
    ops.foldl runningAfter r = r := by
  induction ops generalizing r with
  | nil => rfl
  | cons op ops ih =>
    simp only [List.all_cons, Bool.and_eq_true] at h
    simp only [List.foldl_cons]
    rw [ih h.2]
    cases op <;> simp_all [runOp, runningAfter]

theorem run_append (rt : Runtime) (w : World) (a b : List Op) :
    run rt w (a ++ b) = run rt (run rt w a) b := by
  simp [run, List.foldl_append]

/-- The counts of a function in the aggregate of calls and samples. -/
theorem counts_aggregate (rt : Runtime) (calls : List ScmObj) (samples : List ScmProfSample)
    (f : ScmObj) :
    callCount (aggregate rt calls samples) f =
      (if f ∈ calls then some (calls.count f) else none) ∧
    sampleCount (aggregate rt calls samples) f =
      (if f ∈ calls then some ((samples.map (fun s => s.func)).count f) else none) := by
  have hmap : (calls.map ScmProfCount.mk).map (fun c => c.func) = calls := by
    simp [List.map_map, Function.comp_def]
  constructor
  · rw [aggregate, foldl_collectOne_fst, callCount_foldl_collectKey, countAll,
      callCount_foldl_countOne, hmap]
    simp [callCount, Scm_HashTableGet]
  · rw [aggregate, foldl_collectOne_fst, sampleCount_foldl_collectKey, countAll,
      sampleCount_foldl_countOne, hmap]
    by_cases hm : f ∈ calls <;> simp [hm, sampleCount, Scm_HashTableGet]

theorem Stop_session (rt : Runtime) (w : World) (calls : List ScmObj)
    (samples : List ScmProfSample) (h : SessInv rt w true calls samples) :
    (Scm_ProfilerStop w).1 = samples.length := by
  obtain ⟨p, f, hp, hf, hst, hfd, herr, htot, hsum, hcnt, hsmp⟩ := h
  have hs : p.state = SCM_PROFILER_RUNNING := by simpa using hst
  simp [Scm_ProfilerStop, hp, hs, htot]

/-- C5, amended. Resume accumulates.  (1) For every world that satisfies the
lifecycle invariant (as every reachable world does, `reachable_lifecycleInv`):
from PAUSING, `Scm_ProfilerStart` changes only the state (to RUNNING) and the
flag `profilerRunning` (to true), besides arming the timer and installing the
handler: the table, `totalSamples`, `errorOccurred`, both buffers and their
indices, the registers, the spill file and the diagnostics are as before;
from RUNNING it changes nothing at all.  (2) Consequently, for two runs
`ops₁`, `ops₂` of the profiled program in which no spill write fails and
whose numbers of recorded calls and of ticks add up to at most `INT_MAX`, in
Start, `ops₁`, Stop, Start, `ops₂`, Stop the second Stop returns the sum of
the numbers of ticks of the two runs, and a collection whose seek, reads and
truncate succeed returns a table in which every function called has as call
count the sum of its calls in the two runs and as sample count the sum of its
samples in the two runs (also on the `int`s of the source). -/
theorem Scm_ProfilerStart_resume (rt : Runtime) :
    (∀ (mkstemp : Int) (sigactionOk : Bool) (w : World) (p : ScmVMProfiler),
      LifecycleInv w → w.vm.prof = some p →
      (p.state = SCM_PROFILER_PAUSING →
        (Scm_ProfilerStart rt mkstemp sigactionOk w).2.vm =
            { w.vm with prof := some { p with state := SCM_PROFILER_RUNNING },
                        profilerRunning := true } ∧
        (Scm_ProfilerStart rt mkstemp sigactionOk w).2.spill = w.spill ∧
        (Scm_ProfilerStart rt mkstemp sigactionOk w).2.warnings = w.warnings) ∧
      (p.state = SCM_PROFILER_RUNNING →
        Scm_ProfilerStart rt mkstemp sigactionOk w = (none, w))) ∧
    (∀ (fd fd' : Nat) (ok ok' : Bool) (w0 : World) (ops₁ ops₂ : List Op) (env : ResultEnv),
      1 ≤ rt.SCM_PROF_COUNTER_IN_BUFFER → 1 ≤ rt.SCM_PROF_SAMPLES_IN_BUFFER →
      w0.vm.prof = none → ops₁.all runOp = true → ops₂.all runOp = true →
      env.seekOk = true → env.readFailAt = none → env.truncOk = true →
      (callsOf ops₁).length + (callsOf ops₂).length ≤ INT_MAX →
      (samplesOf rt true (regsOf w0.vm) ops₁).length +
        (samplesOf rt true (ops₁.foldl regsAfter (regsOf w0.vm)) ops₂).length ≤ INT_MAX →
      (Scm_ProfilerStop (run rt w0 (Op.start fd ok :: ops₁))).1 =
        (samplesOf rt true (regsOf w0.vm) ops₁).length ∧
      (Scm_ProfilerStop
          (run rt w0 (Op.start fd ok :: (ops₁ ++ Op.stop :: Op.start fd' ok' :: ops₂)))).1 =
        (samplesOf rt true (regsOf w0.vm) ops₁).length +
          (samplesOf rt true (ops₁.foldl regsAfter (regsOf w0.vm)) ops₂).length ∧
      cint (Scm_ProfilerStop
          (run rt w0 (Op.start fd ok :: (ops₁ ++ Op.stop :: Op.start fd' ok' :: ops₂)))).1 =
        (((samplesOf rt true (regsOf w0.vm) ops₁).length +
          (samplesOf rt true (ops₁.foldl regsAfter (regsOf w0.vm)) ops₂).length : Nat) : Int) ∧
      ∃ t, (Scm_ProfilerRawResult rt env
          (Scm_ProfilerStop
            (run rt w0 (Op.start fd ok :: (ops₁ ++ Op.stop :: Op.start fd' ok' :: ops₂)))).2).1 =
          ScmResult.statHash t ∧
        ∀ f,
          callCount t f =
            (if f ∈ callsOf ops₁ ++ callsOf ops₂ then
              some ((callsOf ops₁).count f + (callsOf ops₂).count f)
             else none) ∧
          sampleCount t f =
            (if f ∈ callsOf ops₁ ++ callsOf ops₂ then
              some (((samplesOf rt true (regsOf w0.vm) ops₁).map (fun s => s.func)).count f +
                ((samplesOf rt true (ops₁.foldl regsAfter (regsOf w0.vm)) ops₂).map
                  (fun s => s.func)).count f)
             else none) ∧
          (callCount t f).map cint = (callCount t f).map (fun (n : Nat) => (n : Int)) ∧
          (sampleCount t f).map cint = (sampleCount t f).map (fun (n : Nat) => (n : Int))) := by
  constructor
  · intro mk ok w p hinv hp
    obtain ⟨hflag, hfd⟩ := hinv p hp
    constructor
    · intro hs
      have hfd' : 0 ≤ p.samplerFd := hfd (by simp [hs])
      obtain ⟨h1, h2, h3⟩ := Scm_ProfilerStart_existing rt mk ok w p hp hfd'
      refine ⟨?_, h2, h3⟩
      rw [h1]; simp [hs]
    · intro hs
      have hfd' : 0 ≤ p.samplerFd := hfd (by simp [hs])
      have hfd'' : ¬ p.samplerFd < 0 := by omega
      simp only [Scm_ProfilerStart, hp, hfd'', if_false, hs, if_true, World.setProf]
      cases w with
      | mk vm sp it hd wa =>
        cases vm; simp_all
  · intro fd fd' ok ok' w0 ops₁ ops₂ env hC hS h0 h1 h2 hseek hread htrunc hbc hbs
    have hs1 := runOp_sessionOp ops₁ h1
    have hs2 := runOp_sessionOp ops₂ h2
    have hr1 := runOp_runningAfter ops₁ h1 true
    have hr2 := runOp_runningAfter ops₂ h2 true
    -- the first run
    have hinv1 := SessInv_session rt hC hS fd ok w0 h0 ops₁ hs1
    rw [hr1] at hinv1
    -- both runs
    have hall : (ops₁ ++ Op.stop :: Op.start fd' ok' :: ops₂).all sessionOp = true := by
      simp only [List.all_append, List.all_cons, Bool.and_eq_true]
      exact ⟨hs1, rfl, rfl, hs2⟩
    have hinv2 := SessInv_session rt hC hS fd ok w0 h0 _ hall
    have hcalls : callsOf (ops₁ ++ Op.stop :: Op.start fd' ok' :: ops₂) =
        callsOf ops₁ ++ callsOf ops₂ := by
      simp [callsOf_append, callsOf, callAt]
    have hsamples : samplesOf rt true (regsOf w0.vm) (ops₁ ++ Op.stop :: Op.start fd' ok' :: ops₂) =
        samplesOf rt true (regsOf w0.vm) ops₁ ++
          samplesOf rt true (ops₁.foldl regsAfter (regsOf w0.vm)) ops₂ := by
      simp [samplesOf_append, samplesOf, sampleAt, runningAfter, regsAfter]
    have hrun : (ops₁ ++ Op.stop :: Op.start fd' ok' :: ops₂).foldl runningAfter true = true := by
      simp [List.foldl_append, runningAfter, hr2]
    rw [hcalls, hsamples, hrun] at hinv2
    have hstop2 : (Scm_ProfilerStop
          (run rt w0 (Op.start fd ok :: (ops₁ ++ Op.stop :: Op.start fd' ok' :: ops₂)))).1 =
        (samplesOf rt true (regsOf w0.vm) ops₁).length +
          (samplesOf rt true (ops₁.foldl regsAfter (regsOf w0.vm)) ops₂).length := by
      rw [Stop_session rt _ _ _ hinv2, List.length_append]
    refine ⟨Stop_session rt _ _ _ hinv1, hstop2, ?_, ?_⟩
    · rw [hstop2]; exact cint_of_le _ hbs
    · -- the world after the last stop is still in the session
      have hinv3 := (SessInv_step rt hC hS _ true _ _ Op.stop hinv2 rfl).1
      simp only [step, runningAfter, callAt, sampleAt, List.append_nil] at hinv3
      refine ⟨_, (RawResult_session rt hS env hseek hread htrunc _ _ _ _ hinv3).1, ?_⟩
      intro f
      obtain ⟨hc, hsc⟩ := counts_aggregate rt (callsOf ops₁ ++ callsOf ops₂)
        (samplesOf rt true (regsOf w0.vm) ops₁ ++
          samplesOf rt true (ops₁.foldl regsAfter (regsOf w0.vm)) ops₂) f
      have hcle : (callsOf ops₁ ++ callsOf ops₂).count f ≤ INT_MAX :=
        le_trans (List.count_le_length f _) (by rw [List.length_append]; exact hbc)
      have hsle : ((samplesOf rt true (regsOf w0.vm) ops₁ ++
          samplesOf rt true (ops₁.foldl regsAfter (regsOf w0.vm)) ops₂).map
            (fun s => s.func)).count f ≤ INT_MAX :=
        le_trans (List.count_le_length f _)
          (by rw [List.length_map, List.length_append]; exact hbs)
      refine ⟨?_, ?_, ?_, ?_⟩
      · rw [hc]; simp [List.count_append]
      · rw [hsc]; simp [List.count_append]
      · rw [hc]
        by_cases hm : f ∈ callsOf ops₁ ++ callsOf ops₂
        · simp only [hm, if_true, Option.map_some']
          rw [cint_of_le _ hcle]
        · simp only [hm, if_false, Option.map_none']
      · rw [hsc]
        by_cases hm : f ∈ callsOf ops₁ ++ callsOf ops₂
        · simp only [hm, if_true, Option.map_some']
          rw [cint_of_le _ hsle]
        · simp only [hm, if_false, Option.map_none']


/-- Instance of C5: the resume of the paused profiler `pausedWorld` (which
holds a pending call record, a buffered sample, two spilled samples and a
table entry), the start of the running one, and the two runs `exRun1` and
`exRun2`: the stops return 1 and 1 + 3, and the collected table counts 1 + 1
calls and 1 + 3 samples for the function at address 8. -/
theorem Scm_ProfilerStart_resume_witness :
    ((Scm_ProfilerStart exRuntime 9 true pausedWorld).2.vm =
        { pausedWorld.vm with
            prof := some { pausedProfiler with state := SCM_PROFILER_RUNNING },
            profilerRunning := true } ∧
      (Scm_ProfilerStart exRuntime 9 true pausedWorld).2.spill = pausedWorld.spill ∧
      (Scm_ProfilerStart exRuntime 9 true pausedWorld).2.warnings = pausedWorld.warnings) ∧
    Scm_ProfilerStart exRuntime 9 true runningWorld = (none, runningWorld) ∧
    (Scm_ProfilerRawResult exRuntime okEnv
        (Scm_ProfilerStop
          (run exRuntime boot
            (Op.start 3 true :: (exRun1 ++ Op.stop :: Op.start 4 true :: exRun2)))).2).1 =
      ScmResult.statHash [⟨ScmObj.ptr 8, 2, 4⟩, ⟨ScmObj.ptr 16, 1, 0⟩] ∧
    ((Scm_ProfilerStop (run exRuntime boot (Op.start 3 true :: exRun1))).1 =
        (samplesOf exRuntime true (regsOf boot.vm) exRun1).length ∧
      (Scm_ProfilerStop
          (run exRuntime boot
            (Op.start 3 true :: (exRun1 ++ Op.stop :: Op.start 4 true :: exRun2)))).1 =
        (samplesOf exRuntime true (regsOf boot.vm) exRun1).length +
          (samplesOf exRuntime true (exRun1.foldl regsAfter (regsOf boot.vm)) exRun2).length ∧
      cint (Scm_ProfilerStop
          (run exRuntime boot
            (Op.start 3 true :: (exRun1 ++ Op.stop :: Op.start 4 true :: exRun2)))).1 =
        (((samplesOf exRuntime true (regsOf boot.vm) exRun1).length +
          (samplesOf exRuntime true (exRun1.foldl regsAfter (regsOf boot.vm)) exRun2).length :
            Nat) : Int) ∧
      ∃ t, (Scm_ProfilerRawResult exRuntime okEnv
          (Scm_ProfilerStop
            (run exRuntime boot
              (Op.start 3 true :: (exRun1 ++ Op.stop :: Op.start 4 true :: exRun2)))).2).1 =
          ScmResult.statHash t ∧
        ∀ f,
          callCount t f =
            (if f ∈ callsOf exRun1 ++ callsOf exRun2 then
              some ((callsOf exRun1).count f + (callsOf exRun2).count f)
             else none) ∧
          sampleCount t f =
            (if f ∈ callsOf exRun1 ++ callsOf exRun2 then
              some (((samplesOf exRuntime true (regsOf boot.vm) exRun1).map
                  (fun s => s.func)).count f +
                ((samplesOf exRuntime true (exRun1.foldl regsAfter (regsOf boot.vm)) exRun2).map
                  (fun s => s.func)).count f)
             else none) ∧
          (callCount t f).map cint = (callCount t f).map (fun (n : Nat) => (n : Int)) ∧
          (sampleCount t f).map cint = (sampleCount t f).map (fun (n : Nat) => (n : Int))) :=
  ⟨((Scm_ProfilerStart_resume exRuntime).1 9 true pausedWorld pausedProfiler
      pausedWorld_lifecycleInv rfl).1 rfl,
   ((Scm_ProfilerStart_resume exRuntime).1 9 true runningWorld
      { pausedProfiler with state := SCM_PROFILER_RUNNING } runningWorld_lifecycleInv rfl).2 rfl,
   by decide,
   (Scm_ProfilerStart_resume exRuntime).2 3 4 true true boot exRun1 exRun2 okEnv
      (by decide) (by decide) rfl (by decide) (by decide) rfl rfl rfl (by decide) (by decide)⟩

/-- C5 as stated fails when a `read` of the collection or a spill write of a
run fails.  In Start, `exRun1`, Stop, Start, `exRun2`, Stop the two runs
record 1 + 3 samples of the function at address 8 and the second Stop
returns 4; a collection whose first read fails returns the table with sample
count 2 for that function: the two spilled samples are not counted.  With the
run `exRun2Fail`, whose spill write fails, a collection on which everything
succeeds returns sample count 2 as well: the two buffered samples were
lost. -/
theorem resume_counts_lost :
    (Scm_ProfilerStop
        (run exRuntime boot
          (Op.start 3 true :: (exRun1 ++ Op.stop :: Op.start 4 true :: exRun2)))).1 = 4 ∧
    (((samplesOf exRuntime true (regsOf boot.vm) exRun1).map (fun s => s.func)).count
        (ScmObj.ptr 8) +
      ((samplesOf exRuntime true (exRun1.foldl regsAfter (regsOf boot.vm)) exRun2).map
        (fun s => s.func)).count (ScmObj.ptr 8)) = 4 ∧
    (Scm_ProfilerRawResult exRuntime readFailEnv
        (Scm_ProfilerStop
          (run exRuntime boot
            (Op.start 3 true :: (exRun1 ++ Op.stop :: Op.start 4 true :: exRun2)))).2).1 =
      ScmResult.statHash [⟨ScmObj.ptr 8, 2, 2⟩, ⟨ScmObj.ptr 16, 1, 0⟩] ∧
    (Scm_ProfilerStop
        (run exRuntime boot
          (Op.start 3 true :: (exRun1 ++ Op.stop :: Op.start 4 true :: exRun2Fail)))).1 = 4 ∧
    (Scm_ProfilerRawResult exRuntime okEnv
        (Scm_ProfilerStop
          (run exRuntime boot
            (Op.start 3 true :: (exRun1 ++ Op.stop :: Op.start 4 true :: exRun2Fail)))).2).1 =
      ScmResult.statHash [⟨ScmObj.ptr 8, 2, 2⟩, ⟨ScmObj.ptr 16, 1, 0⟩] := by
  decide


/-! ## The sampler tick -/

/-- The tick of a RUNNING profiler, case by case: the buffer is full and
cannot be flushed (descriptor closed), the buffer is full and the write fails,
the buffer is full and the write succeeds, the buffer is not full. -/
theorem sampler_sample_eq (rt : Runtime) (ok : Bool) (w : World) (p : ScmVMProfiler)
    (hp : w.vm.prof = some p) (hs : p.state = SCM_PROFILER_RUNNING) :
    sampler_sample rt ok w =
      if rt.SCM_PROF_SAMPLES_IN_BUFFER ≤ p.currentSample then
        if p.samplerFd < 0 ∨ p.currentSample = 0 then
          ({ w with itimer := true } : World).setProf
            { p with currentSample := p.currentSample + 1,
                     samples := p.samples.set p.currentSample (currentSampleOf rt w.vm),
                     totalSamples := p.totalSamples + 1 }
        else
          match sys_write p.samplerFd w.spill (p.samples.take p.currentSample) ok with
          | none =>
            ({ w with itimer := true } : World).setProf
              { p with errorOccurred := p.errorOccurred + 1, currentSample := 1,
                       samples := p.samples.set 0 (currentSampleOf rt w.vm),
                       totalSamples := p.totalSamples + 1 }
          | some f =>
            ({ w with spill := some f, itimer := true } : World).setProf
              { p with currentSample := 1,
                       samples := p.samples.set 0 (currentSampleOf rt w.vm),
                       totalSamples := p.totalSamples + 1 }
      else
        w.setProf
          { p with currentSample := p.currentSample + 1,
                   samples := p.samples.set p.currentSample (currentSampleOf rt w.vm),
                   totalSamples := p.totalSamples + 1 } := by
  by_cases hfull : rt.SCM_PROF_SAMPLES_IN_BUFFER ≤ p.currentSample
  · by_cases hno : p.samplerFd < 0 ∨ p.currentSample = 0
    · simp only [sampler_sample, hp, hs, ne_eq, not_true_eq_false, if_false, hfull, if_true,
        sampler_flush, hno]
    · simp only [sampler_sample, hp, hs, ne_eq, not_true_eq_false, if_false, hfull, if_true,
        sampler_flush, hno]
      cases sys_write p.samplerFd w.spill (List.take p.currentSample p.samples) ok <;>
        simp [World.setProf, currentSampleOf]
  · simp only [sampler_sample, hp, hs, ne_eq, not_true_eq_false, if_false, hfull]

/-- The index at which the tick of a RUNNING profiler stores its sample. -/
theorem sampleIndex_eq (rt : Runtime) (ok : Bool) (w : World) (p : ScmVMProfiler)
    (hp : w.vm.prof = some p) (hs : p.state = SCM_PROFILER_RUNNING) :
    sampleIndex rt ok w =
      some (if rt.SCM_PROF_SAMPLES_IN_BUFFER ≤ p.currentSample ∧
            ¬ (p.samplerFd < 0 ∨ p.currentSample = 0) then 0 else p.currentSample) := by
  by_cases hfull : rt.SCM_PROF_SAMPLES_IN_BUFFER ≤ p.currentSample
  · by_cases hno : p.samplerFd < 0 ∨ p.currentSample = 0
    · simp only [sampleIndex, hp, hs, ne_eq, not_true_eq_false, if_false, hfull, if_true,
        sampler_flush, hno]
      simp [hp]
    · simp only [sampleIndex, hp, hs, ne_eq, not_true_eq_false, if_false, hfull, if_true,
        sampler_flush, hno]
      cases sys_write p.samplerFd w.spill (List.take p.currentSample p.samples) ok <;>
        simp [World.setProf, hno]
  · simp [sampleIndex, hp, hs, hfull]

/-- C16. The signal path never touches the aggregation state.  When the
profiler does not exist or is not RUNNING, a tick of `sampler_sample` leaves
the whole world unchanged.  In every world that satisfies the invariants of
the reachable worlds (the lifecycle invariant, `reachable_lifecycleInv`, and
the bound on the sample buffer of capacity at least 1,
`reachable_invariants`), and whether or not a spill write fails, a tick
stores its sample at an index inside the array `samples`, and it leaves the
table, the count buffer, `currentCount` and the lifecycle state as they
are. -/
theorem sampler_sample_frame (rt : Runtime) (writeOk : Bool) (w : World) :
    ((w.vm.prof = none ∨ ∃ p, w.vm.prof = some p ∧ p.state ≠ SCM_PROFILER_RUNNING) →
      sampler_sample rt writeOk w = w) ∧
    (∀ p, w.vm.prof = some p →
      1 ≤ rt.SCM_PROF_SAMPLES_IN_BUFFER → LifecycleInv w → BufInv rt w →
      (∀ i, sampleIndex rt writeOk w = some i →
        i < rt.SCM_PROF_SAMPLES_IN_BUFFER ∧ i < p.samples.length) ∧
      ∃ q, (sampler_sample rt writeOk w).vm.prof = some q ∧
        q.statHash = p.statHash ∧ q.counts = p.counts ∧
        q.currentCount = p.currentCount ∧ q.state = p.state) := by
  constructor
  · rintro (h | ⟨p, hp, hs⟩)
    · simp [sampler_sample, h]
    · simp [sampler_sample, hp, hs]
  · intro p hp hS hl hb
    obtain ⟨hlen, hle⟩ := hb p hp
    constructor
    · intro i hi
      by_cases hs : p.state = SCM_PROFILER_RUNNING
      · have hfd : 0 ≤ p.samplerFd := (hl p hp).2 (by simp [hs])
        rw [sampleIndex_eq rt writeOk w p hp hs] at hi
        by_cases hfull : rt.SCM_PROF_SAMPLES_IN_BUFFER ≤ p.currentSample
        · have hno : ¬ (p.samplerFd < 0 ∨ p.currentSample = 0) := by omega
          simp only [hfull, hno, not_false_eq_true, and_self, if_true, Option.some.injEq] at hi
          subst hi
          exact ⟨hS, by omega⟩
        · simp only [hfull, false_and, if_false, Option.some.injEq] at hi
          subst hi
          exact ⟨by omega, by omega⟩
      · simp [sampleIndex, hp, hs] at hi
    · by_cases hs : p.state = SCM_PROFILER_RUNNING
      · rw [sampler_sample_eq rt writeOk w p hp hs]
        split_ifs
        · exact ⟨_, rfl, rfl, rfl, rfl, rfl⟩
        · cases sys_write p.samplerFd w.spill (List.take p.currentSample p.samples) writeOk <;>
            exact ⟨_, rfl, rfl, rfl, rfl, rfl⟩
        · exact ⟨_, rfl, rfl, rfl, rfl, rfl⟩
      · exact ⟨p, by simp [sampler_sample, hp, hs], rfl, rfl, rfl, rfl⟩


/-! ## collect_samples -/

theorem modifyEntry_keys (f : ScmHashEntry → ScmHashEntry) (hf : ∀ e, (f e).key = e.key)
    (t : StatTable) (k : ScmObj) :
    (modifyEntry f t k).map (fun e => e.key) = t.map (fun e => e.key) := by
  induction t with
  | nil => rfl
  | cons e t ih =>
    by_cases hk : e.key = k
    · simp [modifyEntry, hk, hf]
    · simp only [modifyEntry, hk, if_false, List.map_cons, ih]

theorem foldl_collectKey_keys (l : List ScmProfSample) (t : StatTable) :
    (l.foldl collectKey t).map (fun e => e.key) = t.map (fun e => e.key) := by
  induction l generalizing t with
  | nil => rfl
  | cons s l ih =>
    rw [List.foldl_cons, ih, collectKey,
      modifyEntry_keys (fun e => { e with cdr := e.cdr + 1 }) (fun e => rfl)]

/-- C17. The function `collect_samples`, per key: for every profiler record
(every table and every buffer content), after `collect_samples` the keys of
the table are the same (no entry is created), every call count is unchanged,
and the sample count of every key `f` has grown by the number of samples
among `samples[0 .. currentSample)` whose function is `f`; every sample whose
function has no entry yields one diagnostic, in buffer order, and the samples
after it are processed all the same; nothing but the table changes in the
record. -/
theorem collect_samples_per_key (prof : ScmVMProfiler) (log : List Diag) :
    (collect_samples prof log).1.statHash.map (fun e => e.key) =
        prof.statHash.map (fun e => e.key) ∧
    (∀ f, callCount (collect_samples prof log).1.statHash f = callCount prof.statHash f) ∧
    (∀ f, sampleCount (collect_samples prof log).1.statHash f =
      (sampleCount prof.statHash f).map
        (fun n => n + ((prof.samples.take prof.currentSample).map (fun s => s.func)).count f)) ∧
    (collect_samples prof log).2 =
      log ++ (droppedSamples prof.statHash (prof.samples.take prof.currentSample)).map
        uncountedDiag ∧
    (collect_samples prof log).1 =
      { prof with statHash := (collect_samples prof log).1.statHash } := by
  refine ⟨?_, ?_, ?_, ?_, rfl⟩
  · simp only [collect_samples, foldl_collectOne_fst, foldl_collectKey_keys]
  · intro f
    simp only [collect_samples, foldl_collectOne_fst, callCount_foldl_collectKey]
  · intro f
    simp only [collect_samples, foldl_collectOne_fst, sampleCount_foldl_collectKey]
  · simp only [collect_samples, foldl_collectOne_snd]


/-! ## The shape of a result collection -/

theorem warnInaccurate_shape (w : World) (p : ScmVMProfiler) (hp : w.vm.prof = some p) :
    warnInaccurate w =
      { w with warnings :=
          w.warnings ++ (if 0 < p.errorOccurred then [Diag.inaccurate] else []) } := by
  by_cases he : 0 < p.errorOccurred
  · simp [warnInaccurate, hp, he]
  · simp [warnInaccurate, hp, he]

/-- The first half of a result collection (warning, call-count flush,
collection of the buffered samples) changes the diagnostics, the table and
`currentCount`, and nothing else. -/
theorem prePhase_eq (rt : Runtime) (w : World) (p : ScmVMProfiler) (hp : w.vm.prof = some p) :
    collectWorld (Scm_ProfilerCountBufferFlush rt (warnInaccurate w)) =
      ({ w with warnings :=
          (w.warnings ++ (if 0 < p.errorOccurred then [Diag.inaccurate] else [])) ++
            (droppedSamples ((p.counts.take p.currentCount).foldl (countOne rt) p.statHash)
              (p.samples.take p.currentSample)).map uncountedDiag } : World).setProf
        { p with statHash := (p.samples.take p.currentSample).foldl collectKey
                    ((p.counts.take p.currentCount).foldl (countOne rt) p.statHash),
                 currentCount := 0 } := by
  rw [warnInaccurate_shape w p hp, countBufferFlush_eq rt _ p (by simpa using hp),
    collectWorld_eq _ _ rfl]
  simp only [World.setProf, foldl_collectOne_fst, foldl_collectOne_snd]

/-- Nothing is read when no record lies beyond the offset. -/
theorem readLoop_nothing (rt : Runtime) (rf : Option Nat) (fuel k : Nat) (w : World)
    (f : SpillFile) (hf : w.spill = some f) (hnil : f.data.drop f.offset = []) :
    readLoop rt rf fuel k w = w := by
  cases fuel with
  | zero => rfl
  | succ fuel =>
    cases hp : w.vm.prof with
    | none => simp [readLoop, hp]
    | some p =>
      simp only [readLoop, hp, hf, hnil, List.take_nil, List.length_nil, if_true]
      split_ifs <;> rfl

theorem world_self (w : World) (p : ScmVMProfiler) (f : SpillFile)
    (hp : w.vm.prof = some p) (hf : w.spill = some f) :
    w = ({ w with spill := some { f with offset := f.offset },
                  warnings := w.warnings ++ List.map uncountedDiag [] } : World).setProf
          { p with statHash := p.statHash, samples := p.samples,
                   currentSample := p.currentSample } := by
  cases w with
  | mk vm sp it hd wa =>
    cases vm with
    | mk prof r b pc v =>
      cases f
      simp_all [World.setProf]

/-- The read-back loop changes the file offset, the diagnostics, the table,
the sample buffer and its index, and nothing else; it emits "uncounted
object" diagnostics only and keeps the sample buffer well formed. -/
theorem readLoop_frame (rt : Runtime) (rf : Option Nat) (fuel k : Nat) (w : World)
    (p : ScmVMProfiler) (f : SpillFile) (hp : w.vm.prof = some p) (hf : w.spill = some f) :
    ∃ (t : StatTable) (sm : List ScmProfSample) (n off : Nat) (ds : List ScmProfSample),
      readLoop rt rf fuel k w =
        ({ w with spill := some { f with offset := off },
                  warnings := w.warnings ++ ds.map uncountedDiag } : World).setProf
          { p with statHash := t, samples := sm, currentSample := n } ∧
      (p.samples.length = rt.SCM_PROF_SAMPLES_IN_BUFFER →
        sm.length = rt.SCM_PROF_SAMPLES_IN_BUFFER) ∧
      (p.currentSample ≤ rt.SCM_PROF_SAMPLES_IN_BUFFER →
        n ≤ rt.SCM_PROF_SAMPLES_IN_BUFFER) := by
  induction fuel generalizing k w p f with
  | zero => exact ⟨p.statHash, p.samples, p.currentSample, f.offset, [], world_self w p f hp hf, id, id⟩
  | succ fuel ih =>
    by_cases hstop : rf = some k ∨ p.samplerFd < 0
    · refine ⟨p.statHash, p.samples, p.currentSample, f.offset, [], ?_, id, id⟩
      have : readLoop rt rf (fuel + 1) k w = w := by
        simp only [readLoop, hp, hf, hstop, if_true]
      rw [this]; exact world_self w p f hp hf
    · by_cases hend : ((f.data.drop f.offset).take rt.SCM_PROF_SAMPLES_IN_BUFFER).length = 0
      · refine ⟨p.statHash, p.samples, p.currentSample, f.offset, [], ?_, id, id⟩
        have : readLoop rt rf (fuel + 1) k w = w := by
          simp only [readLoop, hp, hf, hstop, if_false, hend, if_true]
        rw [this]; exact world_self w p f hp hf
      · set chunk := (f.data.drop f.offset).take rt.SCM_PROF_SAMPLES_IN_BUFFER with hchunk
        have hcl : chunk.length ≤ rt.SCM_PROF_SAMPLES_IN_BUFFER := by
          rw [hchunk, List.length_take]; exact Nat.min_le_left _ _
        have htake : (chunk ++ p.samples.drop chunk.length).take chunk.length = chunk := by
          simp
        obtain ⟨t, sm, n, off, ds, heq, hlen, hidx⟩ := ih (k + 1)
          (collectWorld (({ w with spill := some { f with offset := f.offset + chunk.length } } :
              World).setProf
            { p with samples := chunk ++ p.samples.drop chunk.length,
                     currentSample := chunk.length }))
          { p with samples := chunk ++ p.samples.drop chunk.length, currentSample := chunk.length,
                   statHash := (chunk.foldl collectOne (p.statHash, w.warnings)).1 }
          { f with offset := f.offset + chunk.length }
          (by rw [collectWorld_eq _ _ rfl]; simp [World.setProf, htake])
          (by rw [collectWorld_eq _ _ rfl]; rfl)
        refine ⟨t, sm, n, off, droppedSamples p.statHash chunk ++ ds, ?_, ?_, ?_⟩
        · simp only [readLoop, hp, hf, hstop, if_false, ← hchunk, hend]
          rw [heq, collectWorld_eq _ _ rfl]
          simp only [World.setProf, htake, foldl_collectOne_snd, List.map_append,
            List.append_assoc]
        · intro h
          apply hlen
          show (chunk ++ p.samples.drop chunk.length).length = _
          rw [List.length_append, List.length_drop]; omega
        · intro _
          exact hidx hcl


theorem sys_lseek0_some (fd : Int) (spill : Option SpillFile) (ok : Bool)
    (h : sys_lseek0 fd spill ok ≠ none) :
    ∃ f, spill = some f ∧ 0 ≤ fd ∧ ok = true ∧
      sys_lseek0 fd spill ok = some { f with offset := 0 } := by
  cases spill with
  | none => simp [sys_lseek0] at h
  | some f =>
    by_cases hc : fd < 0 ∨ ok = false
    · simp [sys_lseek0, hc] at h
    · have h1 : 0 ≤ fd := by
        by_contra hlt
        exact hc (Or.inl (by omega))
      have h2 : ok = true := by
        cases ok
        · exact absurd (Or.inr rfl) hc
        · rfl
      exact ⟨f, rfl, h1, h2, by simp [sys_lseek0, hc]⟩

/-- The second half of a result collection after a successful seek, whatever
the reads do: the file is emptied if the truncate succeeds, `currentSample`
is reset, the table is returned unless the truncate fails; only "uncounted
object" diagnostics are emitted; and with an empty file nothing is
aggregated. -/
theorem readBack_seek_ok (rt : Runtime) (env : ResultEnv) (w : World) (p : ScmVMProfiler)
    (f : SpillFile) (hp : w.vm.prof = some p) (hf : w.spill = some f)
    (hfd : 0 ≤ p.samplerFd) (hseek : env.seekOk = true) :
    ∃ (t : StatTable) (sm : List ScmProfSample) (off : Nat) (ds : List ScmProfSample),
      readBack rt env w =
        ((if env.truncOk = true then ScmResult.statHash t
          else ScmResult.raised ScmError.truncateFailed),
         ({ w with spill := some ⟨(if env.truncOk = true then [] else f.data), off⟩,
                   warnings := w.warnings ++ ds.map uncountedDiag } : World).setProf
            { p with statHash := t, samples := sm, currentSample := 0 }) ∧
      (p.samples.length = rt.SCM_PROF_SAMPLES_IN_BUFFER →
        sm.length = rt.SCM_PROF_SAMPLES_IN_BUFFER) ∧
      (f.data = [] → t = p.statHash ∧ sm = p.samples ∧ off = 0 ∧ ds = []) := by
  have hfd' : ¬ p.samplerFd < 0 := by omega
  have hshape : ∃ (t : StatTable) (sm : List ScmProfSample) (n off : Nat)
      (ds : List ScmProfSample),
      readLoop rt env.readFailAt (f.data.length + 1) 0
          ({ w with spill := some { f with offset := 0 } } : World) =
        ({ w with spill := some { f with offset := off },
                  warnings := w.warnings ++ ds.map uncountedDiag } : World).setProf
          { p with statHash := t, samples := sm, currentSample := n } ∧
      (p.samples.length = rt.SCM_PROF_SAMPLES_IN_BUFFER →
        sm.length = rt.SCM_PROF_SAMPLES_IN_BUFFER) ∧
      (f.data = [] → t = p.statHash ∧ sm = p.samples ∧ off = 0 ∧ ds = []) := by
    by_cases hnil : f.data = []
    · refine ⟨p.statHash, p.samples, p.currentSample, 0, [], ?_, id, fun _ => ⟨rfl, rfl, rfl, rfl⟩⟩
      rw [readLoop_nothing rt _ _ _ _ { f with offset := 0 } rfl (by simp [hnil])]
      cases w with
      | mk vm sp it hd wa =>
        cases vm with
        | mk prof r b pc v =>
          simp_all [World.setProf]
    · obtain ⟨t, sm, n, off, ds, heq, hlen, _⟩ := readLoop_frame rt env.readFailAt
        (f.data.length + 1) 0 ({ w with spill := some { f with offset := 0 } } : World) p
        { f with offset := 0 } hp rfl
      exact ⟨t, sm, n, off, ds, heq, hlen, fun h => absurd h hnil⟩
  obtain ⟨t, sm, n, off, ds, heq, hlen, hempty⟩ := hshape
  refine ⟨t, sm, off, ds, ?_, hlen, hempty⟩
  simp only [readBack, hp, hf, sys_lseek0, hfd', hseek, Bool.true_eq_false, or_false, if_false]
  rw [heq]
  by_cases ht : env.truncOk = true
  · simp [World.setProf, sys_ftruncate0, hfd', ht]
  · simp [World.setProf, sys_ftruncate0, hfd', ht]

theorem RawResult_active_eq (rt : Runtime) (env : ResultEnv) (w : World) (p : ScmVMProfiler)
    (hp : w.vm.prof = some p) (hs : p.state ≠ SCM_PROFILER_INACTIVE) :
    Scm_ProfilerRawResult rt env w =
      readBack rt env (collectWorld (Scm_ProfilerCountBufferFlush rt (warnInaccurate
        (if p.state = SCM_PROFILER_RUNNING then (Scm_ProfilerStop w).2 else w)))) := by
  simp only [Scm_ProfilerRawResult, hp, hs, if_false]

/-- The world on which a result collection works after its implicit stop. -/
theorem stopIf_facts (w : World) (p : ScmVMProfiler) (hp : w.vm.prof = some p)
    (hs : p.state ≠ SCM_PROFILER_INACTIVE) :
    ∃ w1 : World, w1 = (if p.state = SCM_PROFILER_RUNNING then (Scm_ProfilerStop w).2 else w) ∧
      w1.vm.prof = some { p with state := SCM_PROFILER_PAUSING } ∧
      w1.spill = w.spill ∧ w1.warnings = w.warnings ∧
      Scm_ProfilerReset w1 = Scm_ProfilerReset w ∧
      (p.state = SCM_PROFILER_RUNNING → w1.vm.profilerRunning = false ∧ w1.itimer = false) := by
  refine ⟨_, rfl, ?_⟩
  by_cases hr : p.state = SCM_PROFILER_RUNNING
  · simp [hr, Scm_ProfilerStop, hp, Scm_ProfilerReset, World.setProf]
  · have hpz : p.state = SCM_PROFILER_PAUSING := by
      cases hst : p.state <;> simp_all
    have hpe : ({ p with state := SCM_PROFILER_PAUSING } : ScmVMProfiler) = p := by
      cases p; simp_all
    simp [hr, hp, hpe]


/-! ## Postconditions of a result collection -/

/-- C11. Result postcondition: for every world whose profiler is RUNNING or
PAUSING, if the seek on the profiler's descriptor and the truncate succeed
(whatever the reads do), then after `Scm_ProfilerRawResult` the state is
PAUSING (a RUNNING profiler has been stopped: flag cleared, timer disarmed),
`currentCount` and `currentSample` are 0, the spill file is empty, and the
value returned is the table `statHash` of the profiler. -/
theorem Scm_ProfilerRawResult_post (rt : Runtime) (env : ResultEnv) (w : World)
    (p : ScmVMProfiler) (hp : w.vm.prof = some p)
    (hs : p.state = SCM_PROFILER_RUNNING ∨ p.state = SCM_PROFILER_PAUSING)
    (hseek : sys_lseek0 p.samplerFd w.spill env.seekOk ≠ none)
    (htrunc : env.truncOk = true) :
    ∃ q f, (Scm_ProfilerRawResult rt env w).2.vm.prof = some q ∧
      q.state = SCM_PROFILER_PAUSING ∧
      q.currentCount = 0 ∧ q.currentSample = 0 ∧
      (Scm_ProfilerRawResult rt env w).2.spill = some f ∧ f.data = [] ∧
      (Scm_ProfilerRawResult rt env w).1 = ScmResult.statHash q.statHash ∧
      (p.state = SCM_PROFILER_RUNNING →
        (Scm_ProfilerRawResult rt env w).2.vm.profilerRunning = false ∧
        (Scm_ProfilerRawResult rt env w).2.itimer = false) := by
  have hact : p.state ≠ SCM_PROFILER_INACTIVE := by rcases hs with h | h <;> simp [h]
  obtain ⟨f, hf, hfd, hok, _⟩ := sys_lseek0_some _ _ _ hseek
  obtain ⟨w1, hw1, hp1, hf1, hwa1, _, hrun⟩ := stopIf_facts w p hp hact
  rw [RawResult_active_eq rt env w p hp hact, ← hw1, prePhase_eq rt w1 _ hp1]
  obtain ⟨t, sm, off, ds, heq, _, _⟩ := readBack_seek_ok rt env
    (({ w1 with warnings :=
          (w1.warnings ++ (if 0 < p.errorOccurred then [Diag.inaccurate] else [])) ++
            (droppedSamples ((p.counts.take p.currentCount).foldl (countOne rt) p.statHash)
              (p.samples.take p.currentSample)).map uncountedDiag } : World).setProf
        { p with state := SCM_PROFILER_PAUSING,
                 statHash := (p.samples.take p.currentSample).foldl collectKey
                    ((p.counts.take p.currentCount).foldl (countOne rt) p.statHash),
                 currentCount := 0 })
    _ f rfl (by simpa [World.setProf] using hf1.trans hf) hfd hok
  rw [heq]
  refine ⟨_, _, rfl, rfl, rfl, rfl, rfl, by simp [htrunc], by simp [htrunc], ?_⟩
  intro hr
  simpa [World.setProf] using hrun hr

/-- Instance of C11 at the running profiler `runningWorld`, which holds a
pending call record, a buffered sample and two spilled samples. -/
theorem Scm_ProfilerRawResult_post_witness :
    ∃ q f, (Scm_ProfilerRawResult exRuntime okEnv runningWorld).2.vm.prof = some q ∧
      q.state = SCM_PROFILER_PAUSING ∧
      q.currentCount = 0 ∧ q.currentSample = 0 ∧
      (Scm_ProfilerRawResult exRuntime okEnv runningWorld).2.spill = some f ∧ f.data = [] ∧
      (Scm_ProfilerRawResult exRuntime okEnv runningWorld).1 = ScmResult.statHash q.statHash ∧
      (SCM_PROFILER_RUNNING = SCM_PROFILER_RUNNING →
        (Scm_ProfilerRawResult exRuntime okEnv runningWorld).2.vm.profilerRunning = false ∧
        (Scm_ProfilerRawResult exRuntime okEnv runningWorld).2.itimer = false) :=
  Scm_ProfilerRawResult_post exRuntime okEnv runningWorld
    { pausedProfiler with state := SCM_PROFILER_RUNNING } rfl (Or.inl rfl) (by decide) rfl

/-- The reset of a world does not depend on its table, its `currentCount`
and its diagnostics, which it carries over. -/
theorem Reset_prePhase (w : World) (p : ScmVMProfiler) (hp : w.vm.prof = some p)
    (hs : p.state ≠ SCM_PROFILER_INACTIVE) (L : List Diag) (T : StatTable) :
    Scm_ProfilerReset (({ w with warnings := L } : World).setProf
        { p with statHash := T, currentCount := 0 }) =
      { Scm_ProfilerReset w with warnings := L } := by
  by_cases hr : p.state = SCM_PROFILER_RUNNING
  · simp [Scm_ProfilerReset, hp, hr, Scm_ProfilerStop, World.setProf]
  · simp [Scm_ProfilerReset, hp, hr, hs, World.setProf]

theorem readBack_seek_fail (rt : Runtime) (env : ResultEnv) (w : World) (p : ScmVMProfiler)
    (hp : w.vm.prof = some p) (hseek : sys_lseek0 p.samplerFd w.spill env.seekOk = none) :
    readBack rt env w = (ScmResult.raised ScmError.seekFailed, Scm_ProfilerReset w) := by
  simp only [readBack, hp, hseek]

/-- A result collection whose seek fails raises the error and leaves the
world that `Scm_ProfilerReset` produces, with the diagnostics emitted before
the seek. -/
theorem RawResult_seek_fail_eq (rt : Runtime) (env : ResultEnv) (w : World)
    (p : ScmVMProfiler) (hp : w.vm.prof = some p) (hact : p.state ≠ SCM_PROFILER_INACTIVE)
    (hseek : sys_lseek0 p.samplerFd w.spill env.seekOk = none) :
    Scm_ProfilerRawResult rt env w =
      (ScmResult.raised ScmError.seekFailed,
       { Scm_ProfilerReset w with warnings :=
          (w.warnings ++ (if 0 < p.errorOccurred then [Diag.inaccurate] else [])) ++
            (droppedSamples ((p.counts.take p.currentCount).foldl (countOne rt) p.statHash)
              (p.samples.take p.currentSample)).map uncountedDiag }) := by
  obtain ⟨w1, hw1, hp1, hf1, hwa1, hreset, _⟩ := stopIf_facts w p hp hact
  rw [RawResult_active_eq rt env w p hp hact, ← hw1, prePhase_eq rt w1 _ hp1]
  have hseek' : sys_lseek0 p.samplerFd w1.spill env.seekOk = none := by rw [hf1]; exact hseek
  rw [readBack_seek_fail rt env _ _ rfl (by simpa [World.setProf] using hseek'),
    Reset_prePhase w1 _ hp1 (by simp), hreset, hwa1]

/-- A result collection whose seek succeeds, whatever the reads do: the
profiler is PAUSING with both indices at 0, the file is emptied if the
truncate succeeds, the table is returned unless the truncate fails, and the
diagnostics emitted are the warning of a failed write, if any, followed by
"uncounted object" diagnostics. -/
theorem RawResult_seek_ok_shape (rt : Runtime) (env : ResultEnv) (w : World)
    (p : ScmVMProfiler) (hp : w.vm.prof = some p) (hact : p.state ≠ SCM_PROFILER_INACTIVE)
    (hseek : sys_lseek0 p.samplerFd w.spill env.seekOk ≠ none) :
    ∃ (t : StatTable) (sm : List ScmProfSample) (off : Nat) (ds : List ScmProfSample)
      (f : SpillFile),
      w.spill = some f ∧ 0 ≤ p.samplerFd ∧
      (Scm_ProfilerRawResult rt env w).1 =
        (if env.truncOk = true then ScmResult.statHash t
         else ScmResult.raised ScmError.truncateFailed) ∧
      (Scm_ProfilerRawResult rt env w).2.vm.prof =
        some { p with state := SCM_PROFILER_PAUSING, statHash := t, currentCount := 0,
                      samples := sm, currentSample := 0 } ∧
      (Scm_ProfilerRawResult rt env w).2.spill =
        some ⟨(if env.truncOk = true then [] else f.data), off⟩ ∧
      (Scm_ProfilerRawResult rt env w).2.warnings =
        (w.warnings ++ (if 0 < p.errorOccurred then [Diag.inaccurate] else [])) ++
          ds.map uncountedDiag ∧
      (p.samples.length = rt.SCM_PROF_SAMPLES_IN_BUFFER →
        sm.length = rt.SCM_PROF_SAMPLES_IN_BUFFER) := by
  obtain ⟨f, hf, hfd, hok, _⟩ := sys_lseek0_some _ _ _ hseek
  obtain ⟨w1, hw1, hp1, hf1, hwa1, _, _⟩ := stopIf_facts w p hp hact
  rw [RawResult_active_eq rt env w p hp hact, ← hw1, prePhase_eq rt w1 _ hp1]
  obtain ⟨t, sm, off, ds, heq, hlen, _⟩ := readBack_seek_ok rt env
    (({ w1 with warnings :=
          (w1.warnings ++ (if 0 < p.errorOccurred then [Diag.inaccurate] else [])) ++
            (droppedSamples ((p.counts.take p.currentCount).foldl (countOne rt) p.statHash)
              (p.samples.take p.currentSample)).map uncountedDiag } : World).setProf
        { p with state := SCM_PROFILER_PAUSING,
                 statHash := (p.samples.take p.currentSample).foldl collectKey
                    ((p.counts.take p.currentCount).foldl (countOne rt) p.statHash),
                 currentCount := 0 })
    _ f rfl (by simpa [World.setProf] using hf1.trans hf) hfd hok
  rw [heq]
  refine ⟨t, sm, off, droppedSamples
      ((p.counts.take p.currentCount).foldl (countOne rt) p.statHash)
      (p.samples.take p.currentSample) ++ ds, f, hf, hfd, rfl, rfl, rfl, ?_, hlen⟩
  simp [World.setProf, hwa1, List.append_assoc]

/-- C12. Fatal seek failure: for every world that satisfies the lifecycle
invariant (as every reachable world does) and whose profiler is RUNNING or
PAUSING, if the seek of `Scm_ProfilerRawResult` fails, the operation raises
the error "seek failed" and returns no table, and it leaves the VM, the
descriptor, the timer and the handler exactly as `Scm_ProfilerReset` would
(only the diagnostics already emitted remain in the log): state INACTIVE,
flag cleared, counters and indices 0, empty table, descriptor released. -/
theorem Scm_ProfilerRawResult_seek_failure (rt : Runtime) (env : ResultEnv) (w : World)
    (p : ScmVMProfiler) (hinv : LifecycleInv w) (hp : w.vm.prof = some p)
    (hs : p.state = SCM_PROFILER_RUNNING ∨ p.state = SCM_PROFILER_PAUSING)
    (hseek : sys_lseek0 p.samplerFd w.spill env.seekOk = none) :
    (Scm_ProfilerRawResult rt env w).1 = ScmResult.raised ScmError.seekFailed ∧
    (Scm_ProfilerRawResult rt env w).2.vm = (Scm_ProfilerReset w).vm ∧
    (Scm_ProfilerRawResult rt env w).2.spill = (Scm_ProfilerReset w).spill ∧
    (Scm_ProfilerRawResult rt env w).2.itimer = (Scm_ProfilerReset w).itimer ∧
    (Scm_ProfilerRawResult rt env w).2.sigprofHandler = (Scm_ProfilerReset w).sigprofHandler ∧
    ∃ q, (Scm_ProfilerRawResult rt env w).2.vm.prof = some q ∧
      q.state = SCM_PROFILER_INACTIVE ∧
      (Scm_ProfilerRawResult rt env w).2.vm.profilerRunning = false ∧
      q.totalSamples = 0 ∧ q.errorOccurred = 0 ∧
      q.currentSample = 0 ∧ q.currentCount = 0 ∧
      q.statHash = [] ∧
      q.samplerFd = -1 ∧ (Scm_ProfilerRawResult rt env w).2.spill = none := by
  have hact : p.state ≠ SCM_PROFILER_INACTIVE := by rcases hs with h | h <;> simp [h]
  have hres := RawResult_seek_fail_eq rt env w p hp hact hseek
  rw [hres]
  refine ⟨rfl, rfl, rfl, rfl, rfl, ?_⟩
  obtain ⟨hflag, hfd⟩ := hinv p hp
  have hfd' : 0 ≤ p.samplerFd := hfd hact
  rcases hs with hs | hs
  · simp [Scm_ProfilerReset, hp, hs, Scm_ProfilerStop, World.setProf, hfd']
  · have hfl : w.vm.profilerRunning = false := by
      cases hb : w.vm.profilerRunning
      · rfl
      · have := hflag.1 hb
        rw [hs] at this; cases this
    simp [Scm_ProfilerReset, hp, hs, World.setProf, hfd', hfl]

/-- Instance of C12 at `runningWorld` (one pending call record, one buffered
sample, a table entry) with a failing seek. -/
theorem Scm_ProfilerRawResult_seek_failure_witness :
    (Scm_ProfilerRawResult exRuntime seekFailEnv runningWorld).1 =
      ScmResult.raised ScmError.seekFailed ∧
    (Scm_ProfilerRawResult exRuntime seekFailEnv runningWorld).2.vm =
      (Scm_ProfilerReset runningWorld).vm ∧
    (Scm_ProfilerRawResult exRuntime seekFailEnv runningWorld).2.spill =
      (Scm_ProfilerReset runningWorld).spill ∧
    (Scm_ProfilerRawResult exRuntime seekFailEnv runningWorld).2.itimer =
      (Scm_ProfilerReset runningWorld).itimer ∧
    (Scm_ProfilerRawResult exRuntime seekFailEnv runningWorld).2.sigprofHandler =
      (Scm_ProfilerReset runningWorld).sigprofHandler ∧
    ∃ q, (Scm_ProfilerRawResult exRuntime seekFailEnv runningWorld).2.vm.prof = some q ∧
      q.state = SCM_PROFILER_INACTIVE ∧
      (Scm_ProfilerRawResult exRuntime seekFailEnv runningWorld).2.vm.profilerRunning = false ∧
      q.totalSamples = 0 ∧ q.errorOccurred = 0 ∧
      q.currentSample = 0 ∧ q.currentCount = 0 ∧
      q.statHash = [] ∧
      q.samplerFd = -1 ∧
      (Scm_ProfilerRawResult exRuntime seekFailEnv runningWorld).2.spill = none :=
  Scm_ProfilerRawResult_seek_failure exRuntime seekFailEnv runningWorld
    { pausedProfiler with state := SCM_PROFILER_RUNNING } runningWorld_lifecycleInv rfl
    (Or.inl rfl) (by decide)


/-! ## Repeated collection and degraded mode -/

/-- A result collection on a drained profiler (PAUSING, both buffers and the
file empty) aggregates nothing: it returns the table as it is and changes
only the file offset and, if a write had failed, the diagnostics. -/
theorem RawResult_drained (rt : Runtime) (env : ResultEnv) (w : World) (q : ScmVMProfiler)
    (f : SpillFile) (hq : w.vm.prof = some q) (hst : q.state = SCM_PROFILER_PAUSING)
    (hc : q.currentCount = 0) (hsm : q.currentSample = 0) (hf : w.spill = some f)
    (hd : f.data = []) (hfd : 0 ≤ q.samplerFd) (hseek : env.seekOk = true)
    (htrunc : env.truncOk = true) :
    Scm_ProfilerRawResult rt env w =
      (ScmResult.statHash q.statHash,
       { w with spill := some ⟨[], 0⟩,
                warnings := w.warnings ++
                  (if 0 < q.errorOccurred then [Diag.inaccurate] else []) }) := by
  have hact : q.state ≠ SCM_PROFILER_INACTIVE := by simp [hst]
  have hnr : ¬ q.state = SCM_PROFILER_RUNNING := by simp [hst]
  rw [RawResult_active_eq rt env w q hq hact]
  simp only [hnr, if_false]
  rw [prePhase_eq rt w q hq]
  obtain ⟨t, sm, off, ds, heq, _, hempty⟩ := readBack_seek_ok rt env
    (({ w with warnings :=
          (w.warnings ++ (if 0 < q.errorOccurred then [Diag.inaccurate] else [])) ++
            (droppedSamples ((q.counts.take q.currentCount).foldl (countOne rt) q.statHash)
              (q.samples.take q.currentSample)).map uncountedDiag } : World).setProf
        { q with statHash := (q.samples.take q.currentSample).foldl collectKey
                    ((q.counts.take q.currentCount).foldl (countOne rt) q.statHash),
                 currentCount := 0 })
    _ f rfl (by simpa [World.setProf] using hf) hfd hseek
  obtain ⟨h1, h2, h3, h4⟩ := hempty hd
  rw [heq, h1, h2, h3, h4]
  simp only [htrunc, if_true, hc, hsm, List.take_zero, List.foldl_nil, droppedSamples,
    List.filter_nil, List.map_nil, List.append_nil, World.setProf]
  have hqe : ({ q with statHash := q.statHash, currentCount := 0, samples := q.samples,
                       currentSample := 0 } : ScmVMProfiler) = q := by
    cases q; simp_all
  cases w with
  | mk vm sp it hdl wa =>
    cases vm with
    | mk prof r b pc v =>
      simp only at hq
      simp [hq, hqe]

/-- C19. No double counting on repeated collection: for every world whose
profiler is RUNNING or PAUSING, two calls of `Scm_ProfilerRawResult` in
succession, seek and truncate succeeding in both, return the same table: the
first call leaves `currentCount = 0`, `currentSample = 0` and an empty file,
and the second aggregates nothing: it leaves the VM, with the profiler record
and its table, exactly as the first left it, and emits nothing but the
warning of a failed write, if there was one. -/
theorem Scm_ProfilerRawResult_twice (rt : Runtime) (env₁ env₂ : ResultEnv) (w : World)
    (p : ScmVMProfiler) (hp : w.vm.prof = some p)
    (hs : p.state = SCM_PROFILER_RUNNING ∨ p.state = SCM_PROFILER_PAUSING)
    (hseek₁ : sys_lseek0 p.samplerFd w.spill env₁.seekOk ≠ none)
    (htrunc₁ : env₁.truncOk = true) (hseek₂ : env₂.seekOk = true)
    (htrunc₂ : env₂.truncOk = true) :
    ∃ t q f,
      (Scm_ProfilerRawResult rt env₁ w).1 = ScmResult.statHash t ∧
      (Scm_ProfilerRawResult rt env₁ w).2.vm.prof = some q ∧ q.statHash = t ∧
      q.currentCount = 0 ∧ q.currentSample = 0 ∧
      (Scm_ProfilerRawResult rt env₁ w).2.spill = some f ∧ f.data = [] ∧
      (Scm_ProfilerRawResult rt env₂ (Scm_ProfilerRawResult rt env₁ w).2).1 =
        ScmResult.statHash t ∧
      (Scm_ProfilerRawResult rt env₂ (Scm_ProfilerRawResult rt env₁ w).2).2.vm =
        (Scm_ProfilerRawResult rt env₁ w).2.vm ∧
      (Scm_ProfilerRawResult rt env₂ (Scm_ProfilerRawResult rt env₁ w).2).2.warnings =
        (Scm_ProfilerRawResult rt env₁ w).2.warnings ++
          (if 0 < p.errorOccurred then [Diag.inaccurate] else []) := by
  have hact : p.state ≠ SCM_PROFILER_INACTIVE := by rcases hs with h | h <;> simp [h]
  obtain ⟨t, sm, off, ds, f, hf, hfd, hres, hprof, hspill, hwarn, _⟩ :=
    RawResult_seek_ok_shape rt env₁ w p hp hact hseek₁
  simp only [htrunc₁, if_true] at hres hspill
  have hdr := RawResult_drained rt env₂ (Scm_ProfilerRawResult rt env₁ w).2 _ _ hprof rfl rfl rfl
    hspill rfl hfd hseek₂ htrunc₂
  refine ⟨t, _, _, hres, hprof, rfl, rfl, rfl, hspill, rfl, ?_, ?_, ?_⟩
  · rw [hdr]
  · rw [hdr]
  · rw [hdr]

/-- Instance of C19 at `runningWorld`: the first collection aggregates the
pending call record and the three samples, the second returns the same
table. -/
theorem Scm_ProfilerRawResult_twice_witness :
    (Scm_ProfilerRawResult exRuntime okEnv
        (Scm_ProfilerRawResult exRuntime okEnv runningWorld).2).1 =
      ScmResult.statHash [⟨ScmObj.ptr 8, 3, 3⟩] ∧
    ∃ t q f,
      (Scm_ProfilerRawResult exRuntime okEnv runningWorld).1 = ScmResult.statHash t ∧
      (Scm_ProfilerRawResult exRuntime okEnv runningWorld).2.vm.prof = some q ∧
      q.statHash = t ∧ q.currentCount = 0 ∧ q.currentSample = 0 ∧
      (Scm_ProfilerRawResult exRuntime okEnv runningWorld).2.spill = some f ∧ f.data = [] ∧
      (Scm_ProfilerRawResult exRuntime okEnv
          (Scm_ProfilerRawResult exRuntime okEnv runningWorld).2).1 = ScmResult.statHash t ∧
      (Scm_ProfilerRawResult exRuntime okEnv
          (Scm_ProfilerRawResult exRuntime okEnv runningWorld).2).2.vm =
        (Scm_ProfilerRawResult exRuntime okEnv runningWorld).2.vm ∧
      (Scm_ProfilerRawResult exRuntime okEnv
          (Scm_ProfilerRawResult exRuntime okEnv runningWorld).2).2.warnings =
        (Scm_ProfilerRawResult exRuntime okEnv runningWorld).2.warnings ++
          (if 0 < (0 : Nat) then [Diag.inaccurate] else []) :=
  ⟨by decide,
   Scm_ProfilerRawResult_twice exRuntime okEnv okEnv runningWorld
    { pausedProfiler with state := SCM_PROFILER_RUNNING } rfl (Or.inl rfl) (by decide) rfl rfl
    rfl⟩


theorem count_inaccurate_uncounted (ds : List ScmProfSample) :
    (ds.map uncountedDiag).count Diag.inaccurate = 0 := by
  induction ds with
  | nil => rfl
  | cons s ds ih => simp [uncountedDiag, List.count_cons, ih]

/-- The diagnostics of a result collection on an active profiler, whatever
the operating system does: the warning of a failed write, if there was one,
then "uncounted object" diagnostics. -/
theorem RawResult_warnings (rt : Runtime) (env : ResultEnv) (w : World) (p : ScmVMProfiler)
    (hp : w.vm.prof = some p) (hact : p.state ≠ SCM_PROFILER_INACTIVE) :
    ∃ ds : List ScmProfSample,
      (Scm_ProfilerRawResult rt env w).2.warnings =
        (w.warnings ++ (if 0 < p.errorOccurred then [Diag.inaccurate] else [])) ++
          ds.map uncountedDiag := by
  by_cases hseek : sys_lseek0 p.samplerFd w.spill env.seekOk = none
  · rw [RawResult_seek_fail_eq rt env w p hp hact hseek]
    exact ⟨_, rfl⟩
  · obtain ⟨t, sm, off, ds, f, _, _, _, _, _, hwarn, _⟩ :=
      RawResult_seek_ok_shape rt env w p hp hact hseek
    exact ⟨ds, hwarn⟩

/-- C18, amended. Degraded mode on spill write failure.  (1) A tick on a full
buffer (capacity at least 1, descriptor open) whose write fails increments
`errorOccurred` by 1, loses the buffered samples (the file is unchanged, the
index is reset), keeps the state RUNNING and records its sample at index 0.
(2) For every world whose profiler is RUNNING or PAUSING and whatever the
operating system does, `Scm_ProfilerRawResult` emits the warning "result may
not be accurate" exactly once if `errorOccurred > 0` and not at all if
`errorOccurred = 0`.  (3) In both cases, if the seek and the truncate
succeed, it returns the table. -/
theorem spill_write_failure_degraded (rt : Runtime) :
    (∀ (w : World) (p : ScmVMProfiler), w.vm.prof = some p →
      p.state = SCM_PROFILER_RUNNING → 1 ≤ rt.SCM_PROF_SAMPLES_IN_BUFFER →
      rt.SCM_PROF_SAMPLES_IN_BUFFER ≤ p.currentSample → 0 ≤ p.samplerFd →
      sampler_flush false w =
        w.setProf { p with errorOccurred := p.errorOccurred + 1, currentSample := 0 } ∧
      sampler_sample rt false w =
        ({ w with itimer := true } : World).setProf
          { p with errorOccurred := p.errorOccurred + 1, currentSample := 1,
                   samples := p.samples.set 0 (currentSampleOf rt w.vm),
                   totalSamples := p.totalSamples + 1 }) ∧
    (∀ (env : ResultEnv) (w : World) (p : ScmVMProfiler), w.vm.prof = some p →
      (p.state = SCM_PROFILER_RUNNING ∨ p.state = SCM_PROFILER_PAUSING) →
      (∃ ds : List ScmProfSample,
        (Scm_ProfilerRawResult rt env w).2.warnings =
          (w.warnings ++ (if 0 < p.errorOccurred then [Diag.inaccurate] else [])) ++
            ds.map uncountedDiag) ∧
      (Scm_ProfilerRawResult rt env w).2.warnings.count Diag.inaccurate =
        w.warnings.count Diag.inaccurate + (if 0 < p.errorOccurred then 1 else 0)) ∧
    (∀ (env : ResultEnv) (w : World) (p : ScmVMProfiler), w.vm.prof = some p →
      (p.state = SCM_PROFILER_RUNNING ∨ p.state = SCM_PROFILER_PAUSING) →
      sys_lseek0 p.samplerFd w.spill env.seekOk ≠ none → env.truncOk = true →
      ∃ q, (Scm_ProfilerRawResult rt env w).2.vm.prof = some q ∧
        (Scm_ProfilerRawResult rt env w).1 = ScmResult.statHash q.statHash) := by
  refine ⟨?_, ?_, ?_⟩
  · intro w p hp hs hS hfull hfd
    have hno : ¬ (p.samplerFd < 0 ∨ p.currentSample = 0) := by omega
    have hwr : ∀ sp buf, sys_write p.samplerFd sp buf false = none := by
      intro sp buf
      cases sp <;> simp [sys_write]
    constructor
    · simp only [sampler_flush, hp, hno, if_false, hwr]
    · rw [sampler_sample_eq rt false w p hp hs]
      simp only [hfull, if_true, hno, if_false, hwr]
  · intro env w p hp hs
    have hact : p.state ≠ SCM_PROFILER_INACTIVE := by rcases hs with h | h <;> simp [h]
    obtain ⟨ds, hds⟩ := RawResult_warnings rt env w p hp hact
    refine ⟨⟨ds, hds⟩, ?_⟩
    rw [hds, List.count_append, List.count_append, count_inaccurate_uncounted]
    by_cases he : 0 < p.errorOccurred <;> simp [he]
  · intro env w p hp hs hseek htrunc
    have hact : p.state ≠ SCM_PROFILER_INACTIVE := by rcases hs with h | h <;> simp [h]
    obtain ⟨t, sm, off, ds, f, _, _, hres, hprof, _, _, _⟩ :=
      RawResult_seek_ok_shape rt env w p hp hact hseek
    exact ⟨_, hprof, by simpa [htrunc] using hres⟩

/-- Instance of C18: the tick on `fullWorld` whose write fails, and the
collection on the resulting world `degradedWorld`, which warns once and
returns the table. -/
theorem spill_write_failure_degraded_witness :
    (sampler_flush false fullWorld =
        fullWorld.setProf { fullProfiler with errorOccurred := 1, currentSample := 0 } ∧
      sampler_sample exRuntime false fullWorld =
        ({ fullWorld with itimer := true } : World).setProf
          { fullProfiler with errorOccurred := 1, currentSample := 1,
                              samples := fullProfiler.samples.set 0
                                (currentSampleOf exRuntime fullWorld.vm),
                              totalSamples := 3 }) ∧
    (Scm_ProfilerRawResult exRuntime okEnv degradedWorld).2.warnings = [Diag.inaccurate] ∧
    (Scm_ProfilerRawResult exRuntime okEnv degradedWorld).2.warnings.count Diag.inaccurate =
      degradedWorld.warnings.count Diag.inaccurate + (if 0 < (1 : Nat) then 1 else 0) ∧
    (Scm_ProfilerRawResult exRuntime okEnv fullWorld).2.warnings.count Diag.inaccurate =
      fullWorld.warnings.count Diag.inaccurate + (if 0 < (0 : Nat) then 1 else 0) ∧
    ∃ q, (Scm_ProfilerRawResult exRuntime okEnv degradedWorld).2.vm.prof = some q ∧
      (Scm_ProfilerRawResult exRuntime okEnv degradedWorld).1 = ScmResult.statHash q.statHash :=
  ⟨(spill_write_failure_degraded exRuntime).1 fullWorld fullProfiler rfl rfl (by decide)
      (by decide) (by decide),
   by decide,
   ((spill_write_failure_degraded exRuntime).2.1 okEnv degradedWorld
      { fullProfiler with errorOccurred := 1, currentSample := 1,
                          samples := fullProfiler.samples.set 0
                            (currentSampleOf exRuntime fullWorld.vm),
                          totalSamples := 3 } (by decide) (Or.inl rfl)).2,
   ((spill_write_failure_degraded exRuntime).2.1 okEnv fullWorld fullProfiler rfl
      (Or.inl rfl)).2,
   (spill_write_failure_degraded exRuntime).2.2 okEnv degradedWorld
      { fullProfiler with errorOccurred := 1, currentSample := 1,
                          samples := fullProfiler.samples.set 0
                            (currentSampleOf exRuntime fullWorld.vm),
                          totalSamples := 3 } (by decide) (Or.inl rfl) (by decide) rfl⟩

/-- C18 as stated fails when the seek fails: on `degradedWorld`
(`errorOccurred = 1`, state RUNNING) a result collection whose seek fails
emits the warning and then raises the fatal error instead of returning the
table. -/
theorem Scm_ProfilerRawResult_warns_then_fails :
    degradedWorld.vm.prof.map (fun p => (p.state, p.errorOccurred)) =
      some (SCM_PROFILER_RUNNING, 1) ∧
    (Scm_ProfilerRawResult exRuntime seekFailEnv degradedWorld).1 =
      ScmResult.raised ScmError.seekFailed ∧
    (Scm_ProfilerRawResult exRuntime seekFailEnv degradedWorld).2.warnings =
      [Diag.inaccurate] := by
  decide


theorem fullWorld_lifecycleInv : LifecycleInv fullWorld := by
  intro p hp
  have : p = fullProfiler := by simpa [fullWorld] using hp.symm
  subst this
  simp [fullWorld, fullProfiler]

theorem fullWorld_bufInv : BufInv exRuntime fullWorld := by
  intro p hp
  have : p = fullProfiler := by simpa [fullWorld] using hp.symm
  subst this
  simp [fullProfiler, exRuntime]

/-- Instance of C16: a tick on the paused profiler changes nothing; a tick
on the full buffer of `fullWorld` whose write fails stores its sample at
index 0 and leaves table, count buffer, `currentCount` and state as they
are. -/
theorem sampler_sample_frame_witness :
    sampler_sample exRuntime true pausedWorld = pausedWorld ∧
    sampleIndex exRuntime false fullWorld = some 0 ∧
    (∀ i, sampleIndex exRuntime false fullWorld = some i →
      i < exRuntime.SCM_PROF_SAMPLES_IN_BUFFER ∧ i < fullProfiler.samples.length) ∧
    ∃ q, (sampler_sample exRuntime false fullWorld).vm.prof = some q ∧
      q.statHash = fullProfiler.statHash ∧ q.counts = fullProfiler.counts ∧
      q.currentCount = fullProfiler.currentCount ∧ q.state = fullProfiler.state :=
  ⟨(sampler_sample_frame exRuntime true pausedWorld).1
      (Or.inr ⟨pausedProfiler, rfl, by decide⟩),
   by decide,
   ((sampler_sample_frame exRuntime false fullWorld).2 fullProfiler rfl (by decide)
      fullWorld_lifecycleInv fullWorld_bufInv).1,
   ((sampler_sample_frame exRuntime false fullWorld).2 fullProfiler rfl (by decide)
      fullWorld_lifecycleInv fullWorld_bufInv).2⟩

/-! ## The bound on the sample buffer -/

theorem Start_prof (rt : Runtime) (mk : Int) (ok : Bool) (w : World) :
    (Scm_ProfilerStart rt mk ok w).2.vm.prof =
      some (match w.vm.prof with
        | none => { newProfiler rt mk with state := SCM_PROFILER_RUNNING }
        | some p =>
          { p with samplerFd := (if p.samplerFd < 0 then mk else p.samplerFd),
                   state := SCM_PROFILER_RUNNING }) := by
  cases hp : w.vm.prof with
  | none => cases ok <;> simp [Scm_ProfilerStart, hp, newProfiler, World.setProf]
  | some p =>
    by_cases hfd : p.samplerFd < 0 <;> by_cases hs : p.state = SCM_PROFILER_RUNNING <;>
      cases ok <;> simp [Scm_ProfilerStart, hp, World.setProf, hfd, hs]
    all_goals (cases p; simp_all)

theorem Reset_prof (w : World) (p : ScmVMProfiler) (hp : w.vm.prof = some p) :
    ∃ q, (Scm_ProfilerReset w).vm.prof = some q ∧ q.samples = p.samples ∧
      q.currentSample ≤ p.currentSample := by
  by_cases hi : p.state = SCM_PROFILER_INACTIVE
  · exact ⟨p, by simp [Scm_ProfilerReset, hp, hi], rfl, le_refl _⟩
  · by_cases hs : p.state = SCM_PROFILER_RUNNING
    · simp [Scm_ProfilerReset, hp, hs, Scm_ProfilerStop, World.setProf]
    · simp [Scm_ProfilerReset, hp, hs, hi, World.setProf]

theorem RecordCall_shape (rt : Runtime) (f : ScmObj) (w : World) (p : ScmVMProfiler)
    (hp : w.vm.prof = some p) :
    ∃ t c n, RecordCall rt f w =
      w.setProf { p with statHash := t, counts := c, currentCount := n } := by
  by_cases hfull : p.currentCount = rt.SCM_PROF_COUNTER_IN_BUFFER
  · refine ⟨(p.counts.take p.currentCount).foldl (countOne rt) p.statHash,
      p.counts.set 0 ⟨f⟩, 1, ?_⟩
    simp only [RecordCall, hp, hfull, if_true]
    rw [countBufferFlush_eq rt w p hp]
    simp [World.setProf, hfull]
  · exact ⟨p.statHash, p.counts.set p.currentCount ⟨f⟩, p.currentCount + 1,
      by simp [RecordCall, hp, hfull, World.setProf]⟩

/-- One event keeps the sample buffer well formed, in a world that satisfies
the lifecycle invariant. -/
theorem BufInv_step (rt : Runtime) (hS : 1 ≤ rt.SCM_PROF_SAMPLES_IN_BUFFER) (w : World)
    (n : Nat) (op : Op) (hc : CInv (ctl w) n) (hb : BufInv rt w) :
    BufInv rt (step rt w op) := by
  intro q hq
  cases op with
  | start fd ok =>
    simp only [step, Start_prof] at hq
    cases hp : w.vm.prof with
    | none =>
      rw [hp] at hq
      cases hq
      simp [newProfiler]
    | some p =>
      rw [hp] at hq
      cases hq
      exact hb p hp
  | stop =>
    cases hp : w.vm.prof with
    | none => simp [step, Scm_ProfilerStop, hp] at hq
    | some p =>
      simp only [step, Scm_ProfilerStop_prof w p hp] at hq
      cases hq
      split_ifs <;> exact hb p hp
  | reset =>
    cases hp : w.vm.prof with
    | none => simp [step, Scm_ProfilerReset, hp] at hq
    | some p =>
      obtain ⟨q', hq', hsm, hcs⟩ := Reset_prof w p hp
      simp only [step, hq'] at hq
      cases hq
      obtain ⟨h1, h2⟩ := hb p hp
      exact ⟨by rw [hsm]; exact h1, le_trans hcs h2⟩
  | result env =>
    cases hp : w.vm.prof with
    | none => simp [step, Scm_ProfilerRawResult, hp] at hq
    | some p =>
      obtain ⟨h1, h2⟩ := hb p hp
      by_cases hi : p.state = SCM_PROFILER_INACTIVE
      · have : Scm_ProfilerRawResult rt env w = (ScmResult.scmFalse, w) := by
          simp [Scm_ProfilerRawResult, hp, hi]
        simp only [step, this, hp] at hq
        cases hq
        exact ⟨h1, h2⟩
      · by_cases hseek : sys_lseek0 p.samplerFd w.spill env.seekOk = none
        · obtain ⟨q', hq', hsm, hcs⟩ := Reset_prof w p hp
          simp only [step, RawResult_seek_fail_eq rt env w p hp hi hseek, hq'] at hq
          cases hq
          exact ⟨by rw [hsm]; exact h1, le_trans hcs h2⟩
        · obtain ⟨t, sm, off, ds, f, _, _, _, hprof, _, _, hlen⟩ :=
            RawResult_seek_ok_shape rt env w p hp hi hseek
          simp only [step, hprof] at hq
          cases hq
          exact ⟨hlen h1, Nat.zero_le _⟩
  | countFlush =>
    cases hp : w.vm.prof with
    | none => simp [step, Scm_ProfilerCountBufferFlush, hp] at hq
    | some p =>
      simp only [step, countBufferFlush_eq rt w p hp, World.setProf] at hq
      cases hq
      exact hb p hp
  | recordCall f =>
    cases hp : w.vm.prof with
    | none => simp [step, RecordCall, hp] at hq
    | some p =>
      obtain ⟨t, c, m, heq⟩ := RecordCall_shape rt f w p hp
      simp only [step, heq, World.setProf] at hq
      cases hq
      exact hb p hp
  | tick ok =>
    cases hp : w.vm.prof with
    | none => simp [step, sampler_sample, hp] at hq
    | some p =>
      obtain ⟨h1, h2⟩ := hb p hp
      by_cases hs : p.state = SCM_PROFILER_RUNNING
      · rw [ctl_eq_some w p hp] at hc
        have hfd : 0 ≤ p.samplerFd := hc.2.1 (by simp [hs])
        simp only [step, sampler_sample_eq rt ok w p hp hs] at hq
        by_cases hfull : rt.SCM_PROF_SAMPLES_IN_BUFFER ≤ p.currentSample
        · have hno : ¬ (p.samplerFd < 0 ∨ p.currentSample = 0) := by omega
          simp only [hfull, if_true, hno, if_false] at hq
          cases hw : sys_write p.samplerFd w.spill (List.take p.currentSample p.samples) ok with
          | none =>
            simp only [hw, World.setProf] at hq
            cases hq
            exact ⟨by simpa using h1, hS⟩
          | some f =>
            simp only [hw, World.setProf] at hq
            cases hq
            exact ⟨by simpa using h1, hS⟩
        · simp only [hfull, if_false, World.setProf] at hq
          cases hq
          exact ⟨by simpa using h1, (by show p.currentSample + 1 ≤ _; omega)⟩
      · have : sampler_sample rt ok w = w := by simp [sampler_sample, hp, hs]
        simp only [step, this, hp] at hq
        cases hq
        exact ⟨h1, h2⟩
  | setRegs b pc v =>
    simp only [step] at hq
    exact hb q hq

/-- Both invariants hold along every run from `boot`. -/
theorem reachable_invariants (rt : Runtime) (hS : 1 ≤ rt.SCM_PROF_SAMPLES_IN_BUFFER)
    (ops : List Op) :
    CInv (ctl (run rt boot ops)) (ticksSinceReset rt boot 0 ops) ∧ BufInv rt (run rt boot ops) := by
  have key : ∀ (ops : List Op) (w : World) (n : Nat), CInv (ctl w) n → BufInv rt w →
      CInv (ctl (run rt w ops)) (ticksSinceReset rt w n ops) ∧ BufInv rt (run rt w ops) := by
    intro ops
    induction ops with
    | nil => intro w n hc hb; exact ⟨by simpa [run, ticksSinceReset] using hc, hb⟩
    | cons op ops ih =>
      intro w n hc hb
      simp only [run, List.foldl_cons, ticksSinceReset]
      exact ih _ _ (CInv_step rt w n op hc) (BufInv_step rt hS w n op hc hb)
  exact key ops boot 0 (by simp [ctl, boot, CInv]) (by intro p hp; simp [boot] at hp)


/-- C13. Sample buffer bound: with a sample buffer of capacity at least 1, in
every world reachable from `boot` by starts (whose file creation succeeds),
stops, resets, result collections, call-count flushes, recorded calls,
register changes and ticks (spill writes, seeks, reads and truncates allowed
to fail), `currentSample` is at most the capacity, the array has the
capacity, the descriptor is open whenever the state is RUNNING, and the index
at which a tick stores its sample is strictly below the capacity (the sample
is stored there).  The invariant on the descriptor is needed: with a closed
descriptor and a full buffer the flush does not reset the index and the tick
stores at `currentSample`. -/
theorem sample_buffer_bound (rt : Runtime) (hS : 1 ≤ rt.SCM_PROF_SAMPLES_IN_BUFFER)
    (ops : List Op) :
    (∀ p, (run rt boot ops).vm.prof = some p →
      p.currentSample ≤ rt.SCM_PROF_SAMPLES_IN_BUFFER ∧
      p.samples.length = rt.SCM_PROF_SAMPLES_IN_BUFFER ∧
      (p.state = SCM_PROFILER_RUNNING → 0 ≤ p.samplerFd)) ∧
    (∀ (ok : Bool) (i : Nat), sampleIndex rt ok (run rt boot ops) = some i →
      i < rt.SCM_PROF_SAMPLES_IN_BUFFER ∧
      ∃ q, (sampler_sample rt ok (run rt boot ops)).vm.prof = some q ∧
        q.currentSample = i + 1 ∧
        q.samples[i]? = some (currentSampleOf rt (run rt boot ops).vm)) ∧
    (∀ (ok : Bool) (w : World) (p : ScmVMProfiler), w.vm.prof = some p →
      p.state = SCM_PROFILER_RUNNING → p.samplerFd < 0 →
      rt.SCM_PROF_SAMPLES_IN_BUFFER ≤ p.currentSample →
      sampleIndex rt ok w = some p.currentSample) := by
  obtain ⟨hc, hb⟩ := reachable_invariants rt hS ops
  refine ⟨?_, ?_, ?_⟩
  · intro p hp
    obtain ⟨h1, h2⟩ := hb p hp
    rw [ctl_eq_some _ p hp] at hc
    exact ⟨h2, h1, fun hs => hc.2.1 (by simp [hs])⟩
  · intro ok i hi
    generalize run rt boot ops = w at hc hb hi
    cases hp : w.vm.prof with
    | none => simp [sampleIndex, hp] at hi
    | some p =>
      by_cases hs : p.state = SCM_PROFILER_RUNNING
      · obtain ⟨h1, h2⟩ := hb p hp
        rw [ctl_eq_some _ p hp] at hc
        have hfd : 0 ≤ p.samplerFd := hc.2.1 (by simp [hs])
        rw [sampleIndex_eq rt ok w p hp hs] at hi
        rw [sampler_sample_eq rt ok w p hp hs]
        by_cases hfull : rt.SCM_PROF_SAMPLES_IN_BUFFER ≤ p.currentSample
        · have hno : ¬ (p.samplerFd < 0 ∨ p.currentSample = 0) := by omega
          simp only [hfull, hno, not_false_eq_true, and_self, if_true, Option.some.injEq] at hi
          subst hi
          have hpos : 0 < p.samples.length := by omega
          refine ⟨hS, ?_⟩
          simp only [hfull, if_true, hno, if_false]
          cases sys_write p.samplerFd w.spill (List.take p.currentSample p.samples) ok <;>
            exact ⟨_, rfl, rfl, by simp [hpos]⟩
        · simp only [hfull, false_and, if_false, Option.some.injEq] at hi
          subst hi
          have hlt : p.currentSample < p.samples.length := by omega
          refine ⟨by omega, ?_⟩
          simp only [hfull, if_false]
          exact ⟨_, rfl, rfl, by simp [hlt]⟩
      · simp [sampleIndex, hp, hs] at hi
  · intro ok w p hp hs hfd hfull
    rw [sampleIndex_eq rt ok w p hp hs]
    simp [hfd]

/-- Instance of C13 at the end of the run `exCycle` on buffers of two
entries. -/
theorem sample_buffer_bound_witness :
    (∀ p, (run exRuntime boot exCycle).vm.prof = some p →
      p.currentSample ≤ exRuntime.SCM_PROF_SAMPLES_IN_BUFFER ∧
      p.samples.length = exRuntime.SCM_PROF_SAMPLES_IN_BUFFER ∧
      (p.state = SCM_PROFILER_RUNNING → 0 ≤ p.samplerFd)) ∧
    (∀ (ok : Bool) (i : Nat), sampleIndex exRuntime ok (run exRuntime boot exCycle) = some i →
      i < exRuntime.SCM_PROF_SAMPLES_IN_BUFFER ∧
      ∃ q, (sampler_sample exRuntime ok (run exRuntime boot exCycle)).vm.prof = some q ∧
        q.currentSample = i + 1 ∧
        q.samples[i]? = some (currentSampleOf exRuntime (run exRuntime boot exCycle).vm)) ∧
    (∀ (ok : Bool) (w : World) (p : ScmVMProfiler), w.vm.prof = some p →
      p.state = SCM_PROFILER_RUNNING → p.samplerFd < 0 →
      exRuntime.SCM_PROF_SAMPLES_IN_BUFFER ≤ p.currentSample →
      sampleIndex exRuntime ok w = some p.currentSample) :=
  sample_buffer_bound exRuntime (by decide) exCycle

/-! ## Sample attribution -/

/-- C14, amended. Sample attribution: for every tick in state RUNNING, the
sample stored is (pending result, null pc) if a frame is active, control is
at a return instruction and the pending result is a subr; otherwise it is
(code of the active frame, current instruction address) if a frame is active;
and it is (false, null) if no frame is active.  In each case the sample is
stored at the index of the tick, the buffer is otherwise unchanged,
`currentSample` is that index plus 1 and `totalSamples` grows by exactly 1. -/
theorem sampler_sample_attribution (rt : Runtime) (writeOk : Bool) (w : World)
    (p : ScmVMProfiler) (hp : w.vm.prof = some p) (hs : p.state = SCM_PROFILER_RUNNING) :
    (∃ i q, sampleIndex rt writeOk w = some i ∧
      (sampler_sample rt writeOk w).vm.prof = some q ∧
      q.currentSample = i + 1 ∧ q.totalSamples = p.totalSamples + 1 ∧
      q.samples = p.samples.set i (currentSampleOf rt w.vm) ∧
      (i < p.samples.length → q.samples[i]? = some (currentSampleOf rt w.vm))) ∧
    (w.vm.base = none → currentSampleOf rt w.vm = ⟨SCM_FALSE, none⟩) ∧
    (∀ b, w.vm.base = some b →
      (((∃ a, w.vm.pc = some a ∧ rt.insnIsRet a = true) ∧ rt.SCM_SUBRP w.vm.val0 = true) →
        currentSampleOf rt w.vm = ⟨w.vm.val0, none⟩) ∧
      (¬ ((∃ a, w.vm.pc = some a ∧ rt.insnIsRet a = true) ∧ rt.SCM_SUBRP w.vm.val0 = true) →
        currentSampleOf rt w.vm = ⟨b, w.vm.pc⟩)) := by
  refine ⟨?_, ?_, ?_⟩
  · rw [sampleIndex_eq rt writeOk w p hp hs, sampler_sample_eq rt writeOk w p hp hs]
    by_cases hfull : rt.SCM_PROF_SAMPLES_IN_BUFFER ≤ p.currentSample
    · by_cases hno : p.samplerFd < 0 ∨ p.currentSample = 0
      · simp only [hfull, hno, not_true_eq_false, and_false, if_false, if_true]
        exact ⟨_, _, rfl, rfl, rfl, rfl, rfl, fun h => by simp [World.setProf, h]⟩
      · simp only [hfull, hno, not_false_eq_true, and_self, if_true, if_false]
        cases sys_write p.samplerFd w.spill (List.take p.currentSample p.samples) writeOk <;>
          exact ⟨_, _, rfl, rfl, rfl, rfl, rfl, fun h => by simp [World.setProf, h]⟩
    · simp only [hfull, false_and, if_false]
      exact ⟨_, _, rfl, rfl, rfl, rfl, rfl, fun h => by simp [World.setProf, h]⟩
  · intro hb
    simp [currentSampleOf, hb]
  · intro b hb
    constructor
    · rintro ⟨⟨a, ha, hret⟩, hsub⟩
      simp [currentSampleOf, hb, ha, hret, hsub]
    · intro hn
      cases hpc : w.vm.pc with
      | none => simp [currentSampleOf, hb, hpc]
      | some a =>
        have : ¬ (rt.insnIsRet a = true ∧ rt.SCM_SUBRP w.vm.val0 = true) := by
          rintro ⟨h1, h2⟩
          exact hn ⟨⟨a, hpc, h1⟩, h2⟩
        simp only [currentSampleOf, hb, hpc, Bool.and_eq_true]
        rw [if_neg this]

/-- Instance of C14: the tick on the full buffer of `fullWorld` stores the
sample of the active frame at index 0 after the spill. -/
theorem sampler_sample_attribution_witness :
    (∃ i q, sampleIndex exRuntime true fullWorld = some i ∧
      (sampler_sample exRuntime true fullWorld).vm.prof = some q ∧
      q.currentSample = i + 1 ∧ q.totalSamples = fullProfiler.totalSamples + 1 ∧
      q.samples = fullProfiler.samples.set i (currentSampleOf exRuntime fullWorld.vm) ∧
      (i < fullProfiler.samples.length →
        q.samples[i]? = some (currentSampleOf exRuntime fullWorld.vm))) ∧
    (fullWorld.vm.base = none → currentSampleOf exRuntime fullWorld.vm = ⟨SCM_FALSE, none⟩) ∧
    (∀ b, fullWorld.vm.base = some b →
      (((∃ a, fullWorld.vm.pc = some a ∧ exRuntime.insnIsRet a = true) ∧
          exRuntime.SCM_SUBRP fullWorld.vm.val0 = true) →
        currentSampleOf exRuntime fullWorld.vm = ⟨fullWorld.vm.val0, none⟩) ∧
      (¬ ((∃ a, fullWorld.vm.pc = some a ∧ exRuntime.insnIsRet a = true) ∧
          exRuntime.SCM_SUBRP fullWorld.vm.val0 = true) →
        currentSampleOf exRuntime fullWorld.vm = ⟨b, fullWorld.vm.pc⟩)) :=
  sampler_sample_attribution exRuntime true fullWorld fullProfiler rfl rfl

/-- C14 as stated fails when no frame is active: in `subrNoFrame` the tick
is taken at a return instruction with a subr as pending result, yet the
sample stored is (false, null) and not (the subr, null), because the test on
the return instruction is made only inside `if (vm->base)`.  With an active
frame (`subrInFrame`) the same registers give (the subr, null). -/
theorem sampler_sample_no_frame_at_return :
    subrRuntime.insnIsRet 40 = true ∧ subrRuntime.SCM_SUBRP (ScmObj.ptr 300) = true ∧
    (run subrRuntime boot subrNoFrame).vm.prof.map (fun q => (q.currentSample, q.samples.head?)) =
      some (1, some ⟨SCM_FALSE, none⟩) ∧
    (run subrRuntime boot subrInFrame).vm.prof.map (fun q => (q.currentSample, q.samples.head?)) =
      some (1, some ⟨ScmObj.ptr 300, none⟩) := by
  decide


/-! ## Temporal order through overflow -/

theorem all_take {α : Type} (f : α → Bool) (l : List α) (k : Nat)
    (h : l.all f = true) : (l.take k).all f = true := by
  rw [List.all_eq_true] at h ⊢
  exact fun x hx => h x (List.mem_of_mem_take hx)

/-- C15. Temporal order is preserved through overflow: for every session
that starts from a world without profiler (the start creates an empty buffer
and an empty spill file at offset 0) and in which no spill write fails, with
buffer capacities of at least 1, in every intermediate state (after every
prefix of the session) the content of the spill file followed by
`samples[0 .. currentSample)` is the list of all samples recorded so far, in
the order recorded; and a tick in an intermediate state that is RUNNING with
the buffer at capacity appends exactly the buffered samples to the spill
file, in buffer order, and stores the new sample at index 0, leaving the
index at 1. -/
theorem temporal_order_through_overflow (rt : Runtime)
    (hC : 1 ≤ rt.SCM_PROF_COUNTER_IN_BUFFER) (hS : 1 ≤ rt.SCM_PROF_SAMPLES_IN_BUFFER)
    (fd : Nat) (ok : Bool) (w0 : World) (h0 : w0.vm.prof = none) (ops : List Op)
    (hops : ops.all sessionOp = true) :
    (∀ k, ∃ p f, (run rt w0 (Op.start fd ok :: ops.take k)).vm.prof = some p ∧
      (run rt w0 (Op.start fd ok :: ops.take k)).spill = some f ∧
      f.offset = f.data.length ∧
      f.data ++ p.samples.take p.currentSample =
        samplesOf rt true (regsOf w0.vm) (ops.take k)) ∧
    (∀ k p f, (run rt w0 (Op.start fd ok :: ops.take k)).vm.prof = some p →
      (run rt w0 (Op.start fd ok :: ops.take k)).spill = some f →
      p.state = SCM_PROFILER_RUNNING →
      p.currentSample = rt.SCM_PROF_SAMPLES_IN_BUFFER →
      ∃ q, (sampler_sample rt true (run rt w0 (Op.start fd ok :: ops.take k))).vm.prof = some q ∧
        (sampler_sample rt true (run rt w0 (Op.start fd ok :: ops.take k))).spill =
          some ⟨f.data ++ p.samples, f.offset + rt.SCM_PROF_SAMPLES_IN_BUFFER⟩ ∧
        q.currentSample = 1 ∧
        q.samples =
          p.samples.set 0 (currentSampleOf rt (run rt w0 (Op.start fd ok :: ops.take k)).vm) ∧
        q.samples[0]? =
          some (currentSampleOf rt (run rt w0 (Op.start fd ok :: ops.take k)).vm)) := by
  have hinv : ∀ k, SessInv rt (run rt w0 (Op.start fd ok :: ops.take k))
      ((ops.take k).foldl runningAfter true) (callsOf (ops.take k))
      (samplesOf rt true (regsOf w0.vm) (ops.take k)) :=
    fun k => SessInv_session rt hC hS fd ok w0 h0 (ops.take k) (all_take _ _ _ hops)
  constructor
  · intro k
    obtain ⟨p, f, hp, hf, _, _, _, _, _, _, hsamp⟩ := hinv k
    exact ⟨p, f, hp, hf, hsamp.2.2.1, hsamp.2.2.2⟩
  · intro k p f hp hf hs hcur
    obtain ⟨p', f', hp', hf', _, hfd, _, _, _, _, hsamp⟩ := hinv k
    generalize run rt w0 (Op.start fd ok :: ops.take k) = w at hp hf hp' hf'
    rw [hp] at hp'
    rw [hf] at hf'
    cases hp'
    cases hf'
    obtain ⟨hlen, hle, hoff, hdata⟩ := hsamp
    have hfull : rt.SCM_PROF_SAMPLES_IN_BUFFER ≤ p.currentSample := by omega
    have hno : ¬ (p.samplerFd < 0 ∨ p.currentSample = 0) := by omega
    have htake : p.samples.take p.currentSample = p.samples := by
      rw [hcur, ← hlen]; exact List.take_length p.samples
    have hpos : 0 < p.samples.length := by omega
    rw [sampler_sample_eq rt true w p hp hs]
    simp only [hfull, if_true, hno, if_false, hf, htake]
    rw [sys_write_at_end p.samplerFd f p.samples hfd hoff]
    exact ⟨_, rfl, by simp [World.setProf, hlen], rfl, rfl, by simp [hpos]⟩

/-- Instance of C15 on the session `exSession` (four ticks on a sample
buffer of two entries: the third tick overflows). -/
theorem temporal_order_through_overflow_witness :
    (∀ k, ∃ p f, (run exRuntime boot (Op.start 3 true :: exSession.take k)).vm.prof = some p ∧
      (run exRuntime boot (Op.start 3 true :: exSession.take k)).spill = some f ∧
      f.offset = f.data.length ∧
      f.data ++ p.samples.take p.currentSample =
        samplesOf exRuntime true (regsOf boot.vm) (exSession.take k)) ∧
    (∀ k p f, (run exRuntime boot (Op.start 3 true :: exSession.take k)).vm.prof = some p →
      (run exRuntime boot (Op.start 3 true :: exSession.take k)).spill = some f →
      p.state = SCM_PROFILER_RUNNING →
      p.currentSample = exRuntime.SCM_PROF_SAMPLES_IN_BUFFER →
      ∃ q, (sampler_sample exRuntime true
          (run exRuntime boot (Op.start 3 true :: exSession.take k))).vm.prof = some q ∧
        (sampler_sample exRuntime true
          (run exRuntime boot (Op.start 3 true :: exSession.take k))).spill =
          some ⟨f.data ++ p.samples, f.offset + exRuntime.SCM_PROF_SAMPLES_IN_BUFFER⟩ ∧
        q.currentSample = 1 ∧
        q.samples = p.samples.set 0
          (currentSampleOf exRuntime (run exRuntime boot (Op.start 3 true :: exSession.take k)).vm) ∧
        q.samples[0]? = some
          (currentSampleOf exRuntime (run exRuntime boot (Op.start 3 true :: exSession.take k)).vm)) :=
  temporal_order_through_overflow exRuntime (by decide) (by decide) 3 true boot rfl exSession
    (by decide)


/-! ## Reuse of the spill file across collection cycles -/

/-- C20 fails on the run `exReuse` (sample buffer of two entries).  The first
`Scm_ProfilerRawResult` reads the two spilled records and truncates the file
to length 0, which leaves the file offset at 2 (`ftruncate` does not move it
and the source does not seek back).  The spill of the second cycle is
therefore written at offset 2: the file then holds two zero-filled records
followed by the two samples spilled after the first result.  The second
`Scm_ProfilerRawResult` seeks to 0 and reads all four records: the records
read back are not exactly the two samples spilled after the first result,
and the two zero-filled records (function `NULL`) each produce an "uncounted
object" diagnostic although every recorded sample has an entry in the
table. -/
theorem spill_reuse_reads_zero_records :
    (run exRuntime boot exReuse1).spill = some ⟨[], 2⟩ ∧
    (run exRuntime boot exReuse).spill =
      some ⟨[zeroSample, zeroSample, ⟨ScmObj.ptr 16, some 80⟩, ⟨ScmObj.ptr 16, some 80⟩], 4⟩ ∧
    (run exRuntime boot exReuse).spill ≠
      some ⟨[⟨ScmObj.ptr 16, some 80⟩, ⟨ScmObj.ptr 16, some 80⟩], 2⟩ ∧
    (run exRuntime boot exReuse).warnings = [] ∧
    Scm_ProfilerRawResult exRuntime okEnv (run exRuntime boot exReuse) =
      (ScmResult.statHash [⟨ScmObj.ptr 8, 1, 3⟩, ⟨ScmObj.ptr 16, 1, 3⟩],
       (Scm_ProfilerRawResult exRuntime okEnv (run exRuntime boot exReuse)).2) ∧
    (Scm_ProfilerRawResult exRuntime okEnv (run exRuntime boot exReuse)).2.warnings =
      [Diag.uncounted (ScmObj.ptr 0), Diag.uncounted (ScmObj.ptr 0)] := by
  decide

end Prof
